import Mathlib

/-!
Brick ACME CA: web front-end and validation authority

A shallow embedding of the parts of `brickweb` and `brickvalidation` that the
specification's contract sentences talk about, followed by the theorems that
settle them.

Conventions of the embedding:

* Go `string` values are Lean `String`s, except for the HTTP-01 probe body,
  which is a byte slice and is kept as `List UInt8`.
* Collaborators reached through an interface (storage, CA, VA, the JOSE
  library) are function-valued parameters; every call that changes a
  collaborator is recorded in an effect log returned by the handler.
* Reads of the clock and of the random source are explicit arguments.
-/

namespace Brick

deriving instance DecidableEq for Except

/-! ## `brickweb/wfe/nonce/nonce.go` -/

/-- Go `type Nonce string`. -/
abbrev Nonce := String

/-- Go `const MaxUsed = 512`. -/
def MaxUsed : Nat := 512

/-- Go `nonceImpl`: the field `nonces map[Nonce]struct{}` is a finite set of
nonces. The channel `nextNonce` is fed by `generate` from the random source;
what it delivers is an argument of `Next`. -/
structure nonceImpl where
  nonces : Finset Nonce
  deriving DecidableEq

/-- Go `NewNoncer`: the service starts with an empty map. -/
def NewNoncer : nonceImpl := ⟨∅⟩

/-- Go `nonceImpl.Valid`: membership test, deleting the nonce when present. -/
def nonceImpl.Valid (n : nonceImpl) (nonce : Nonce) : nonceImpl × Bool :=
  if nonce ∈ n.nonces then (⟨n.nonces.erase nonce⟩, true) else (n, false)

/-- Go `nonceImpl.Next`: when the map holds more than `MaxUsed` entries it is
replaced by a fresh empty map; then the nonce `drawn` from the channel is
registered and returned. -/
def nonceImpl.Next (n : nonceImpl) (drawn : Nonce) : nonceImpl × Nonce :=
  let kept : Finset Nonce := if n.nonces.card > MaxUsed then ∅ else n.nonces
  (⟨insert drawn kept⟩, drawn)

/-- One call on the nonce service: `Next`, with the nonce the generator
delivers to it, or `Valid` with its argument. -/
inductive NonceCall where
  | next (drawn : Nonce)
  | valid (nonce : Nonce)
  deriving DecidableEq, Repr

/-- State of the service after one call. -/
def nonceImpl.call (n : nonceImpl) : NonceCall → nonceImpl
  | .next drawn => (n.Next drawn).1
  | .valid nonce => (n.Valid nonce).1

/-- State of the service after a sequence of calls. -/
def nonceImpl.run (n : nonceImpl) : List NonceCall → nonceImpl
  | [] => n
  | c :: cs => (n.call c).run cs

/-- Whether some `Next` call of the sequence finds more than `MaxUsed`
entries in the map, and so drops the whole set. -/
def nonceImpl.flushes (n : nonceImpl) : List NonceCall → Bool
  | [] => false
  | .next drawn :: cs =>
      decide (n.nonces.card > MaxUsed) || (n.call (.next drawn)).flushes cs
  | .valid nonce :: cs => (n.call (.valid nonce)).flushes cs

/-- A 22-character nonce in the URL-safe base64 alphabet, indexed by `i`:
twenty `A`s followed by two capital letters that spell `i` in base 26. -/
def sampleNonce (i : Nat) : Nonce :=
  String.mk (List.replicate 20 'A' ++ [Char.ofNat (65 + i / 26), Char.ofNat (65 + i % 26)])

/-- The calls `Next` receiving `sampleNonce lo`, ..., `sampleNonce (lo + k - 1)`. -/
def sampleNexts (lo k : Nat) : List NonceCall :=
  (List.range' lo k).map (fun i => NonceCall.next (sampleNonce i))

/-! ## `brickweb/acme/problems.go`, `core/berrors/brick_problem.go` -/

/-- Go `acme.ProblemDetails`; `Typ` is the Go field `Type`. The field `Subproblems` is filled only by
`CompoundProblem`, which no modelled path calls, and is left out. -/
structure ProblemDetails where
  Typ : String
  Detail : String
  HTTPStatus : Nat
  TraceID : String := ""
  deriving DecidableEq, Repr

def errNS : String := "urn:ietf:params:acme:error:"
def serverInternalErr : String := errNS ++ "serverInternal"
def malformedErr : String := errNS ++ "malformed"
def badNonceErr : String := errNS ++ "badNonce"
def connectionErr : String := errNS ++ "connection"
def unauthorizedErr : String := errNS ++ "unauthorized"
def accountDoesNotExistErr : String := errNS ++ "accountDoesNotExist"
def badSignatureAlgorithmErr : String := errNS ++ "badSignatureAlgorithm"
def orderNotReadyErr : String := errNS ++ "orderNotReady"
def alreadyRevokedErr : String := errNS ++ "alreadyRevoked"

def InternalErrorProblem (detail : String) : ProblemDetails :=
  { Typ := serverInternalErr, Detail := detail, HTTPStatus := 500 }

def BadSignatureAlgorithmProblem (detail : String) : ProblemDetails :=
  { Typ := badSignatureAlgorithmErr, Detail := detail, HTTPStatus := 400 }

def MalformedProblem (detail : String) : ProblemDetails :=
  { Typ := malformedErr, Detail := detail, HTTPStatus := 400 }

def NotFoundProblem (detail : String) : ProblemDetails :=
  { Typ := malformedErr, Detail := detail, HTTPStatus := 404 }

def OrderNotReadyProblem (detail : String) : ProblemDetails :=
  { Typ := orderNotReadyErr, Detail := detail, HTTPStatus := 403 }

def BadNonceProblem (detail : String) : ProblemDetails :=
  { Typ := badNonceErr, Detail := detail, HTTPStatus := 400 }

def ConnectionProblem (detail : String) : ProblemDetails :=
  { Typ := connectionErr, Detail := detail, HTTPStatus := 400 }

def UnauthorizedProblem (detail : String) : ProblemDetails :=
  { Typ := unauthorizedErr, Detail := detail, HTTPStatus := 403 }

def AccountDoesNotExistProblem (detail : String) : ProblemDetails :=
  { Typ := accountDoesNotExistErr, Detail := detail, HTTPStatus := 400 }

def UnsupportedMediaTypeProblem (detail : String) : ProblemDetails :=
  { Typ := malformedErr, Detail := detail, HTTPStatus := 415 }

/-- Go `ProblemDetails.Error` for a problem without subproblems. -/
def ProblemDetails.Error (pd : ProblemDetails) : String :=
  pd.Typ ++ " :: " ++ pd.Detail

/-- Go `berrors.errorType` with its four constants. -/
inductive errorType where
  | notFoundType
  | notImplementedType
  | timeoutType
  | unknownType
  deriving DecidableEq, Repr

def errorType.toString : errorType → String
  | .notFoundType => "NotFound"
  | .notImplementedType => "NotImplemented"
  | .timeoutType => "Timeout"
  | .unknownType => "Unknown"

/-- Go `berrors.BrickProblem`; `Typ` is the Go field `Type`. -/
structure BrickProblem where
  Typ : errorType
  Detail : String
  deriving DecidableEq, Repr

def BrickProblem.Error (b : BrickProblem) : String :=
  b.Typ.toString ++ " :: " ++ b.Detail

/-- A non-nil Go `error`, by dynamic type: `*acme.ProblemDetails`,
`*berrors.BrickProblem`, or anything else (carrying its message). -/
inductive GoError where
  | problem (p : ProblemDetails)
  | brick (b : BrickProblem)
  | plain (msg : String)
  deriving DecidableEq, Repr

def GoError.Error : GoError → String
  | .problem p => p.Error
  | .brick b => b.Error
  | .plain msg => msg

/-- Go `berrors.IsNotFoundError` on a non-nil error. -/
def IsNotFoundError : GoError → Option BrickProblem
  | .brick b => if b.Typ = errorType.notFoundType then some b else none
  | _ => none

def NotFoundError (detail : String) : BrickProblem :=
  { Typ := .notFoundType, Detail := detail }

/-- Go `berrors.UnknownError`. -/
def UnknownError (err : GoError) : BrickProblem :=
  { Typ := .unknownType, Detail := "A deeper error occured: " ++ err.Error }

/-! ## JOSE values (`gopkg.in/square/go-jose.v2`, `crypto/rsa`, `crypto/ecdsa`) -/

/-- The named elliptic curves that Go's X.509 and JWK parsers produce. -/
inductive Curve where
  | P224
  | P256
  | P384
  | P521
  deriving DecidableEq, Repr

/-- Go `Curve.Params().Name`. -/
def Curve.Name : Curve → String
  | .P224 => "P-224"
  | .P256 => "P-256"
  | .P384 => "P-384"
  | .P521 => "P-521"

/-- A Go `crypto.PublicKey` (an empty interface), by dynamic type:
`*rsa.PublicKey` with modulus `N` and exponent `E`, `*ecdsa.PublicKey` with
its curve and point, or a value of any other type (Ed25519 keys, private
keys, symmetric keys), of which only the type name is kept. -/
inductive PublicKey where
  | rsa (N : Int) (E : Int)
  | ecdsa (curve : Curve) (X : Int) (Y : Int)
  | other (typeName : String)
  deriving DecidableEq, Repr

/-- Go `jose.JSONWebKey`. -/
structure JSONWebKey where
  Key : PublicKey
  KeyID : String := ""
  Algorithm : String := ""
  Use : String := ""
  deriving DecidableEq, Repr

/-- A value of a JOSE extra header (`interface{}`): a JSON string, or any
other JSON value, kept as its text. -/
inductive HeaderValue where
  | str (s : String)
  | nonString (json : String)
  deriving DecidableEq, Repr

/-- Go `jose.Header`. -/
structure Header where
  KeyID : String := ""
  JSONWebKey : Option JSONWebKey := none
  Algorithm : String := ""
  Nonce : String := ""
  ExtraHeaders : List (String × HeaderValue) := []
  deriving DecidableEq, Repr

/-- Go `jose.Signature`: the merged header and the raw signature bytes (`Raw`). -/
structure Signature where
  Header : Header
  Raw : String := ""
  deriving DecidableEq, Repr

/-- Go `jose.JSONWebSignature` as `ParseJWS` returns it, that is with exactly
one signature (`Signatures[0]`), together with the signed payload text. -/
structure JSONWebSignature where
  payload : String
  Signatures0 : Signature
  deriving DecidableEq, Repr

/-- What `jose.ParseSigned` returns: the payload text and any number of
signatures. -/
structure ParsedSigned where
  payload : String
  Signatures : List Signature
  deriving DecidableEq, Repr

/-- The local struct `unprotected` of `ParseJWS` after `json.Unmarshal`: the
`Header` map (absent when nil) and the slice `Signatures`, its elements as
JSON text. The slice is nil (`none`) when the body has no `signatures` member
or has it as `null`, and an empty non-nil slice (`some []`) when the member is
the empty array. -/
structure Unprotected where
  Header : Option (List (String × String)) := none
  Signatures : Option (List String) := none
  deriving DecidableEq, Repr

/-- Go `x509.CertificateRequest`, kept as its DER bytes. -/
structure CertificateRequest where
  Raw : List UInt8
  deriving DecidableEq, Repr

/-- Go `http.Request`: the fields the handlers read. `Header` is the map from
canonical header names to their values; `Body` is absent for a nil body and
otherwise the outcome of `ioutil.ReadAll` on it. -/
structure Request where
  Method : String
  Host : String
  RequestURI : String
  Header : List (String × List String) := []
  Body : Option (Except GoError (List UInt8)) := none
  deriving DecidableEq

/-! ## `brickweb/acme/common.go`, `core/types.go`, `core/cert.go` -/

/-- Go `time.Time`, as the time elapsed since Go's zero time, in nanoseconds;
`IsZero` is equality with 0 and `Before` is `<`. -/
abbrev Time := Nat

/-- Go `time.Hour`, a duration in nanoseconds. -/
def Hour : Nat := 3600000000000

def StatusPending : String := "pending"
def StatusInvalid : String := "invalid"
def StatusValid : String := "valid"
def StatusExpired : String := "expired"
def StatusProcessing : String := "processing"
def StatusReady : String := "ready"
def StatusDeactivated : String := "deactivated"

/-- Go `acme.HTTP01BaseURL`. -/
def HTTP01BaseURL : String := ".well-known/acme-challenge/"

/-- Go `acme.Identifier`; `Typ` is the Go field `Type`. -/
structure acme.Identifier where
  Typ : String
  Value : String
  deriving DecidableEq, Repr

/-- Go `acme.Account`. -/
structure acme.Account where
  Status : String
  Contact : List String := []
  Orders : String := ""
  deriving DecidableEq, Repr

/-- Go `acme.Order`. -/
structure acme.Order where
  Status : String
  Error : Option ProblemDetails := none
  Expires : String := ""
  Identifiers : List acme.Identifier := []
  Finalize : String := ""
  NotBefore : String := ""
  NotAfter : String := ""
  Authorizations : List String := []
  Certificate : String := ""
  deriving DecidableEq, Repr

/-- Go `acme.Challenge`; `Typ` is the Go field `Type`. -/
structure acme.Challenge where
  Typ : String
  URL : String
  Token : String
  Status : String
  Validated : String := ""
  Error : Option ProblemDetails := none
  deriving DecidableEq, Repr

/-- Go `core.Account` (embedding `acme.Account`); `ExternalIdentifier` is a
Go `external.Identifier`, a string. -/
structure core.Account extends acme.Account where
  Key : JSONWebKey
  ID : String
  CreatedAt : Time := 0
  ExternalIdentifier : String := ""
  deriving DecidableEq, Repr

/-- Go `core.Challenge`; `Typ` is the Go field `Type`. -/
structure core.Challenge where
  Token : String
  Status : String
  ValidatedAt : Time := 0
  Error : Option ProblemDetails := none
  Typ : String
  ID : String
  AuthzID : String
  deriving DecidableEq, Repr

/-- Go `core.Authorization`. -/
structure core.Authorization where
  Status : String
  Identifier : acme.Identifier
  Wildcard : Bool := false
  Challenges : List core.Challenge := []
  ID : String
  ExpiresDate : Time
  AccountID : String
  deriving DecidableEq, Repr

/-- Go `core.Order` (embedding `acme.Order`). -/
structure core.Order extends acme.Order where
  ID : String
  CertificateID : String := ""
  AuthzIDs : List String := []
  AccountID : String
  deriving DecidableEq, Repr

/-- Go `x509.Certificate`: the fields the front end reads. -/
structure X509Certificate where
  PublicKey : PublicKey
  SubjectCommonName : String := ""
  DNSNames : List String := []
  SerialNumber : Int := 0
  RawIssuer : List UInt8 := []
  deriving DecidableEq, Repr

/-- Go `core.Certificate`. -/
structure core.Certificate where
  ID : String
  Cert : X509Certificate
  DER : List UInt8 := []
  IssuerID : String := ""
  IssuerNameHash : List UInt8 := []
  RevocationTime : Time := 0
  Serial : Int := 0
  OrderID : String := ""
  deriving DecidableEq, Repr

/-- Go `core.VerificationRequest`; the `Context` field only carries tracing
data and is left out. -/
structure core.VerificationRequest where
  Challenge : core.Challenge
  Authorization : core.Authorization
  AccountJWK : JSONWebKey
  Retries : Int := 0
  deriving DecidableEq, Repr

/-- Go `acme.AccountCreation`. The map `ExternalAccountBinding` is `none` when
nil (the member is absent or `null`) and otherwise the list of its entries,
the values as JSON text. -/
structure acme.AccountCreation where
  Contact : List String := []
  ExternalAccountBinding : Option (List (String × String)) := none
  OnlyReturnExisting : Bool := false
  deriving DecidableEq, Repr

/-- Go `core.AddChallenge`; `Typ` is the Go field `Type`. -/
structure core.AddChallenge where
  Typ : String
  Token : String
  deriving DecidableEq, Repr

/-- Go `core.AddAuthz`. -/
structure core.AddAuthz where
  Challenges : List core.AddChallenge
  ExpiresDate : String
  Identifier : acme.Identifier
  AccountID : String
  deriving DecidableEq, Repr

/-- Go `core.AddOrderRequest`. -/
structure core.AddOrderRequest where
  Authz : List String
  ExpiresDate : String
  RequestedNotBeforeDate : String
  RequestedNotAfterDate : String
  AccountID : String
  deriving DecidableEq, Repr

/-- The local struct `newOrderReq` of `NewOrder` after `json.Unmarshal`; an
absent `identifiers` member leaves the slice empty. -/
structure NewOrderReq where
  Identifiers : List acme.Identifier := []
  NotBefore : String := ""
  NotAfter : String := ""
  deriving DecidableEq, Repr

/-- The local struct `updateAccountReq` of `UpdateAccount` after
`json.Unmarshal`; absent members leave the zero values. -/
structure UpdateAccountReq where
  Contact : List String := []
  Status : String := ""
  deriving DecidableEq, Repr

/-- Go `acme.Authorization`. -/
structure acme.Authorization where
  Status : String
  Identifier : acme.Identifier
  Challenges : List acme.Challenge
  Expires : String
  Wildcard : Bool := false
  deriving DecidableEq, Repr

/-- Modelled from the spec: the generated type `corepb.Account` is not under
`src/`. It is the wire form of an account, with the fields that
`accountToProto` fills and `protoToAccount` reads. -/
structure proto.Account where
  Id : String
  Key : List UInt8
  Status : String
  Contact : List String
  CreatedAt : String
  ExternalIdentifier : String
  deriving DecidableEq, Repr

/-- Go `x509.VerifyOptions` as `customVerify` fills it; `KeyUsages` is always
the one usage `ExtKeyUsageServerAuth`. -/
structure VerifyOptions where
  DNSName : String
  Intermediates : List X509Certificate
  Roots : List X509Certificate
  deriving DecidableEq, Repr

/-- The bytes of a Go string: the UTF-8 encoding of its characters. -/
def goBytes (s : String) : List UInt8 := s.data.flatMap String.utf8EncodeChar

/-- Library functions the front end calls and the embedding does not
interpret: `JSONWebSignature.Verify` (signature check, returning the payload),
`url.URL.String` of a URL built from scheme, host and path, `fmt`'s `%q`
rendering of a string (given as its bytes),
`JSONWebKey.Thumbprint(crypto.SHA256)`, and the functions named at the
further fields. -/
structure Lib where
  Verify : JSONWebSignature → JSONWebKey → Except GoError (List UInt8)
  URLString : String → String → String → String
  Quote : List UInt8 → String
  Thumbprint : JSONWebKey → Except GoError (List UInt8)
  /-- `json.Unmarshal` of a request body into the struct `unprotected`. -/
  UnmarshalUnprotected : List UInt8 → Except GoError Unprotected
  /-- `jose.ParseSigned`. -/
  ParseSigned : List UInt8 → Except GoError ParsedSigned
  /-- `json.Unmarshal` of a JWS payload (nil for POST-as-GET) into
  `struct { CSR string }`, giving the `CSR` field. -/
  UnmarshalFinalize : Option (List UInt8) → Except GoError String
  /-- `base64.RawURLEncoding.DecodeString`. -/
  DecodeString : String → Except GoError (List UInt8)
  /-- `x509.ParseCertificateRequest`. -/
  ParseCertificateRequest : List UInt8 → Except GoError CertificateRequest
  /-- `time.Time.Format(time.RFC3339)`. -/
  FormatRFC3339 : Nat → String
  /-- The error of `http.NewRequest(http.MethodGet, url, nil)`, `none` for nil. -/
  NewRequest : String → Option GoError
  /-- `x509.MarshalPKIXPublicKey`: the SPKI DER encoding of a public key. -/
  MarshalPKIXPublicKey : PublicKey → Except GoError (List UInt8)
  /-- `sha256.Sum256`: a digest of 32 bytes. -/
  Sum256 : List UInt8 → { digest : List UInt8 // digest.length = 32 }
  /-- `sha1.Sum`. -/
  Sum1 : List UInt8 → List UInt8
  /-- `JSONWebKey.Valid`. -/
  JWKValid : JSONWebKey → Bool
  /-- `json.Unmarshal` of a JWS payload into `acme.AccountCreation`. -/
  UnmarshalAccountCreation : List UInt8 → Except GoError acme.AccountCreation
  /-- `json.Unmarshal` of a JWS payload (nil for POST-as-GET) into the struct
  `newOrderReq`. -/
  UnmarshalNewOrder : Option (List UInt8) → Except GoError NewOrderReq
  /-- `json.Unmarshal` of a JWS payload into `struct { Certificate string }`,
  giving the `Certificate` field. -/
  UnmarshalRevocation : List UInt8 → Except GoError String
  /-- `x509.ParseCertificate`. -/
  ParseCertificate : List UInt8 → Except GoError X509Certificate
  /-- `fmt`'s `%v` rendering of a `time.Time`. -/
  FormatTime : Nat → String
  /-- `json.Unmarshal` of a JWS payload (nil for POST-as-GET) into the struct
  `updateAccountReq`. -/
  UnmarshalUpdateAccount : Option (List UInt8) → Except GoError UpdateAccountReq
  /-- `JSONWebKey.MarshalJSON`. -/
  JWKMarshalJSON : JSONWebKey → Except GoError (List UInt8)
  /-- `JSONWebKey.UnmarshalJSON` into a fresh key. -/
  JWKUnmarshalJSON : List UInt8 → Except GoError JSONWebKey
  /-- `time.Parse(time.RFC3339, s)`. -/
  ParseRFC3339 : String → Except GoError Nat
  /-- `x509.Certificate.Verify`, giving the error (`none` for nil). -/
  CertificateVerify : X509Certificate → VerifyOptions → Option GoError

/-! ## `brickweb/policy/policy.go`, `brickweb/wfe/wfecrypto/jose.go` -/

/-- Go `policy.GetAllowedJWSAlgorithms`. -/
def GetAllowedJWSAlgorithms : List String := ["ES256", "ES384", "ES512", "RS256"]

/-- Go `AlgorithmForKey`. -/
def AlgorithmForKey (key : JSONWebKey) : Except GoError String :=
  match key.Key with
  | .rsa _ _ => .ok "RS256"
  | .ecdsa curve _ _ =>
      if curve.Name = "P-256" then .ok "ES256"
      else if curve.Name = "P-384" then .ok "ES384"
      else if curve.Name = "P-521" then .ok "ES512"
      else .error (.plain "no signature algorithms suitable for given key type")
  | .other _ => .error (.plain "no signature algorithms suitable for given key type")

/-- Go `CheckAlgorithm`; `none` is the nil error. -/
def CheckAlgorithm (key : JSONWebKey) (parsedJws : JSONWebSignature) : Option GoError :=
  match AlgorithmForKey key with
  | .error err => some err
  | .ok algorithm =>
    let jwsAlgorithm := parsedJws.Signatures0.Header.Algorithm
    if jwsAlgorithm ≠ algorithm then
      some (.plain ("signature type '" ++ jwsAlgorithm ++
        "' in JWS header is not supported, expected one of RS256, ES256, ES384 or ES512"))
    else
      let allowedAlgorithms := GetAllowedJWSAlgorithms
      let ok := allowedAlgorithms.any (fun algo => algo == algorithm)
      if !ok then
        some (.plain ("algorithm '" ++ algorithm ++ "' is disallowed by Policy. Use one of " ++
          ",".intercalate allowedAlgorithms))
      else if key.Algorithm ≠ "" ∧ key.Algorithm ≠ algorithm then
        some (.plain ("algorithm '" ++ key.Algorithm ++ "' on JWK is unacceptable"))
      else none

/-- The natural algorithm of a key, in the specification's words: RS256 for an
RSA key, ES256, ES384, ES512 for an ECDSA key on P-256, P-384, P-521, and none
for every other key. -/
def naturalAlgorithm : PublicKey → Option String
  | .rsa _ _ => some "RS256"
  | .ecdsa .P256 _ _ => some "ES256"
  | .ecdsa .P384 _ _ => some "ES384"
  | .ecdsa .P521 _ _ => some "ES512"
  | _ => none

/-! ## `brickweb/wfe/common.go`: `verifyJWS` -/

/-- Go `verifyJWS`. The nonce service is the interface value `wfe.Noncer`:
`Valid` is its method, threaded through the service state `σ`. The result is
the service state after the call and either the payload or the problem. -/
def verifyJWS {σ : Type} (lib : Lib) (Valid : σ → Nonce → σ × Bool) (noncer : σ)
    (pubKey : JSONWebKey) (parsedJWS : JSONWebSignature) (request : Request) :
    σ × Except ProblemDetails (List UInt8) :=
  match lib.Verify parsedJWS pubKey with
  | .error _ => (noncer, .error (MalformedProblem "JWS verification error"))
  | .ok payload =>
    match CheckAlgorithm pubKey parsedJWS with
    | some err =>
      (noncer, .error (BadSignatureAlgorithmProblem ("Bad Signature Algorithm : " ++ err.Error)))
    | none =>
      let non := parsedJWS.Signatures0.Header.Nonce
      if non.length = 0 then
        (noncer, .error (BadNonceProblem "JWS has no anti-replay nonce"))
      else
        let (noncer1, valid) := Valid noncer non
        if !valid then
          (noncer1, .error (BadNonceProblem ("JWS has an invalid anti-replay nonce: " ++ non)))
        else
          let headerURL : Option String :=
            match parsedJWS.Signatures0.Header.ExtraHeaders.lookup "url" with
            | some (.str s) => some s
            | _ => none
          match headerURL with
          | none => (noncer1, .error (MalformedProblem "JWS header parameter 'url' required."))
          | some headerURL =>
            if headerURL.length = 0 then
              (noncer1, .error (MalformedProblem "JWS header parameter 'url' required."))
            else
              let expectedURL := lib.URLString "https" request.Host request.RequestURI
              let expectedURLHttp := lib.URLString "http" request.Host request.RequestURI
              if expectedURL ≠ headerURL ∧ expectedURLHttp ≠ headerURL then
                (noncer1, .error (MalformedProblem
                  ("JWS header parameter 'url' incorrect. Expected " ++
                    lib.Quote (goBytes expectedURL) ++ ", got " ++
                    lib.Quote (goBytes headerURL))))
              else (noncer1, .ok payload)

/-! ## Collaborators of the front end (`wfe_storage.go`, `wfe.go`) -/

/-- One call on a collaborator of the front end (storage, CA, VA), with its
arguments. The handlers append every call they make to a log of these. -/
inductive Call where
  | GetAccountByID (id : String)
  | GetOrderByID (id : String)
  | GetAuthorizationByID (id : String)
  | UpdateOrder (order : core.Order)
  | GetChallengeByID (id : String)
  | UpdateChallengeStatus (id : String) (status : String)
  | UpdateAuthorization (chal : core.Challenge) (authzID : String) (status : String)
  | CompleteOrder (order : core.Order) (csr : CertificateRequest)
  | DoValidation (req : core.VerificationRequest)
  | AddAccount (acct : core.Account)
  | GetAuthFromIdent (identifier : acme.Identifier) (acct : core.Account)
  | AddOrder (req : core.AddOrderRequest)
  | AddAuthorization (authz : core.AddAuthz)
  | GetCertificateBySerial (serial : Int) (issuerNameHash : List UInt8)
  | RevokeCertificate (id : String) (reason : Int)
  | UpdateAccount (acct : core.Account)
  deriving DecidableEq, Repr

/-- Go interface `storage` (the methods the modelled handlers call). The
storage authority is a remote service with state of its own: each method is
given the log of the calls made so far, on which its answer may depend. A
method returning only an `error` answers `none` for nil. -/
structure storage where
  GetAccountByID : List Call → String → Except GoError core.Account
  GetOrderByID : List Call → String → Except GoError core.Order
  GetAuthorizationByID : List Call → String → Except GoError core.Authorization
  UpdateOrder : List Call → core.Order → Option GoError
  GetChallengeByID : List Call → String → Except GoError (core.Challenge × String × String)
  UpdateChallengeStatus : List Call → String → String → Option GoError
  UpdateAuthorization : List Call → core.Challenge → String → String → Option GoError
  AddAccount : List Call → core.Account → Option GoError
  GetAuthFromIdent : List Call → acme.Identifier → core.Account →
    Except GoError core.Authorization
  AddOrder : List Call → core.AddOrderRequest → Except GoError String
  AddAuthorization : List Call → core.AddAuthz → Except GoError String
  GetCertificateBySerial : List Call → Int → List UInt8 → Except GoError core.Certificate
  RevokeCertificate : List Call → String → Int → Option GoError
  UpdateAccount : List Call → core.Account → Option GoError

/-- Go interface `ca`. -/
structure ca where
  CompleteOrder : List Call → core.Order → CertificateRequest → Option GoError

/-- Go interface `va`. -/
structure va where
  DoValidation : List Call → core.VerificationRequest → Option GoError

/-- Go `WebFrontEndImpl`: the fields the modelled handlers read. The nonce
service `Noncer` is passed to the handlers as a state, the library functions
as `lib`. -/
structure WebFrontEndImpl where
  ca : ca
  db : storage
  BasePath : String
  ProhibitGet : Bool := false
  Validation : va
  WaitForIssuanceOnFinalize : Bool := false
  lib : Lib
  /-- Go field `AccountValidator` (interface `external.AccountValidator`): nil,
  or the method `Validate` of the configured validator. -/
  AccountValidator : Option (Option (List (String × String)) → Except GoError String) := none

def acctPath : String := "/acct/"
def orderPath : String := "/order/"
def orderFinalizePath : String := "/finalize-order/"
def authzPath : String := "/authZ/"
def challengePath : String := "/chalZ/"
def certPath : String := "/certZ/"

/-- Go `WebFrontEndImpl.RelativePath`. -/
def WebFrontEndImpl.RelativePath (wfe : WebFrontEndImpl) (p : String) : String :=
  wfe.BasePath ++ p

/-- Go `strings.HasPrefix`. -/
def HasPrefix (s pre : String) : Bool := pre.data.isPrefixOf s.data

/-- Go `strings.TrimPrefix`. -/
def TrimPrefix (s pre : String) : String :=
  if HasPrefix s pre then String.mk (s.data.drop pre.data.length) else s

/-! ## `brickweb/wfe/revoke.go`: `checkRevocationAuthorization` -/

/-- Go `checkRevocationAuthorization`: the type switch on the JWS key, the
type assertion on the certificate key, and the comparisons of `big.Int`s
with `Cmp`. The returned error is always nil. -/
def checkRevocationAuthorization (key : PublicKey) (cert : core.Certificate) :
    Bool × Option GoError :=
  match key with
  | .rsa jwsN _ =>
    match cert.Cert.PublicKey with
    | .rsa certN _ => (decide (certN = jwsN), none)
    | _ => (false, none)
  | .ecdsa jwsCurve jwsX jwsY =>
    match cert.Cert.PublicKey with
    | .ecdsa certCurve certX certY =>
      (decide (certCurve.Name = jwsCurve.Name) && decide (certX = jwsX) && decide (certY = jwsY),
        none)
    | _ => (false, none)
  | .other _ => (false, none)

/-! ## `brickweb/wfe/common.go`: `lookupJWK` -/

/-- Go `lookupJWK`: the call log is extended by the storage lookup when it is
reached. -/
def WebFrontEndImpl.lookupJWK (wfe : WebFrontEndImpl) (log : List Call)
    (jws : JSONWebSignature) : List Call × Except ProblemDetails core.Account :=
  let header := jws.Signatures0.Header
  let accountURL := header.KeyID
  let pre := wfe.RelativePath acctPath
  if !HasPrefix accountURL pre then
    (log, .error (MalformedProblem "Key ID (kid) in JWS header missing expected URL prefix"))
  else
    let accountID := TrimPrefix accountURL pre
    if accountID = "" then
      (log, .error (MalformedProblem "No KID in JWS Header"))
    else
      let log1 := log ++ [Call.GetAccountByID accountID]
      match wfe.db.GetAccountByID log accountID with
      | .error err =>
        match IsNotFoundError err with
        | some _ => (log1, .error (AccountDoesNotExistProblem "Account not found"))
        | none => (log1, .error (InternalErrorProblem "Error looking up Account"))
      | .ok account =>
        match header.JSONWebKey with
        | some _ =>
          (log1, .error (MalformedProblem "jwk and kid header fields are mutually exclusive."))
        | none => (log1, .ok account)

/-! ## `brickweb/wfe/errorhandling.go`, `common.go`: responses and `verifyPOST` -/

/-- A JSON document written by `writeJSONResponse`; `null` is what a nil value
is marshalled to. -/
inductive Document where
  | challenge (c : acme.Challenge)
  | order (o : acme.Order)
  | account (a : acme.Account)
  | null
  | coreAccount (a : core.Account)
  deriving DecidableEq, Repr

/-- One write on the `http.ResponseWriter`: a problem document sent by
`sendError` (with the problem's HTTP status), a JSON document sent by
`writeJSONResponse`, a header set on the response, or a bare `WriteHeader`
with a status code. -/
inductive Write where
  | problem (prob : ProblemDetails)
  | json (status : Nat) (doc : Document)
  | header (name : String) (value : String)
  | status (code : Nat)
  deriving DecidableEq, Repr

/-- What a handler has done so far: the state of the nonce service, the log
of collaborator calls, and the writes on the response. -/
structure Exchange (σ : Type) where
  noncer : σ
  log : List Call
  response : List Write

/-- Go `sendError` for a non-nil problem: the trace id of the request is put in
the problem, which is written with its HTTP status. -/
def sendError (traceID : String) (prob : ProblemDetails) : Write :=
  .problem { prob with TraceID := traceID }

/-- Go `handleError` for a non-nil error. -/
def handleError (traceID : String) (err : GoError) : Write :=
  match err with
  | .problem e => sendError traceID e
  | .brick _ => sendError traceID (InternalErrorProblem "Something went wrong internally")
  | .plain _ => sendError traceID (InternalErrorProblem "Something went very wrong internally")

/-- Go `http.Header.Get`: the first value of the header, or the empty string. -/
def headerGet (h : List (String × List String)) (name : String) : String :=
  match h.lookup name with
  | some (v :: _) => v
  | _ => ""

def expectedJWSContentType : String := "application/jose+json"

/-- Go `validPOST`; `none` is the nil problem. -/
def validPOST (request : Request) : Option ProblemDetails :=
  if (request.Header.lookup "Content-Type").isNone then
    some (UnsupportedMediaTypeProblem
      ("missing Content-Type header on POST. " ++
        "Content-Type must be \"application/jose+json\""))
  else if headerGet request.Header "Content-Type" ≠ expectedJWSContentType then
    some (UnsupportedMediaTypeProblem
      ("Invalid Content-Type header on POST. " ++
        "Content-Type must be \"application/jose+json\""))
  else if (request.Header.lookup "Replay-Nonce").isSome then
    some (MalformedProblem
      "HTTP requests should NOT contain Replay-Nonce header. Use JWS nonce field")
  else none

/-- Go `ParseJWS`. -/
def ParseJWS (lib : Lib) (body : List UInt8) : Except GoError JSONWebSignature :=
  match lib.UnmarshalUnprotected body with
  | .error err => .error (.plain ("Parse error reading JWS: " ++ err.Error))
  | .ok unprotected =>
    if unprotected.Header.isSome then
      .error (.plain
        "JWS \"header\" field not allowed. All headers must be in \"protected\" field")
    else if (unprotected.Signatures.getD []).length > 0 then
      .error (.plain ("JWS \"signatures\" field not allowed. " ++
        "Only the \"signature\" field should contain a signature"))
    else
      match lib.ParseSigned body with
      | .error _ => .error (.plain "Parse error reading JWS")
      | .ok parsedJWS =>
        if parsedJWS.Signatures.length > 1 then
          .error (.plain "Too many signatures in POST body")
        else
          match parsedJWS.Signatures with
          | [] => .error (.plain "POST JWS not signed")
          | sig :: _ => .ok { payload := parsedJWS.payload, Signatures0 := sig }

/-- Go `postRequest`. -/
structure postRequest where
  isPostAsGet : Bool
  r : Request
  account : core.Account
  jwsBody : Option (List UInt8)
  deriving DecidableEq

/-- Go `verifyPOST`: the state of the nonce service and the call log after
the call, and the verified request or the problem. -/
def WebFrontEndImpl.verifyPOST {σ : Type} (wfe : WebFrontEndImpl)
    (Valid : σ → Nonce → σ × Bool) (noncer : σ) (log : List Call) (request : Request) :
    σ × List Call × Except ProblemDetails postRequest :=
  match validPOST request with
  | some prob => (noncer, log, .error prob)
  | none =>
    match request.Body with
    | none => (noncer, log, .error (MalformedProblem "no body on POST"))
    | some (.error _) =>
      (noncer, log, .error (InternalErrorProblem "unable to read request body"))
    | some (.ok bodyBytes) =>
      match ParseJWS wfe.lib bodyBytes with
      | .error err => (noncer, log, .error (MalformedProblem err.Error))
      | .ok parsedJWS =>
        match wfe.lookupJWK log parsedJWS with
        | (log1, .error prob) => (noncer, log1, .error prob)
        | (log1, .ok account) =>
          match verifyJWS wfe.lib Valid noncer account.Key parsedJWS request with
          | (noncer1, .error prob) => (noncer1, log1, .error prob)
          | (noncer1, .ok jwsPayload) =>
            if jwsPayload.length = 0 then
              (noncer1, log1, .ok
                { isPostAsGet := true, r := request, account := account, jwsBody := none })
            else
              (noncer1, log1, .ok
                { isPostAsGet := false, r := request, account := account,
                  jwsBody := some jwsPayload })

/-! ## `brickweb/wfe/challenge.go`, `common.go`, `wfe.go`: challenges -/

/-- The exchange after a collaborator call. -/
def Exchange.called {σ : Type} (st : Exchange σ) (c : Call) : Exchange σ :=
  { st with log := st.log ++ [c] }

/-- The exchange after a write on the response. -/
def Exchange.wrote {σ : Type} (st : Exchange σ) (w : Write) : Exchange σ :=
  { st with response := st.response ++ [w] }

/-- Go `db.SetChalProcessing`. -/
def SetChalProcessing (db : storage) (log : List Call) (chalID : String) :
    List Call × Option GoError :=
  (log ++ [Call.UpdateChallengeStatus chalID StatusProcessing],
    db.UpdateChallengeStatus log chalID StatusProcessing)

/-- Go `QueueValidateChallenge`: the challenge is set to processing, the
verification request is handed to the VA whatever storage answered, and the
storage error is returned. -/
def WebFrontEndImpl.QueueValidateChallenge (wfe : WebFrontEndImpl) (log : List Call)
    (challenge : core.Challenge) (authz : core.Authorization) (accountKey : JSONWebKey) :
    List Call × Option GoError :=
  let (log1, err) := SetChalProcessing wfe.db log challenge.ID
  let req : core.VerificationRequest :=
    { Challenge := challenge, Authorization := authz, AccountJWK := accountKey }
  (log1 ++ [Call.DoValidation req], err)

/-- Go `getChallengeJSON`. -/
def WebFrontEndImpl.getChallengeJSON (wfe : WebFrontEndImpl) (log : List Call) (ID : String) :
    List Call × Except GoError acme.Challenge :=
  let log1 := log ++ [Call.GetChallengeByID ID]
  match wfe.db.GetChallengeByID log ID with
  | .error err => (log1, .error err)
  | .ok (c, _, _) =>
    let validated := if c.ValidatedAt ≠ 0 then wfe.lib.FormatRFC3339 c.ValidatedAt else ""
    (log1, .ok
      { Typ := c.Typ, URL := wfe.RelativePath (challengePath ++ ID), Token := c.Token,
        Status := c.Status, Validated := validated, Error := none })

/-- The common tail of `HandleStartChallenge` and of the GET branch of
`PostChallenge`: queue the validation, then answer with the challenge. -/
def WebFrontEndImpl.queueAndAnswer {σ : Type} (wfe : WebFrontEndImpl) (traceID : String)
    (st : Exchange σ) (id : String) (chal : core.Challenge) (authz : core.Authorization)
    (accountKey : JSONWebKey) : Exchange σ :=
  match wfe.QueueValidateChallenge st.log chal authz accountKey with
  | (log1, some err) => { st with log := log1, response := st.response ++ [handleError traceID err] }
  | (log1, none) =>
    match wfe.getChallengeJSON log1 id with
    | (log2, .error err) =>
      { st with log := log2, response := st.response ++ [handleError traceID err] }
    | (log2, .ok acmeChal) =>
      { st with log := log2, response := st.response ++ [Write.json 200 (.challenge acmeChal)] }

/-- Go `HandleStartChallenge`; `now` is the reading of the clock. -/
def WebFrontEndImpl.HandleStartChallenge {σ : Type} (wfe : WebFrontEndImpl) (traceID : String)
    (now : Time) (st : Exchange σ) (postRequest : postRequest) (id : String) : Exchange σ :=
  let st1 := st.called (.GetChallengeByID id)
  match wfe.db.GetChallengeByID st.log id with
  | .error err => st1.wrote (handleError traceID err)
  | .ok (chal, owningAccID, authzID) =>
    if postRequest.account.ID ≠ owningAccID then
      st1.wrote (handleError traceID (.problem (UnauthorizedProblem
        "Account authenticating Request is not owner of the challenge")))
    else
      let st2 := st1.called (.GetAuthorizationByID authzID)
      match wfe.db.GetAuthorizationByID st1.log authzID with
      | .error err => st2.wrote (handleError traceID err)
      | .ok authz =>
        if authz.ExpiresDate < now then
          (st2.called (.UpdateAuthorization chal authzID StatusExpired)).wrote
            (handleError traceID (.problem (MalformedProblem
              ("The Authorization for " ++ authz.Identifier.Value ++ " is already expired"))))
        else
          wfe.queueAndAnswer traceID st2 id chal authz postRequest.account.Key

/-- Go `PostChallenge`, registered for every method on the challenge path;
`id` is the path parameter. -/
def WebFrontEndImpl.PostChallenge {σ : Type} (wfe : WebFrontEndImpl)
    (Valid : σ → Nonce → σ × Bool) (traceID : String) (now : Time) (st : Exchange σ)
    (r : Request) (id : String) : Exchange σ :=
  if r.Method ≠ "GET" ∧ r.Method ≠ "POST" then
    st.wrote (handleError traceID (.problem (MalformedProblem "Method not allowed")))
  else if r.Method = "POST" then
    match wfe.verifyPOST Valid st.noncer st.log r with
    | (noncer1, log1, .error prob) =>
      { noncer := noncer1, log := log1,
        response := st.response ++ [handleError traceID (.problem prob)] }
    | (noncer1, log1, .ok postRequest) =>
      let st1 : Exchange σ := { noncer := noncer1, log := log1, response := st.response }
      if !postRequest.isPostAsGet then
        wfe.HandleStartChallenge traceID now st1 postRequest id
      else
        match wfe.getChallengeJSON st1.log id with
        | (log2, .error err) =>
          { st1 with log := log2, response := st1.response ++ [handleError traceID err] }
        | (log2, .ok chal) =>
          { st1 with log := log2, response := st1.response ++ [Write.json 200 (.challenge chal)] }
  else
    if wfe.ProhibitGet then
      st.wrote (handleError traceID (.problem (MalformedProblem "Method not allowed")))
    else
      let st1 := st.called (.GetChallengeByID id)
      match wfe.db.GetChallengeByID st.log id with
      | .error err => st1.wrote (handleError traceID err)
      | .ok (chal, owningAccID, authzID) =>
        let st2 := st1.called (.GetAuthorizationByID authzID)
        match wfe.db.GetAuthorizationByID st1.log authzID with
        | .error err => st2.wrote (handleError traceID err)
        | .ok authz =>
          if authz.ExpiresDate < now then
            st2.wrote (handleError traceID (.problem (MalformedProblem
              ("The Authorization for " ++ authz.Identifier.Value ++ " is already expired"))))
          else
            let st3 := st2.called (.GetAccountByID owningAccID)
            match wfe.db.GetAccountByID st2.log owningAccID with
            | .error err => st3.wrote (handleError traceID err)
            | .ok acc => wfe.queueAndAnswer traceID st3 id chal authz acc.Key

/-- Whether a call starts a challenge validation: `UpdateChallengeStatus` or
`DoValidation`. -/
def Call.startsValidation : Call → Bool
  | .UpdateChallengeStatus _ _ => true
  | .DoValidation _ => true
  | _ => false

/-! ## `brickweb/wfe/common.go`, `wfe.go`: finalize -/

/-- Go `validateOrderForIssuance`; `none` is the nil problem. -/
def validateOrderForIssuance (order : core.Order) (acct : core.Account) :
    Option ProblemDetails :=
  if order.AccountID ≠ acct.ID then
    some (MalformedProblem "You are not the Owner of this Order")
  else if order.Status ≠ StatusReady then
    some (OrderNotReadyProblem ("Order Status is " ++ order.Status ++ ", not ready"))
  else none

/-- Go `orderForDisplay`. -/
def WebFrontEndImpl.orderForDisplay (wfe : WebFrontEndImpl) (log : List Call)
    (orderID : String) : List Call × Except GoError (acme.Order × String) :=
  let log1 := log ++ [Call.GetOrderByID orderID]
  match wfe.db.GetOrderByID log orderID with
  | .error err =>
    match IsNotFoundError err with
    | some _ => (log1, .error (.problem (NotFoundProblem "Order does not exist")))
    | none => (log1, .error err)
  | .ok order =>
    let shown : acme.Order :=
      { order.toOrder with
        Authorizations := order.AuthzIDs.map (fun authID => wfe.RelativePath (authzPath ++ authID)),
        Finalize := wfe.RelativePath (orderFinalizePath ++ order.ID),
        Certificate := wfe.RelativePath (certPath ++ order.CertificateID) }
    (log1, .ok (shown, order.AccountID))

/-- The polling loop of `FinalizeOrder` under `WaitForIssuanceOnFinalize`: the
order is read until storage fails or its status is valid or invalid. The loop
has no bound of its own; `fuel` bounds the number of reads, and `none` is
returned when it runs out. -/
def WebFrontEndImpl.waitForIssuance (wfe : WebFrontEndImpl) (orderID : String) :
    Nat → List Call → Option (List Call × Option GoError)
  | 0, _ => none
  | fuel + 1, log =>
    let log1 := log ++ [Call.GetOrderByID orderID]
    match wfe.db.GetOrderByID log orderID with
    | .error err => some (log1, some err)
    | .ok order =>
      if order.Status = StatusValid ∨ order.Status = StatusInvalid then some (log1, none)
      else wfe.waitForIssuance orderID fuel log1

/-- The end of `FinalizeOrder`: the order is read for display and written. -/
def WebFrontEndImpl.answerWithOrder {σ : Type} (wfe : WebFrontEndImpl) (traceID : String)
    (st : Exchange σ) (orderID : String) : Exchange σ :=
  match wfe.orderForDisplay st.log orderID with
  | (log1, .error err) =>
    { st with log := log1, response := st.response ++ [handleError traceID err] }
  | (log1, .ok (o, _)) =>
    { st with log := log1,
              response := st.response ++ [Write.header "Retry-After" "3", Write.json 200 (.order o)] }

/-- Go `FinalizeOrder`; `orderID` is the path parameter, `fuel` bounds the
polling loop (`none` when it runs out). After the first ownership check the
handler writes the problem and goes on: there is no `return` in that
branch. -/
def WebFrontEndImpl.FinalizeOrder {σ : Type} (wfe : WebFrontEndImpl)
    (Valid : σ → Nonce → σ × Bool) (traceID : String) (fuel : Nat) (st : Exchange σ)
    (r : Request) (orderID : String) : Option (Exchange σ) :=
  match wfe.verifyPOST Valid st.noncer st.log r with
  | (noncer1, log1, .error prob) =>
    some { noncer := noncer1, log := log1,
           response := st.response ++ [handleError traceID (.problem prob)] }
  | (noncer1, log1, .ok postRequest) =>
    let st1 : Exchange σ :=
      { noncer := noncer1, log := log1 ++ [Call.GetOrderByID orderID], response := st.response }
    match wfe.db.GetOrderByID log1 orderID with
    | .error err => some (st1.wrote (handleError traceID err))
    | .ok order =>
      let st2 :=
        if order.AccountID ≠ postRequest.account.ID then
          st1.wrote (handleError traceID (.problem (UnauthorizedProblem
            "AccountID and Order AccountID do not match")))
        else st1
      match validateOrderForIssuance order postRequest.account with
      | some prob => some (st2.wrote (sendError traceID prob))
      | none =>
        match wfe.lib.UnmarshalFinalize postRequest.jwsBody with
        | .error err => some (st2.wrote (handleError traceID err))
        | .ok csr =>
          match wfe.lib.DecodeString csr with
          | .error err =>
            some (st2.wrote (handleError traceID (.problem (MalformedProblem
              ("Error decoding Base64url-encoded CSR: " ++ err.Error)))))
          | .ok csrBytes =>
            match wfe.lib.ParseCertificateRequest csrBytes with
            | .error err =>
              some (st2.wrote (handleError traceID (.problem (MalformedProblem
                ("Error parsing Base64url-encoded CSR: " ++ err.Error)))))
            | .ok parsedCSR =>
              let order1 : core.Order := { order with Status := StatusProcessing }
              let st3 := st2.called (.UpdateOrder order1)
              match wfe.db.UpdateOrder st2.log order1 with
              | some err => some (st3.wrote (handleError traceID err))
              | none =>
                let st4 := st3.called (.CompleteOrder order1 parsedCSR)
                match wfe.ca.CompleteOrder st3.log order1 parsedCSR with
                | some err => some (st4.wrote (handleError traceID err))
                | none =>
                  if wfe.WaitForIssuanceOnFinalize then
                    match wfe.waitForIssuance orderID fuel st4.log with
                    | none => none
                    | some (log5, some err) =>
                      some { st4 with log := log5,
                                      response := st4.response ++ [handleError traceID err] }
                    | some (log5, none) =>
                      some (wfe.answerWithOrder traceID { st4 with log := log5 } orderID)
                  else some (wfe.answerWithOrder traceID st4 orderID)

/-- Whether a call is storage's `UpdateOrder` or the CA's `CompleteOrder`. -/
def Call.issues : Call → Bool
  | .UpdateOrder _ => true
  | .CompleteOrder _ _ => true
  | _ => false

/-- The exchange at the start of a request: no collaborator call made yet and
nothing written. -/
def Exchange.start {σ : Type} (noncer : σ) : Exchange σ :=
  { noncer := noncer, log := [], response := [] }

/-! ## `brickweb/wfe/common.go`, `debug_helpers.go`, `lib/order.go`, `wfe.go`: new order -/

/-- Go `lib.CreateDefaultChallenges`; `token` is what `tokenizer.NewToken`
delivers. -/
def CreateDefaultChallenges (token : String) : List core.AddChallenge :=
  [{ Typ := "http-01", Token := token }]

/-- Go `makeDefaultValidAuthz`. -/
def WebFrontEndImpl.makeDefaultValidAuthz (wfe : WebFrontEndImpl) (now : Time)
    (token : String) (log : List Call) (accountID : String) :
    List Call × Except GoError String :=
  let chalZ := CreateDefaultChallenges token ++ [{ Typ := "valid-01", Token := "" }]
  let addAuthz : core.AddAuthz :=
    { ExpiresDate := wfe.lib.FormatRFC3339 (now + 200 * Hour),
      Identifier := { Typ := "dns", Value := "localhost.local" },
      Challenges := chalZ, AccountID := accountID }
  (log ++ [Call.AddAuthorization addAuthz], wfe.db.AddAuthorization log addAuthz)

/-- Go `createAuthorization`; `errors.Wrap` puts its message and a colon in
front of the message of the error. -/
def WebFrontEndImpl.createAuthorization (wfe : WebFrontEndImpl) (now : Time)
    (token : String) (log : List Call) (acct : core.Account) (identifier : acme.Identifier) :
    List Call × Except GoError String :=
  if identifier.Value = "localhost.local" then
    match wfe.makeDefaultValidAuthz now token log acct.ID with
    | (log1, .error err) =>
      (log1, .error (.plain
        ("could not make default valid auth for localhost.local: " ++ err.Error)))
    | (log1, .ok id) => (log1, .ok id)
  else
    let addAuthz : core.AddAuthz :=
      { ExpiresDate := wfe.lib.FormatRFC3339 (now + 200 * Hour),
        Identifier := identifier,
        Challenges := CreateDefaultChallenges token,
        AccountID := acct.ID }
    match wfe.db.AddAuthorization log addAuthz with
    | .error err =>
      (log ++ [Call.AddAuthorization addAuthz],
        .error (.plain ("could not add authz: " ++ err.Error)))
    | .ok id => (log ++ [Call.AddAuthorization addAuthz], .ok id)

/-- Go `createOrGetAuthorization`. When the lookup fails with an error that is
not NotFound, the function returns the first result of `IsNotFoundError`, a
nil `*BrickProblem`, as its error: a non-nil error value holding a nil
pointer, written `.error none` here. -/
def WebFrontEndImpl.createOrGetAuthorization (wfe : WebFrontEndImpl) (now : Time)
    (token : String) (log : List Call) (acct : core.Account) (identifier : acme.Identifier) :
    List Call × Except (Option GoError) String :=
  let log1 := log ++ [Call.GetAuthFromIdent identifier acct]
  match wfe.db.GetAuthFromIdent log identifier acct with
  | .error err =>
    match IsNotFoundError err with
    | none => (log1, .error none)
    | some _ =>
      match wfe.createAuthorization now token log1 acct identifier with
      | (log2, .error e) => (log2, .error (some e))
      | (log2, .ok id) => (log2, .ok id)
  | .ok auth => (log1, .ok auth.ID)

/-- The tasks `NewOrder` adds to the error group, one for each identifier, run
one after the other in the order of the identifiers (in the source they run
concurrently): every task runs, task number `i` drawing the token
`newToken i`, and the results are collected. -/
def WebFrontEndImpl.checkForNewAuths (wfe : WebFrontEndImpl) (now : Time)
    (newToken : Nat → String) (acct : core.Account) :
    Nat → List acme.Identifier → List Call → List Call × List (Except (Option GoError) String)
  | _, [], log => (log, [])
  | i, identifier :: rest, log =>
    match wfe.createOrGetAuthorization now (newToken i) log acct identifier with
    | (log1, res) =>
      match wfe.checkForNewAuths now newToken acct (i + 1) rest log1 with
      | (log2, results) => (log2, res :: results)

/-- Go `ErrGroup.Wait` on the collected results: the first error, if any. -/
def firstError {ε α : Type} : List (Except ε α) → Option ε
  | [] => none
  | .error e :: _ => some e
  | .ok _ :: rest => firstError rest

/-- The values sent on the channel `authzIDC`. -/
def sentIDs {ε α : Type} : List (Except ε α) → List α
  | [] => []
  | .error _ :: rest => sentIDs rest
  | .ok a :: rest => a :: sentIDs rest

/-- How a handler ends: it returns, or it panics (the panic is recovered by
`handlerFunc`), in both cases with what it has done so far. -/
inductive Outcome (σ : Type) where
  | returned (st : Exchange σ)
  | panicked (st : Exchange σ)

/-- The exchange at the end of the handler. -/
def Outcome.exchange {σ : Type} : Outcome σ → Exchange σ
  | .returned st => st
  | .panicked st => st

/-- Go `NewOrder`. After a failed task the handler writes the error: for the
nil `*BrickProblem` of `createOrGetAuthorization` the type switch of
`handleError` takes the `*BrickProblem` case and the logging that follows
dereferences the nil pointer. The error of the `GetOrderByID` call after
`AddOrder` is not looked at, and the order is then dereferenced. Every
reading of the clock gives `now`. -/
def WebFrontEndImpl.NewOrder {σ : Type} (wfe : WebFrontEndImpl)
    (Valid : σ → Nonce → σ × Bool) (traceID : String) (now : Time) (newToken : Nat → String)
    (st : Exchange σ) (r : Request) : Outcome σ :=
  match wfe.verifyPOST Valid st.noncer st.log r with
  | (noncer1, log1, .error prob) =>
    .returned { noncer := noncer1, log := log1,
                response := st.response ++ [handleError traceID (.problem prob)] }
  | (noncer1, log1, .ok postRequest) =>
    let st1 : Exchange σ := { noncer := noncer1, log := log1, response := st.response }
    match wfe.lib.UnmarshalNewOrder postRequest.jwsBody with
    | .error err => .returned (st1.wrote (handleError traceID err))
    | .ok newOrderReq =>
      if newOrderReq.Identifiers.length = 0 then
        .returned (st1.wrote (handleError traceID
          (.problem (MalformedProblem "Cannot have 0 Identifiers in a Certificate"))))
      else
        match wfe.checkForNewAuths now newToken postRequest.account 0 newOrderReq.Identifiers
            st1.log with
        | (log2, results) =>
          let st2 : Exchange σ := { st1 with log := log2 }
          match firstError results with
          | some none =>
            .panicked (st2.wrote (sendError traceID
              (InternalErrorProblem "Something went wrong internally")))
          | some (some err) => .returned (st2.wrote (handleError traceID err))
          | none =>
            let newOrderGrpcThing : core.AddOrderRequest :=
              { ExpiresDate := wfe.lib.FormatRFC3339 (now + Hour * 200),
                RequestedNotBeforeDate := newOrderReq.NotBefore,
                RequestedNotAfterDate := newOrderReq.NotAfter,
                AccountID := postRequest.account.ID,
                Authz := sentIDs results }
            let st3 := st2.called (.AddOrder newOrderGrpcThing)
            match wfe.db.AddOrder st2.log newOrderGrpcThing with
            | .error err => .returned (st3.wrote (handleError traceID err))
            | .ok newOrderID =>
              let st4 := st3.called (.GetOrderByID newOrderID)
              match wfe.db.GetOrderByID st3.log newOrderID with
              | .error _ => .panicked st4
              | .ok newOrder =>
                let shown : acme.Order :=
                  { newOrder.toOrder with
                    Finalize := wfe.RelativePath (orderFinalizePath ++ newOrderID),
                    Authorizations :=
                      newOrder.AuthzIDs.map (fun a => wfe.RelativePath (authzPath ++ a)) }
                .returned ((st4.wrote
                  (Write.header "Location" (wfe.RelativePath (orderPath ++ newOrderID)))).wrote
                  (Write.json 201 (.order shown)))

/-- Whether a call is one of storage's `GetAuthFromIdent`, `AddAuthorization`
and `AddOrder`. -/
def Call.ordersOrAuthorizes : Call → Bool
  | .GetAuthFromIdent _ _ => true
  | .AddAuthorization _ => true
  | .AddOrder _ => true
  | _ => false

/-! ## `brickweb/wfe/wfecrypto/pki.go`, `external/no_account_validator.go`, `wfe/new_account.go` -/

/-- Go `hex.EncodeToString`: two digits of `0123456789abcdef` for each byte,
the high four bits first. -/
def hex.EncodeToString (src : List UInt8) : List Char :=
  src.flatMap (fun v =>
    ["0123456789abcdef".data.getD (v.toNat / 16) '0',
     "0123456789abcdef".data.getD (v.toNat % 16) '0'])

/-- The argument of `KeyToID`, a `crypto.PublicKey` (an empty interface), by
dynamic type: a `*jose.JSONWebKey` (possibly nil), a `jose.JSONWebKey`, or a
bare key. -/
inductive KeyArg where
  | jwkPointer (t : Option JSONWebKey)
  | jwkValue (t : JSONWebKey)
  | bare (key : PublicKey)
  deriving DecidableEq, Repr

/-- The value of a lowercase hexadecimal digit: its position in
`0123456789abcdef`. -/
def hexDigitValue (c : Char) : Nat := "0123456789abcdef".data.indexOf c

/-- The bytes, as numbers, that a string of hexadecimal digits spells: sixteen
times the value of the first digit of each pair plus the value of the second. -/
def hexValues : List Char → List Nat
  | hi :: lo :: rest => (16 * hexDigitValue hi + hexDigitValue lo) :: hexValues rest
  | _ => []

/-- The `default` case of the type switch of `KeyToID`, for a bare key. -/
def keyToIDDefault (lib : Lib) (key : PublicKey) : Except GoError String :=
  match lib.MarshalPKIXPublicKey key with
  | .error err => .error err
  | .ok keyDER => .ok (String.mk (hex.EncodeToString (lib.Sum256 keyDER).val))

/-- Go `KeyToID`. The recursive calls are on the field `Key` of a JSON web
key, a bare key, and take the `default` case. -/
def KeyToID (lib : Lib) : KeyArg → Except GoError String
  | .jwkPointer none => .error (.plain "Cannot compute ID of nil key")
  | .jwkPointer (some t) => keyToIDDefault lib t.Key
  | .jwkValue t => keyToIDDefault lib t.Key
  | .bare key => keyToIDDefault lib key

/-- Go `NoopAccountValidator.Validate`. -/
def NoopAccountValidator.Validate (ext : Option (List (String × String))) :
    Except GoError String :=
  match ext with
  | none => .ok ""
  | some entries =>
    if entries.length = 0 then .ok ""
    else .error (.plain "External Account Binding should be empty")

/-- Go `createNewAccount`; `now` is the reading of the clock. -/
def createNewAccount (lib : Lib) (now : Time) (accountCreation : acme.AccountCreation)
    (key : JSONWebKey) : Except GoError core.Account :=
  match KeyToID lib (.jwkPointer (some key)) with
  | .error err => .error err
  | .ok keyID =>
    .ok { Contact := accountCreation.Contact, Status := StatusValid,
          Key := key, ID := keyID, CreatedAt := now }

/-- Go `createNewAccountWithExternalBinding`. -/
def createNewAccountWithExternalBinding (lib : Lib) (now : Time)
    (accountCreation : acme.AccountCreation) (key : JSONWebKey)
    (validator : Option (Option (List (String × String)) → Except GoError String)) :
    Except GoError core.Account :=
  match KeyToID lib (.jwkPointer (some key)) with
  | .error err => .error err
  | .ok keyID =>
    match validator with
    | none =>
      .error (.brick (UnknownError (.plain "Nil Validator passed to createNewAccount")))
    | some Validate =>
      match Validate accountCreation.ExternalAccountBinding with
      | .error _ =>
        .error (.problem (MalformedProblem
          "The passed Token Value for external account-binding was incorrect"))
      | .ok accIdentifier =>
        .ok { Contact := accountCreation.Contact, Status := StatusValid,
              Key := key, ID := keyID, CreatedAt := now,
              ExternalIdentifier := accIdentifier }

/-- Go `extractJWK`. -/
def extractJWK (lib : Lib) (jws : JSONWebSignature) : Except ProblemDetails JSONWebKey :=
  let header := jws.Signatures0.Header
  match header.JSONWebKey with
  | none => .error (MalformedProblem "No JWK in JWS header")
  | some key =>
    if !lib.JWKValid key then .error (MalformedProblem "Invalid JWK in JWS header")
    else if header.KeyID ≠ "" then
      .error (MalformedProblem "jwk and kid header fields are mutually exclusive.")
    else .ok key

/-- Go `verifyPOSTNewAccount`: the state of the nonce service after the call,
and the key and payload of the request or the problem. -/
def WebFrontEndImpl.verifyPOSTNewAccount {σ : Type} (wfe : WebFrontEndImpl)
    (Valid : σ → Nonce → σ × Bool) (noncer : σ) (request : Request) :
    σ × Except ProblemDetails (JSONWebKey × List UInt8) :=
  match validPOST request with
  | some prob => (noncer, .error prob)
  | none =>
    match request.Body with
    | none => (noncer, .error (MalformedProblem "no body on POST"))
    | some (.error _) => (noncer, .error (InternalErrorProblem "unable to read request body"))
    | some (.ok bodyBytes) =>
      match ParseJWS wfe.lib bodyBytes with
      | .error err => (noncer, .error (MalformedProblem err.Error))
      | .ok parsedJWS =>
        match extractJWK wfe.lib parsedJWS with
        | .error prob => (noncer, .error prob)
        | .ok key =>
          match verifyJWS wfe.lib Valid noncer key parsedJWS request with
          | (noncer1, .error prob) => (noncer1, .error prob)
          | (noncer1, .ok payload) => (noncer1, .ok (key, payload))

/-- Go `NewAccount`; `now` is the reading of the clock. For an account that
exists the handler sets `Location` and writes the JSON of a nil value with
status 200. -/
def WebFrontEndImpl.NewAccount {σ : Type} (wfe : WebFrontEndImpl)
    (Valid : σ → Nonce → σ × Bool) (traceID : String) (now : Time) (st : Exchange σ)
    (r : Request) : Exchange σ :=
  match wfe.verifyPOSTNewAccount Valid st.noncer r with
  | (noncer1, .error prob) =>
    { st with noncer := noncer1, response := st.response ++ [handleError traceID (.problem prob)] }
  | (noncer1, .ok (key, body)) =>
    let st1 : Exchange σ := { st with noncer := noncer1 }
    match wfe.lib.UnmarshalAccountCreation body with
    | .error _ => st1.wrote (sendError traceID (MalformedProblem "Error Unmarshaling JSON"))
    | .ok newAcctReq =>
      match KeyToID wfe.lib (.jwkPointer (some key)) with
      | .error _ => st1.wrote (sendError traceID (MalformedProblem "Error reading Key"))
      | .ok keyID =>
        let st2 := st1.called (.GetAccountByID keyID)
        match wfe.db.GetAccountByID st1.log keyID with
        | .ok existingAcct =>
          (st2.wrote (Write.header "Location"
            (wfe.RelativePath (acctPath ++ existingAcct.ID)))).wrote (Write.json 200 .null)
        | .error err =>
          match IsNotFoundError err with
          | none => st2.wrote (sendError traceID (InternalErrorProblem "Error looking up Account"))
          | some _ =>
            if newAcctReq.OnlyReturnExisting then
              st2.wrote (sendError traceID (AccountDoesNotExistProblem
                "OnlyReturnExisting was set and Account does not exist"))
            else
              let created :=
                match wfe.AccountValidator with
                | none => createNewAccount wfe.lib now newAcctReq key
                | some Validate =>
                  createNewAccountWithExternalBinding wfe.lib now newAcctReq key (some Validate)
              match created with
              | .error err => st2.wrote (handleError traceID err)
              | .ok acct =>
                let st3 := st2.called (.AddAccount acct)
                match wfe.db.AddAccount st2.log acct with
                | some err => st3.wrote (handleError traceID err)
                | none =>
                  let st4 := st3.called (.GetAccountByID acct.ID)
                  match wfe.db.GetAccountByID st3.log acct.ID with
                  | .error err => st4.wrote (handleError traceID err)
                  | .ok stored =>
                    (st4.wrote (Write.header "Location"
                      (wfe.RelativePath (acctPath ++ acct.ID)))).wrote
                      (Write.json 201 (.account stored.toAccount))

/-- Whether a call is storage's `AddAccount`. -/
def Call.addsAccount : Call → Bool
  | .AddAccount _ => true
  | _ => false

/-! ## `brickweb/wfe/revoke.go`: `RevokeCert` -/

/-- Go `acme.AlreadyRevokedProblem`; `shown` is the `%v` rendering of the
revocation time. -/
def AlreadyRevokedProblem (shown : String) : ProblemDetails :=
  { Typ := alreadyRevokedErr, Detail := "Cert was already revoked on " ++ shown,
    HTTPStatus := 400 }

/-- Go `RevokeCert`. -/
def WebFrontEndImpl.RevokeCert {σ : Type} (wfe : WebFrontEndImpl)
    (Valid : σ → Nonce → σ × Bool) (traceID : String) (st : Exchange σ) (r : Request) :
    Exchange σ :=
  match wfe.verifyPOSTNewAccount Valid st.noncer r with
  | (noncer1, .error prob) =>
    { st with noncer := noncer1, response := st.response ++ [handleError traceID (.problem prob)] }
  | (noncer1, .ok (key, body)) =>
    let st1 : Exchange σ := { st with noncer := noncer1 }
    match wfe.lib.UnmarshalRevocation body with
    | .error err => st1.wrote (handleError traceID err)
    | .ok certificate =>
      match wfe.lib.DecodeString certificate with
      | .error err => st1.wrote (handleError traceID err)
      | .ok certRaw =>
        match wfe.lib.ParseCertificate certRaw with
        | .error err => st1.wrote (handleError traceID err)
        | .ok cert =>
          let issuerNameHash := wfe.lib.Sum1 cert.RawIssuer
          let st2 := st1.called (.GetCertificateBySerial cert.SerialNumber issuerNameHash)
          match wfe.db.GetCertificateBySerial st1.log cert.SerialNumber issuerNameHash with
          | .error err =>
            match IsNotFoundError err with
            | some _ =>
              st2.wrote (handleError traceID
                (.problem (NotFoundProblem "This Certificate was not issued here")))
            | none => st2.wrote (handleError traceID err)
          | .ok coreCert =>
            if coreCert.RevocationTime ≠ 0 then
              st2.wrote (handleError traceID (.problem
                (AlreadyRevokedProblem (wfe.lib.FormatTime coreCert.RevocationTime))))
            else
              let mayRevoke := (checkRevocationAuthorization key.Key coreCert).1
              if !mayRevoke then
                st2.wrote (handleError traceID
                  (.problem (UnauthorizedProblem "Cert Key does not match JWS Key")))
              else
                let st3 := st2.called (.RevokeCertificate coreCert.ID 0)
                match wfe.db.RevokeCertificate st2.log coreCert.ID 0 with
                | some err => st3.wrote (handleError traceID err)
                | none => st3.wrote (Write.status 200)

/-- Whether a call is storage's `RevokeCertificate`. -/
def Call.revokes : Call → Bool
  | .RevokeCertificate _ _ => true
  | _ => false

/-! ## `brickvalidation/va/http01/verify.go` -/

/-- The answer to the probe: status code and the bytes the body delivers. -/
structure ProbeResponse where
  StatusCode : Int
  Body : List UInt8
  deriving DecidableEq, Repr

/-- The alphabet of Go `base64.RawURLEncoding`. -/
def encodeURL : List Char :=
  "ABCDEFGHIJKLMNOPQRSTUVWXYZabcdefghijklmnopqrstuvwxyz0123456789-_".data

/-- The character of the 6-bit value `n`. -/
def encode6 (n : Nat) : Char := encodeURL.getD (n % 64) 'A'

/-- Go `base64.RawURLEncoding.EncodeToString`: three bytes give four
characters; a rest of two bytes gives three, of one byte two; no padding. -/
def EncodeToString : List UInt8 → List Char
  | a :: b :: c :: rest =>
    let n := a.toNat * 65536 + b.toNat * 256 + c.toNat
    encode6 (n / 262144) :: encode6 (n / 4096) :: encode6 (n / 64) :: encode6 n ::
      EncodeToString rest
  | [a, b] =>
    let n := a.toNat * 256 + b.toNat
    [encode6 (n / 1024), encode6 (n / 16), encode6 (n % 16 * 4)]
  | [a] => [encode6 (a.toNat / 4), encode6 (a.toNat % 4 * 16)]
  | [] => []

/-- Go `acme.ExpectedKeyAuthorization`. -/
def ExpectedKeyAuthorization (lib : Lib) (token : String) (key : JSONWebKey) :
    Except GoError String :=
  match lib.Thumbprint key with
  | .error err => .error err
  | .ok thumprint => .ok (token ++ "." ++ String.mk (EncodeToString thumprint))

/-- Go `strings.TrimRight` for a cutset of ASCII characters, on the bytes of
the string: bytes are dropped from the end while they are in the cutset. -/
def TrimRight (s : List UInt8) (cutset : List UInt8) : List UInt8 :=
  (s.reverse.dropWhile (fun b => cutset.contains b)).reverse

/-- Go `convertToAcmeProblem`. -/
def convertToAcmeProblem : GoError → ProblemDetails
  | .problem prob => prob
  | _ => InternalErrorProblem "An Internal Error happened"

/-- Go `fetchToken`. `client` stands for `client.Do` on a GET of the given
URL: a transport error, or the response. At most 1000 bytes of the body are
read. -/
def fetchToken (lib : Lib) (client : String → Except GoError ProbeResponse)
    (identifier : String) (token : String) : Except GoError (List UInt8) :=
  let url := lib.URLString "http" (identifier ++ ":" ++ "80") (HTTP01BaseURL ++ token)
  match lib.NewRequest url with
  | some err => .error err
  | none =>
    match client url with
    | .error _ => .error (.problem (ConnectionProblem ("Could not connect to url " ++ url)))
    | .ok resp =>
      if resp.StatusCode ≠ 200 then
        .error (.problem (UnauthorizedProblem
          ("Non-200 status code from GET " ++ url ++ ": " ++ toString resp.StatusCode)))
      else .ok (resp.Body.take 1000)

/-- Go `VerifyHTTP01`; `none` is the nil error, and every error it returns is
a problem. -/
def VerifyHTTP01 (lib : Lib) (client : String → Except GoError ProbeResponse)
    (req : core.VerificationRequest) : Option ProblemDetails :=
  match fetchToken lib client req.Authorization.Identifier.Value req.Challenge.Token with
  | .error err => some (convertToAcmeProblem err)
  | .ok body =>
    match ExpectedKeyAuthorization lib req.Challenge.Token req.AccountJWK with
    | .error err => some (convertToAcmeProblem err)
    | .ok expectedKeyAuthorization =>
      let payload := TrimRight body [10, 13, 9]
      if payload ≠ goBytes expectedKeyAuthorization then
        some (UnauthorizedProblem
          ("The key authorization file from server did not match this challenge: " ++
            lib.Quote (goBytes expectedKeyAuthorization) ++ " != " ++ lib.Quote payload))
      else none

/-- The URL `fetchToken` probes for a request. -/
def probeURL (lib : Lib) (req : core.VerificationRequest) : String :=
  lib.URLString "http" (req.Authorization.Identifier.Value ++ ":" ++ "80")
    (HTTP01BaseURL ++ req.Challenge.Token)

/-! ## `brickvalidation/va/validation.go`, `brickweb/db/dbutils.go` -/

/-- Go `const maxChallengeRetries = 5`. -/
def maxChallengeRetries : Int := 5

/-- What the validation authority works against: the library, the network
(`client t` answers the probe of the validation number `t`), the clock
(`now t` is its reading during validation number `t`), and the storage
method `UpdateAuthorization` of the interface `va.storage`. -/
structure VAEnv where
  lib : Lib
  client : Nat → String → Except GoError ProbeResponse
  now : Nat → Time
  UpdateAuthorization : List Call → core.Challenge → String → String → Option GoError

/-- Go `vaImpl` with what it acts on: the content of the channel `c`, oldest
request first, the log of storage calls, the number of validations performed
so far, and whether the process has been ended by a fatal log entry. -/
structure vaImpl where
  c : List core.VerificationRequest
  log : List Call := []
  performed : Nat := 0
  exited : Bool := false
  deriving DecidableEq

/-- Go `verificationFuncs` after `init`: only `http-01` is registered. The
probe of validation number `t` goes over the network as it is then. -/
def verificationFuncs (env : VAEnv) (t : Nat) (typ : String) :
    Option (core.VerificationRequest → Option GoError) :=
  if typ = "http-01" then
    some (fun req => (VerifyHTTP01 env.lib (env.client t) req).map GoError.problem)
  else none

/-- Go `getAcmeProblem`. -/
def getAcmeProblem : GoError → ProblemDetails
  | .problem prob => prob
  | _ => InternalErrorProblem "An internal Error occured while verifying"

/-- Go `db.SetChallengeInvalid`. -/
def SetChallengeInvalid (env : VAEnv) (log : List Call) (chal : core.Challenge)
    (auth : core.Authorization) (problem : ProblemDetails) : List Call × Option GoError :=
  let chal1 : core.Challenge := { chal with Error := some problem }
  (log ++ [Call.UpdateAuthorization chal1 auth.ID StatusInvalid],
    env.UpdateAuthorization log chal1 auth.ID StatusInvalid)

/-- Go `db.SetChallengeValid`; `now` is the reading of the clock. -/
def SetChallengeValid (env : VAEnv) (log : List Call) (now : Time) (chal : core.Challenge)
    (auth : core.Authorization) : List Call × Option GoError :=
  let chal1 : core.Challenge := { chal with Status := StatusValid, ValidatedAt := now }
  (log ++ [Call.UpdateAuthorization chal1 auth.ID StatusValid],
    env.UpdateAuthorization log chal1 auth.ID StatusValid)

/-- Go `performValidation` on a request taken from the channel. An unknown
challenge type ends in a fatal log entry. A failed probe puts the request
back on the channel with one more retry while `Retries < maxChallengeRetries`
and otherwise sets the challenge invalid; a successful one sets it valid. -/
def vaImpl.performValidation (env : VAEnv) (va : vaImpl) (req : core.VerificationRequest) :
    vaImpl :=
  match verificationFuncs env va.performed req.Challenge.Typ with
  | none => { va with performed := va.performed + 1, exited := true }
  | some verFunc =>
    match verFunc req with
    | some err =>
      if req.Retries < maxChallengeRetries then
        { va with c := va.c ++ [{ req with Retries := req.Retries + 1 }],
                  performed := va.performed + 1 }
      else
        { va with
          log := (SetChallengeInvalid env va.log req.Challenge req.Authorization
            (getAcmeProblem err)).1,
          performed := va.performed + 1 }
    | none =>
      { va with
        log := (SetChallengeValid env va.log (env.now va.performed) req.Challenge
          req.Authorization).1,
        performed := va.performed + 1 }

/-- Go `startLoop`: requests are taken from the channel one after the other and
validated, until the channel is empty or the process has ended; `fuel` bounds
the number of requests taken. -/
def vaImpl.startLoop (env : VAEnv) : Nat → vaImpl → vaImpl
  | 0, va => va
  | fuel + 1, va =>
    if va.exited then va
    else
      match va.c with
      | [] => va
      | req :: rest => vaImpl.startLoop env fuel (({ va with c := rest }).performValidation env req)

/-! ## `brickweb/wfe/nonce/redis_nonce.go` -/

/-- The outcome of `client.Get(key).Result()`: the stored value, the error
`redis.Nil` (the key is absent), or any other error. -/
inductive RedisReply where
  | value (v : String)
  | Nil
  | failure (err : GoError)
  deriving DecidableEq, Repr

/-- The redis client the nonce service talks to, over the state `ρ` of the
store and the connection to it. -/
structure RedisClient (ρ : Type) where
  Get : ρ → String → ρ × RedisReply
  Del : ρ → String → ρ
  Set : ρ → String → String → ρ

/-- Go `redisNoncer.Next`: the nonce `drawn` from the random source is stored
under its own name, with the formatted time `stamp` as value (and a lifetime
of one hour), and returned. -/
def redisNoncer.Next {ρ : Type} (client : RedisClient ρ) (store : ρ) (drawn : Nonce)
    (stamp : String) : ρ × Nonce :=
  (client.Set store drawn stamp, drawn)

/-- Go `redisNoncer.Valid`: false when the lookup ends in `redis.Nil`;
otherwise the key is deleted and the answer is true. -/
def redisNoncer.Valid {ρ : Type} (client : RedisClient ρ) (store : ρ) (nonce : Nonce) :
    ρ × Bool :=
  match client.Get store nonce with
  | (store1, .Nil) => (store1, false)
  | (store1, _) => (client.Del store1 nonce, true)

/-! ## `brickweb/wfe/wfe.go`: `handlerFunc`, `UpdateAccount` -/

/-- Go `handlerFunc(f)` serving one request: the no-cache header is added, a
new nonce (`drawn` is what the generator delivers) is taken from the nonce
service and set as `Replay-Nonce`, and the handler `f` runs. A panic of `f` is
recovered by the deferred function, which logs it: nothing is written on the
response after it. -/
def handlerFunc {σ : Type} (Next : σ → Nonce → σ × Nonce) (drawn : Nonce)
    (f : Exchange σ → Request → Outcome σ) (st : Exchange σ) (r : Request) : Exchange σ :=
  let st1 := st.wrote (.header "Cache-Control" "public, max-age=0, no-cache")
  match Next st1.noncer drawn with
  | (noncer1, newNonce) =>
    let st2 := ({ st1 with noncer := noncer1 }).wrote (.header "Replay-Nonce" newNonce)
    match f st2 r with
    | .returned st3 => st3
    | .panicked st3 => st3

/-- Whether the handler panicked. -/
def Outcome.panics {σ : Type} : Outcome σ → Bool
  | .returned _ => false
  | .panicked _ => true

/-- The status code the client receives from Go's `net/http` server for the
writes of a handler that has returned: the code of the first write that sends
the header, and 200 when the handler wrote no status and no body. -/
def receivedStatus : List Write → Nat
  | [] => 200
  | .header _ _ :: rest => receivedStatus rest
  | .problem prob :: _ => prob.HTTPStatus
  | .json status _ :: _ => status
  | .status code :: _ => code

/-- The problem documents in the response. -/
def receivedProblems : List Write → List ProblemDetails
  | [] => []
  | .problem prob :: rest => prob :: receivedProblems rest
  | _ :: rest => receivedProblems rest

/-- Go `verifyContacts`. -/
def verifyContacts (_contacts : List String) : Option ProblemDetails := none

/-- Go `writeJSONResponse` of a `*core.Account` with status 200, followed by
the handling of its error: marshalling the account calls
`JSONWebKey.MarshalJSON` on its key, and an error of that comes back wrapped
by `encoding/json`. -/
def writeAccount {σ : Type} (lib : Lib) (traceID : String) (st : Exchange σ)
    (acct : core.Account) : Exchange σ :=
  match lib.JWKMarshalJSON acct.Key with
  | .error err =>
    st.wrote (handleError traceID (.plain
      ("json: error calling MarshalJSON for type *jose.JSONWebKey: " ++ err.Error)))
  | .ok _ => st.wrote (Write.json 200 (.coreAccount acct))

/-- The end of `UpdateAccount`: the account is written to storage and sent. -/
def WebFrontEndImpl.storeAccount {σ : Type} (wfe : WebFrontEndImpl) (traceID : String)
    (st : Exchange σ) (newAcct : core.Account) : Exchange σ :=
  let st1 := st.called (.UpdateAccount newAcct)
  match wfe.db.UpdateAccount st.log newAcct with
  | some err => st1.wrote (handleError traceID err)
  | none => writeAccount wfe.lib traceID st1 newAcct

/-- Go `UpdateAccount`. -/
def WebFrontEndImpl.UpdateAccount {σ : Type} (wfe : WebFrontEndImpl)
    (Valid : σ → Nonce → σ × Bool) (traceID : String) (st : Exchange σ) (r : Request) :
    Exchange σ :=
  match wfe.verifyPOST Valid st.noncer st.log r with
  | (noncer1, log1, .error prob) =>
    { noncer := noncer1, log := log1,
      response := st.response ++ [handleError traceID (.problem prob)] }
  | (noncer1, log1, .ok postRequest) =>
    let st1 : Exchange σ := { noncer := noncer1, log := log1, response := st.response }
    match wfe.lib.UnmarshalUpdateAccount postRequest.jwsBody with
    | .error err => st1.wrote (handleError traceID err)
    | .ok updateAccountReq =>
      if updateAccountReq.Contact.length = 0 ∧ updateAccountReq.Status ≠ StatusDeactivated then
        writeAccount wfe.lib traceID st1 postRequest.account
      else
        let newAcct : core.Account :=
          { Contact := postRequest.account.Contact,
            Status := postRequest.account.Status,
            Orders := postRequest.account.Orders,
            Key := postRequest.account.Key,
            ID := postRequest.account.ID,
            CreatedAt := postRequest.account.CreatedAt }
        if updateAccountReq.Status = StatusDeactivated then
          wfe.storeAccount traceID st1 { newAcct with Status := updateAccountReq.Status }
        else if updateAccountReq.Status ≠ "" ∧ updateAccountReq.Status ≠ newAcct.Status then
          st1.wrote (sendError traceID (MalformedProblem
            ("Invalid account status: " ++ wfe.lib.Quote (goBytes updateAccountReq.Status))))
        else if updateAccountReq.Contact.length > 0 then
          match verifyContacts updateAccountReq.Contact with
          | some prob => st1.wrote (sendError traceID prob)
          | none =>
            wfe.storeAccount traceID st1 { newAcct with Contact := updateAccountReq.Contact }
        else
          wfe.storeAccount traceID st1 newAcct

/-! ## `grpc/marshalling.go`: accounts on the wire -/

/-- Go `accountToProto` on a non-nil account. -/
def accountToProto (lib : Lib) (a : core.Account) : Except GoError proto.Account :=
  match lib.JWKMarshalJSON a.Key with
  | .error err => .error err
  | .ok keyBytes =>
    .ok { Id := a.ID, Key := keyBytes, Status := a.Status, Contact := a.Contact,
          CreatedAt := lib.FormatRFC3339 a.CreatedAt,
          ExternalIdentifier := a.ExternalIdentifier }

/-- Go `protoToAccount`. -/
def protoToAccount (lib : Lib) (p : proto.Account) : Except GoError core.Account :=
  match lib.JWKUnmarshalJSON p.Key with
  | .error err => .error err
  | .ok key =>
    match lib.ParseRFC3339 p.CreatedAt with
    | .error err => .error err
    | .ok createdAtTime =>
      .ok { ID := p.Id, Status := p.Status, Contact := p.Contact, Orders := "",
            Key := key, CreatedAt := createdAtTime,
            ExternalIdentifier := p.ExternalIdentifier }

/-! ## `grpc/marshalling.go`: `GetIdentifiersFromCert` -/

/-- The Go assignment `m[k] = v` on a `map[string]int`, the map being the list
of its entries with every key once. -/
def mapAssign (m : List (String × Nat)) (k : String) (v : Nat) : List (String × Nat) :=
  if m.any (fun e => e.1 = k) then m.map (fun e => if e.1 = k then (k, v) else e)
  else m ++ [(k, v)]

/-- The loop `for i, el := range allNames { elements[el] = i }` from index `i`
on. -/
def indexNames : List String → Nat → List (String × Nat) → List (String × Nat)
  | [], _, m => m
  | el :: rest, i, m => indexNames rest (i + 1) (mapAssign m el i)

/-- Go `GetIdentifiersFromCert`. The order in which `for name := range
elements` visits the map is not fixed by the language: `range` gives the
entries of a map in the order of the visit. -/
def GetIdentifiersFromCert (range : List (String × Nat) → List (String × Nat))
    (cert : X509Certificate) : List acme.Identifier :=
  let allNames := cert.DNSNames ++
    (if cert.SubjectCommonName ≠ "" then [cert.SubjectCommonName] else [])
  let elements := indexNames allNames 0 []
  (range elements).map (fun e => { Typ := "dns", Value := e.1 })

/-! ## `grpc/common.go`: `customVerify` -/

/-- How a call ends: it returns a value, or it panics at run time. -/
inductive Run (α : Type) where
  | returned (a : α)
  | panicked (msg : String)
  deriving DecidableEq, Repr

/-- The first loop of the check built by `customVerify`: the raw certificates
are parsed one after the other, and the first error ends the check. -/
def parseAll (lib : Lib) : List (List UInt8) → Except GoError (List X509Certificate)
  | [] => .ok []
  | rawCert :: rest =>
    match lib.ParseCertificate rawCert with
    | .error err => .error err
    | .ok cert =>
      match parseAll lib rest with
      | .error err => .error err
      | .ok certs => .ok (cert :: certs)

/-- The loop over `allowedCNs` of the check built by `customVerify`, from the
given value of the variable `verified`: the first name for which the leaf
verifies sets `verified` and ends the loop. -/
def verifyNames (lib : Lib) (leaf : X509Certificate)
    (intermediatePool rootcertPool : List X509Certificate) : List String → Bool → Bool
  | [], verified => verified
  | allowedCN :: rest, verified =>
    match lib.CertificateVerify leaf
        { DNSName := allowedCN, Intermediates := intermediatePool, Roots := rootcertPool } with
    | none => true
    | some _ => verifyNames lib leaf intermediatePool rootcertPool rest verified

/-- The function that Go `customVerify(rootcertPool, allowedCNs)` returns,
applied to `rawCerts`. The slice expression `certs[1 : len(certs)-1]` panics
when there are fewer than two certificates; the variable `verified` starts as
`true`. -/
def customVerify (lib : Lib) (rootcertPool : List X509Certificate) (allowedCNs : List String)
    (rawCerts : List (List UInt8)) : Run (Option GoError) :=
  match parseAll lib rawCerts with
  | .error err => .returned (some err)
  | .ok certs =>
    match certs with
    | [] => .panicked "runtime error: slice bounds out of range [:-1]"
    | [_] => .panicked "runtime error: slice bounds out of range [1:0]"
    | leaf :: rest =>
      let intermediatePool := rest.dropLast
      let verified := verifyNames lib leaf intermediatePool rootcertPool allowedCNs true
      if !verified then .returned (some (.plain "Verification Failure"))
      else .returned none

/-! ## `brickweb/wfe/authz_frontend.go`: `getAuthzJSON` -/

/-- The `acme.Challenge` that `getAuthzJSON` builds for a challenge of the
authorization. -/
def WebFrontEndImpl.challengeForDisplay (wfe : WebFrontEndImpl) (c : core.Challenge) :
    acme.Challenge :=
  let validated := if c.ValidatedAt ≠ 0 then wfe.lib.FormatRFC3339 c.ValidatedAt else ""
  { Typ := c.Typ, URL := wfe.RelativePath (challengePath ++ c.ID), Token := c.Token,
    Status := c.Status, Validated := validated, Error := c.Error }

/-- The loops of `getAuthzJSON` over the challenges of an authorization of the
given status: all of them for `pending`, those with the status of the
authorization for `valid` and `invalid`, no loop at all for any other
status. -/
def WebFrontEndImpl.challengesForDisplay (wfe : WebFrontEndImpl) (status : String) :
    List core.Challenge → List acme.Challenge
  | [] => []
  | c :: rest =>
    if status = StatusPending then
      wfe.challengeForDisplay c :: wfe.challengesForDisplay status rest
    else if status = StatusValid then
      if c.Status = StatusValid then
        wfe.challengeForDisplay c :: wfe.challengesForDisplay status rest
      else wfe.challengesForDisplay status rest
    else if status = StatusInvalid then
      if c.Status = StatusInvalid then
        wfe.challengeForDisplay c :: wfe.challengesForDisplay status rest
      else wfe.challengesForDisplay status rest
    else []

/-- Go `getAuthzJSON`; an empty `requestingAccountID` stands for a GET. -/
def WebFrontEndImpl.getAuthzJSON (wfe : WebFrontEndImpl) (log : List Call) (ID : String)
    (requestingAccountID : String) : List Call × Except GoError acme.Authorization :=
  let log1 := log ++ [Call.GetAuthorizationByID ID]
  match wfe.db.GetAuthorizationByID log ID with
  | .error err => (log1, .error err)
  | .ok authz =>
    if requestingAccountID ≠ authz.AccountID ∧
        (if requestingAccountID = "" then wfe.ProhibitGet = true else True) then
      (log1, .error (.problem (UnauthorizedProblem "You do not own this Authorization")))
    else
      (log1, .ok
        { Status := authz.Status, Identifier := authz.Identifier,
          Expires := wfe.lib.FormatRFC3339 authz.ExpiresDate,
          Wildcard := authz.Wildcard,
          Challenges := wfe.challengesForDisplay authz.Status authz.Challenges })

/-! ## `core/errgroup/errgroup.go` -/

/-- Where the goroutine started by `Add` stands: blocked at `<-g.start`; past
the call `f()` and before the bookkeeping that follows it; or finished. -/
inductive TaskPC where
  | waiting
  | ran
  | finished
  deriving DecidableEq, Repr

/-- A task of the group: the error its function `f` returns when it runs
(`none` for nil), and where its goroutine stands. -/
structure Task where
  result : Option GoError
  pc : TaskPC := .waiting
  deriving DecidableEq, Repr

/-- Where the goroutine that calls `Go` and then `Wait` stands: before `Go`;
inside `Go`, after `close(g.start)` and before the test `g.count == 0`; in
`Wait`, at `<-g.done`; or back from `Wait` with the error it returned. -/
inductive CallerPC where
  | beforeGo
  | inGo
  | inWait
  | back (err : Option GoError)
  deriving DecidableEq, Repr

/-- Go `ErrGroup` together with its goroutines. The channels `start` and
`done` carry no values: what is kept is whether each has been closed.
`crashed` is set by the run-time panic of closing a closed channel (or by the
panic of `Add` after `Go`), which ends the process. -/
structure ErrGroup where
  count : Int := 0
  doneClosed : Bool := false
  err : Option GoError := none
  startClosed : Bool := false
  started : Bool := false
  tasks : List Task := []
  caller : CallerPC := .beforeGo
  crashed : Bool := false
  deriving DecidableEq, Repr

/-- Go `errgroup.New`. -/
def errgroup.New : ErrGroup := {}

/-- Go `ErrGroup.Add` of a function that will return `f`: the counter is
raised and the goroutine is started, which blocks on `start`. -/
def ErrGroup.Add (g : ErrGroup) (f : Option GoError) : ErrGroup :=
  if g.started then { g with crashed := true }
  else { g with count := g.count + 1, tasks := g.tasks ++ [{ result := f }] }

/-- The statement `close(g.done)`. -/
def ErrGroup.closeDone (g : ErrGroup) : ErrGroup :=
  if g.doneClosed then { g with crashed := true } else { g with doneClosed := true }

/-- Who takes the next step: the goroutine that calls `Go` and `Wait`, or the
goroutine of task number `i`. -/
inductive Actor where
  | caller
  | task (i : Nat)
  deriving DecidableEq, Repr

/-- One step of a goroutine. The caller: `Go` up to `close(g.start)`; the test
`g.count == 0` of `Go` with its `close(g.done)`; `Wait`, which stays blocked
until `done` is closed and then returns `g.err`. A task: the receive from
`start` (blocked until it is closed) and the call `f()`; then the
bookkeeping, for an error the section under the mutex, for nil the atomic
decrement and its test. -/
def ErrGroup.step (g : ErrGroup) (a : Actor) : ErrGroup :=
  if g.crashed then g
  else
    match a with
    | .caller =>
      match g.caller with
      | .beforeGo => { g with started := true, startClosed := true, caller := .inGo }
      | .inGo =>
        if g.count = 0 then
          if g.doneClosed then g.closeDone else { g.closeDone with caller := .inWait }
        else { g with caller := .inWait }
      | .inWait => if g.doneClosed then { g with caller := .back g.err } else g
      | .back _ => g
    | .task i =>
      match g.tasks.get? i with
      | none => g
      | some t =>
        match t.pc with
        | .waiting =>
          if g.startClosed then { g with tasks := g.tasks.set i { t with pc := .ran } }
          else g
        | .ran =>
          let g1 := { g with tasks := g.tasks.set i { t with pc := .finished } }
          match t.result with
          | some err =>
            if g1.err.isNone then ({ g1 with err := some err }).closeDone else g1
          | none =>
            let g2 := { g1 with count := g1.count - 1 }
            if g2.count = 0 then g2.closeDone else g2
        | .finished => g

/-- The group after the goroutines have taken steps in the given order. -/
def ErrGroup.run (g : ErrGroup) (schedule : List Actor) : ErrGroup :=
  schedule.foldl ErrGroup.step g

/-- A stand-in for the library functions, used to evaluate the handlers on
concrete requests: every signature verifies to the bytes of the (ASCII)
JWS payload text, URLs are
rendered as `scheme://host/path`, `%q` puts its argument between double
quotes, and the thumbprint of every key is the four bytes 1, 2, 3, 4. The
sample RSA key is marshalled to its JWK text and read back from it, and no
certificate verifies. -/
def sampleLib : Lib where
  Verify := fun jws _ => .ok (jws.payload.data.map (fun c => c.toNat.toUInt8))
  URLString := fun scheme host path => scheme ++ "://" ++ host ++ path
  Quote := fun s => "\"" ++ String.mk (s.map (fun b => Char.ofNat b.toNat)) ++ "\""
  Thumbprint := fun _ => .ok [1, 2, 3, 4]
  UnmarshalUnprotected := fun _ => .ok {}
  ParseSigned := fun _ => .error (.plain "square/go-jose: compact JWS format must have three parts")
  UnmarshalFinalize := fun _ => .error (.plain "unexpected end of JSON input")
  DecodeString := fun _ => .error (.plain "illegal base64 data at input byte 0")
  ParseCertificateRequest := fun der => .ok { Raw := der }
  FormatRFC3339 := fun t => toString t
  NewRequest := fun _ => none
  MarshalPKIXPublicKey := fun key =>
    match key with
    | .rsa N E => .ok [48, 13, N.toNat.toUInt8, E.toNat.toUInt8]
    | .ecdsa _ X Y => .ok [48, 89, X.toNat.toUInt8, Y.toNat.toUInt8]
    | .other _ => .error (.plain "x509: unsupported public key type")
  Sum256 := fun der => ⟨(List.replicate 32 (0 : UInt8)).zipWith (fun a b => a + b)
    (der ++ List.replicate 32 171) , by simp⟩
  Sum1 := fun _ => List.replicate 20 7
  JWKValid := fun key => match key.Key with | .other _ => false | _ => true
  UnmarshalAccountCreation := fun _ => .ok {}
  UnmarshalNewOrder := fun _ => .ok {}
  UnmarshalRevocation := fun _ => .ok "MIIB"
  ParseCertificate := fun der => .ok { PublicKey := .rsa 3233 17, SerialNumber := 77, RawIssuer := der }
  FormatTime := fun t => toString t
  UnmarshalUpdateAccount := fun _ => .ok {}
  JWKMarshalJSON := fun key =>
    if key = { Key := .rsa 3233 17 } then
      .ok (goBytes "\x7b\"kty\":\"RSA\",\"n\":\"DKE\",\"e\":\"EQ\"\x7d")
    else .error (.plain "square/go-jose: unknown key type")
  JWKUnmarshalJSON := fun data =>
    if data = goBytes "\x7b\"kty\":\"RSA\",\"n\":\"DKE\",\"e\":\"EQ\"\x7d" then
      .ok { Key := .rsa 3233 17 }
    else .error (.plain "square/go-jose: unknown json web key type")
  ParseRFC3339 := fun _ => .error (.plain "parsing time: cannot parse as \"2006\"")
  CertificateVerify := fun _ _ => some (.plain "x509: certificate signed by unknown authority")

/-- An RSA account key used in the examples. -/
def sampleKey : JSONWebKey := { Key := .rsa 3233 17 }

/-- A POST to the new-order path used in the examples. -/
def sampleRequest : Request :=
  { Method := "POST", Host := "localhost", RequestURI := "/new-order" }

/-- A flattened JWS whose protected header names RS256 and carries the given
nonce and extra headers. -/
def sampleJWS (nonce : String) (extra : List (String × HeaderValue)) : JSONWebSignature :=
  { payload := "{}",
    Signatures0 := { Header := { Algorithm := "RS256", Nonce := nonce, ExtraHeaders := extra } } }

/-- An account with id `acct-1` and the sample RSA key. -/
def sampleAccount : core.Account :=
  { Status := "valid", Key := sampleKey, ID := "acct-1" }

/-- A ready order with id `order-1`, owned by account `acct-2`. -/
def sampleOrder : core.Order :=
  { Status := "ready", ID := "order-1", AccountID := "acct-2" }

/-- A pending HTTP-01 challenge with id `chal-1`. -/
def sampleChallenge : core.Challenge :=
  { Token := "evaGxfADs6pSRb2LAv9IZf17Dt3juxGJ-PCt92wr-oA", Status := "pending",
    Typ := "http-01", ID := "chal-1", AuthzID := "authz-1" }

/-- A pending authorization with id `authz-1` of account `acct-1`, expiring at
time 2000. -/
def sampleAuthz : core.Authorization :=
  { Status := "pending", Identifier := { Typ := "dns", Value := "example.test" },
    Challenges := [sampleChallenge], ID := "authz-1", ExpiresDate := 2000,
    AccountID := "acct-1" }

/-- A pending order with id `order-2`, owned by account `acct-1`. -/
def sampleOrderPending : core.Order :=
  { Status := "pending", ID := "order-2", AccountID := "acct-1" }

/-- A storage that holds the sample account, orders, authorization and
challenge (owned by `acct-1`) and a certificate with serial 77 that was
revoked at time 1500, answers NotFound for every other id and accepts every
update and addition. -/
def sampleStorage : storage where
  GetAccountByID := fun _ id =>
    if id = "acct-1" then .ok sampleAccount else .error (.brick (NotFoundError "no account"))
  GetOrderByID := fun _ id =>
    if id = "order-1" then .ok sampleOrder
    else if id = "order-2" then .ok sampleOrderPending
    else .error (.brick (NotFoundError "no order"))
  GetAuthorizationByID := fun _ id =>
    if id = "authz-1" then .ok sampleAuthz else .error (.brick (NotFoundError "no authz"))
  UpdateOrder := fun _ _ => none
  GetChallengeByID := fun _ id =>
    if id = "chal-1" then .ok (sampleChallenge, "acct-1", "authz-1")
    else .error (.brick (NotFoundError "no challenge"))
  UpdateChallengeStatus := fun _ _ _ => none
  UpdateAuthorization := fun _ _ _ _ => none
  AddAccount := fun _ _ => none
  GetAuthFromIdent := fun _ identifier acct =>
    if identifier = sampleAuthz.Identifier ∧ acct.ID = "acct-1" then .ok sampleAuthz
    else .error (.brick (NotFoundError "no authz"))
  AddOrder := fun _ _ => .ok "order-3"
  AddAuthorization := fun _ _ => .ok "authz-2"
  GetCertificateBySerial := fun _ serial _ =>
    if serial = 77 then
      .ok { ID := "cert-1", Cert := { PublicKey := .rsa 3233 17, SerialNumber := 77 },
            RevocationTime := 1500, Serial := 77, OrderID := "order-1" }
    else .error (.brick (NotFoundError "no certificate"))
  RevokeCertificate := fun _ _ _ => none
  UpdateAccount := fun _ _ => none

/-- What the JOSE parser returns in the examples: one RS256 signature by the
key of account `acct-1`, with a nonce and the `url` of the given request
path. -/
def sampleParsed (uri : String) : ParsedSigned :=
  { payload := "{}",
    Signatures := [{ Header :=
      { KeyID := "http://localhost/acct/acct-1", Algorithm := "RS256",
        Nonce := "Zm6nTiaeSDGQv0aXugm1Ug",
        ExtraHeaders := [("url", .str ("http://localhost" ++ uri))] } }] }

/-- A front end at `http://localhost` over the sample storage, with GET
allowed (the default of `New`), whose JOSE parser reads every body as
`sampleParsed uri`. -/
def sampleWFE (uri : String) : WebFrontEndImpl :=
  { ca := { CompleteOrder := fun _ _ _ => none },
    db := sampleStorage,
    BasePath := "http://localhost",
    Validation := { DoValidation := fun _ _ => none },
    lib := { sampleLib with ParseSigned := fun _ => .ok (sampleParsed uri) } }

/-- A POST of a JWS body to the given path. -/
def samplePost (uri : String) : Request :=
  { Method := "POST", Host := "localhost", RequestURI := uri,
    Header := [("Content-Type", ["application/jose+json"])],
    Body := some (.ok [123, 125]) }

/-- A GET of the given path. -/
def sampleGet (uri : String) : Request :=
  { Method := "GET", Host := "localhost", RequestURI := uri }

/-- The probe client of the examples: every GET is answered with status 200
and the given body. -/
def sampleClient (body : List UInt8) : String → Except GoError ProbeResponse :=
  fun _ => .ok { StatusCode := 200, Body := body }

/-- A verification request for the sample challenge, authorization and key. -/
def sampleVerificationRequest : core.VerificationRequest :=
  { Challenge := sampleChallenge, Authorization := sampleAuthz, AccountJWK := sampleKey }

/-- A body of exactly 1000 bytes: the key authorization of the sample request
under `sampleLib`, a line feed, and 949 tabs. -/
def sampleBody : List UInt8 :=
  goBytes "evaGxfADs6pSRb2LAv9IZf17Dt3juxGJ-PCt92wr-oA.AQIDBA\n" ++ List.replicate 949 9

/-- The bytes of `sampleBody` followed by other bytes. -/
def sampleBodyLong : List UInt8 :=
  sampleBody ++ goBytes "<html>not a key authorization</html>"

/-- An environment of the validation authority in which every probe is
answered with status 200 and a page that is not the key authorization. -/
def sampleVAEnv : VAEnv where
  lib := sampleLib
  client := fun _ => sampleClient (goBytes "<html>It works!</html>\n")
  now := fun t => 1000 + t
  UpdateAuthorization := fun _ _ _ _ => none

/-- The problem `VerifyHTTP01` returns for the probes of `sampleVAEnv`. -/
def sampleMismatch : ProblemDetails :=
  UnauthorizedProblem
    ("The key authorization file from server did not match this challenge: " ++
      "\"evaGxfADs6pSRb2LAv9IZf17Dt3juxGJ-PCt92wr-oA.AQIDBA\" != \"<html>It works!</html>\"")

/-- A redis client whose server cannot be reached: every lookup fails with a
connection error and nothing is stored or deleted. -/
def downClient : RedisClient Unit where
  Get := fun st _ => (st, .failure (.plain "dial tcp 127.0.0.1:6379: connect: connection refused"))
  Del := fun st _ => st
  Set := fun st _ _ => st

/-- A request body in the flattened JWS serialization that also carries an
empty `signatures` array. -/
def bodyWithEmptySignatures : List UInt8 :=
  goBytes ("\x7b\"protected\": \"eyJhbGciOiJSUzI1NiJ9\", \"payload\": \"e30\", " ++
    "\"signature\": \"c2ln\", \"signatures\": []\x7d")

/-- The library on `bodyWithEmptySignatures`: `json.Unmarshal` leaves `Header`
nil and makes `Signatures` an empty non-nil slice, and `jose.ParseSigned`,
finding no element in `signatures`, reads the flattened members as the one
signature. -/
def libEmptySignatures : Lib :=
  { sampleLib with
    UnmarshalUnprotected := fun body =>
      if body = bodyWithEmptySignatures then .ok { Header := none, Signatures := some [] }
      else .ok {},
    ParseSigned := fun body =>
      if body = bodyWithEmptySignatures then
        .ok { payload := "{}", Signatures := [{ Header := { Algorithm := "RS256" }, Raw := "sig" }] }
      else .error (.plain "square/go-jose: compact JWS format must have three parts") }

/-- What the JOSE parser returns for the requests that carry their key: one
RS256 signature with the sample key as `jwk`, a nonce and the `url` of the
given request path. -/
def sampleParsedJWK (uri : String) : ParsedSigned :=
  { payload := "{}",
    Signatures := [{ Header :=
      { JSONWebKey := some sampleKey, Algorithm := "RS256",
        Nonce := "Zm6nTiaeSDGQv0aXugm1Ug",
        ExtraHeaders := [("url", .str ("http://localhost" ++ uri))] } }] }

/-- The id `KeyToID` gives the sample key under the stand-in library. -/
def sampleKeyID : String :=
  "300da111abababababababababababababababababababababababababababab"

/-- A storage like `sampleStorage` that also has every account added by an
`AddAccount` call of the log. -/
def accountStorage : storage :=
  { sampleStorage with
    GetAccountByID := fun log id =>
      match log.filterMap (fun c =>
          match c with
          | .AddAccount a => if a.ID = id then some a else none
          | _ => none) with
      | a :: _ => .ok a
      | [] => sampleStorage.GetAccountByID log id }

/-- A front end at `http://localhost` over `accountStorage`, without account
validator, whose JOSE parser reads every body as `sampleParsedJWK uri`, whose
JSON decoder finds the given account creation in every payload, and whose
base64 decoder gives two bytes. -/
def sampleWFEJWK (uri : String) (creation : acme.AccountCreation) : WebFrontEndImpl :=
  { ca := { CompleteOrder := fun _ _ _ => none },
    db := accountStorage,
    BasePath := "http://localhost",
    Validation := { DoValidation := fun _ _ => none },
    lib := { sampleLib with
      ParseSigned := fun _ => .ok (sampleParsedJWK uri),
      UnmarshalAccountCreation := fun _ => .ok creation,
      DecodeString := fun _ => .ok [48, 130] } }

/-- The account of the sample key, created at time 900. -/
def sampleExistingAccount : core.Account :=
  { Status := "valid", Contact := ["mailto:admin@example.test"],
    Key := sampleKey, ID := sampleKeyID, CreatedAt := 900 }

/-- The front end `sampleWFEJWK "/new-acct"` over a storage in which the sample
key already has the account `sampleExistingAccount`. -/
def sampleWFEExisting : WebFrontEndImpl :=
  { sampleWFEJWK "/new-acct" {} with
    db := { sampleStorage with
      GetAccountByID := fun _ id =>
        if id = sampleKeyID then .ok sampleExistingAccount
        else .error (.brick (NotFoundError "no account")) } }

/-- An account creation with an external account binding of three members. -/
def creationWithBinding : acme.AccountCreation :=
  { Contact := ["mailto:admin@example.test"],
    ExternalAccountBinding :=
      some [("protected", "\"eyJhbGciOiJIUzI1NiJ9\""), ("payload", "\"e30\""),
            ("signature", "\"c2ln\"")] }

/-- A storage like `sampleStorage` in which the certificate of serial 77 is
unrevoked until the log has a `RevokeCertificate` call, and revoked at time
1500 from then on. -/
def revokingStorage : storage :=
  { sampleStorage with
    GetCertificateBySerial := fun log serial _ =>
      if serial = 77 then
        .ok { ID := "cert-1", Cert := { PublicKey := .rsa 3233 17, SerialNumber := 77 },
              RevocationTime := if log.any Call.revokes then 1500 else 0,
              Serial := 77, OrderID := "order-1" }
      else .error (.brick (NotFoundError "no certificate")) }

/-- The front end `sampleWFEJWK "/revoke-cert"` over `revokingStorage`. -/
def sampleWFERevoking : WebFrontEndImpl :=
  { sampleWFEJWK "/revoke-cert" {} with db := revokingStorage }

/-- The exchange at the start of a request that follows a revocation of the
certificate `cert-1`. -/
def afterRevocation : Exchange nonceImpl :=
  { noncer := (NewNoncer.Next "Zm6nTiaeSDGQv0aXugm1Ug").1,
    log := [Call.GetCertificateBySerial 77 (List.replicate 20 7),
            Call.RevokeCertificate "cert-1" 0],
    response := [] }

/-- The front end `sampleWFEJWK "/new-acct" creation` with
`NoopAccountValidator` as its account validator. -/
def sampleWFENoop (creation : acme.AccountCreation) : WebFrontEndImpl :=
  { sampleWFEJWK "/new-acct" creation with
    AccountValidator := some NoopAccountValidator.Validate }

/-- The error of a remote call to a service that cannot be reached, as the
gRPC wrappers return it. -/
def unavailableErr : GoError :=
  .brick (UnknownError (.plain "rpc error: code = Unavailable desc = connection refused"))

/-- The front end `sampleWFE "/chalZ/chal-1"` with a validation authority that
cannot be reached: every `DoValidation` fails. -/
def sampleWFEVADown : WebFrontEndImpl :=
  { sampleWFE "/chalZ/chal-1" with
    Validation := { DoValidation := fun _ _ => some unavailableErr } }

/-- The front end `sampleWFE "/chalZ/chal-1"` over a storage that refuses every
`UpdateChallengeStatus`. -/
def sampleWFEStorageDown : WebFrontEndImpl :=
  { sampleWFE "/chalZ/chal-1" with
    db := { sampleStorage with
      UpdateChallengeStatus := fun _ _ _ => some unavailableErr } }

/-- The sample account after its deactivation. -/
def sampleAccountDeactivated : core.Account :=
  { sampleAccount with Status := "deactivated" }

/-- A front end like `sampleWFE "/acct/acct-1"` whose storage holds the given
account as `acct-1` and whose JSON decoder finds the given update in every
payload. -/
def sampleWFEUpdating (acct : core.Account) (req : UpdateAccountReq) : WebFrontEndImpl :=
  { sampleWFE "/acct/acct-1" with
    db := { sampleStorage with
      GetAccountByID := fun _ id =>
        if id = "acct-1" then .ok acct else .error (.brick (NotFoundError "no account")) },
    lib := { sampleLib with
      ParseSigned := fun _ => .ok (sampleParsed "/acct/acct-1"),
      UnmarshalUpdateAccount := fun _ => .ok req } }

/-- A front end like `sampleWFE "/new-order"` whose JSON decoder finds an order
for `example.test` in every payload. Its storage answers `AddOrder` with the
id `order-3` and has no order of that id. -/
def sampleWFEOrdering : WebFrontEndImpl :=
  { sampleWFE "/new-order" with
    lib := { sampleLib with
      ParseSigned := fun _ => .ok (sampleParsed "/new-order"),
      UnmarshalNewOrder := fun _ =>
        .ok { Identifiers := [{ Typ := "dns", Value := "example.test" }] } } }

/-- The civil date (year, month, day) of the day number `days`, day 0 being
January 1 of year 1 (proleptic Gregorian calendar). -/
def civilFromDays (days : Nat) : Nat × Nat × Nat :=
  let z := days + 306
  let era := z / 146097
  let doe := z % 146097
  let yoe := (doe - doe / 1460 + doe / 36524 - doe / 146096) / 365
  let doy := doe - (365 * yoe + yoe / 4 - yoe / 100)
  let mp := (5 * doy + 2) / 153
  let d := doy - (153 * mp + 2) / 5 + 1
  let m := if mp < 10 then mp + 3 else mp - 9
  let y := yoe + era * 400 + (if m ≤ 2 then 1 else 0)
  (y, m, d)

/-- The day number of a civil date, the inverse of `civilFromDays`. -/
def daysFromCivil (y m d : Nat) : Nat :=
  let y1 := if m ≤ 2 then y - 1 else y
  let era := y1 / 400
  let yoe := y1 % 400
  let mp := if m > 2 then m - 3 else m + 9
  let doy := (153 * mp + 2) / 5 + d - 1
  let doe := yoe * 365 + yoe / 4 - yoe / 100 + doy
  era * 146097 + doe - 306

/-- The last decimal digit of `k`. -/
def digitChar (k : Nat) : Char := "0123456789".data.getD (k % 10) '0'

def pad2 (n : Nat) : List Char := [digitChar (n / 10), digitChar n]

def pad4 (n : Nat) : List Char :=
  [digitChar (n / 1000), digitChar (n / 100), digitChar (n / 10), digitChar n]

/-- What `time.Time.Format(time.RFC3339)` gives for a UTC time of the years 1
to 9999: date and time of day in whole seconds, without a fraction. -/
def formatRFC3339UTC (t : Nat) : String :=
  let secs := t / 1000000000
  let days := secs / 86400
  let rest := secs % 86400
  match civilFromDays days with
  | (y, m, d) =>
    String.mk (pad4 y ++ ['-'] ++ pad2 m ++ ['-'] ++ pad2 d ++ ['T'] ++
      pad2 (rest / 3600) ++ [':'] ++ pad2 (rest % 3600 / 60) ++ [':'] ++ pad2 (rest % 60) ++
      ['Z'])

def digitValue (c : Char) : Option Nat :=
  if '0' ≤ c ∧ c ≤ '9' then some (c.toNat - 48) else none

/-- The number written by decimal digits. -/
def decimalNumber (cs : List Char) : Option Nat :=
  cs.foldl (fun acc c =>
    match acc, digitValue c with
    | some n, some k => some (10 * n + k)
    | _, _ => none) (some 0)

/-- What `time.Parse(time.RFC3339, s)` gives on the texts that
`formatRFC3339UTC` writes. -/
def parseRFC3339UTC (s : String) : Except GoError Nat :=
  match s.data with
  | [y1, y2, y3, y4, '-', m1, m2, '-', d1, d2, 'T', h1, h2, ':', i1, i2, ':', s1, s2, 'Z'] =>
    match decimalNumber [y1, y2, y3, y4], decimalNumber [m1, m2], decimalNumber [d1, d2],
      decimalNumber [h1, h2], decimalNumber [i1, i2], decimalNumber [s1, s2] with
    | some y, some m, some d, some h, some i, some sec =>
      .ok ((daysFromCivil y m d * 86400 + h * 3600 + i * 60 + sec) * 1000000000)
    | _, _, _, _, _, _ => .error (.plain "parsing time: cannot parse as \"2006\"")
  | _ => .error (.plain "parsing time: cannot parse as \"2006-01-02T15:04:05Z07:00\"")

/-- The stand-in library with RFC 3339 texts for UTC times. -/
def wireLib : Lib :=
  { sampleLib with FormatRFC3339 := formatRFC3339UTC, ParseRFC3339 := parseRFC3339UTC }

/-- The instant 2019-05-17T10:00:00Z. -/
def sampleInstant : Time := (737195 * 86400 + 36000) * 1000000000

/-- The sample account with a link to its orders, created at
2019-05-17T10:00:00Z. -/
def sampleAccountWithOrders : core.Account :=
  { sampleAccount with
    Contact := ["mailto:admin@example.test"],
    Orders := "http://localhost/acct/acct-1/orders",
    CreatedAt := sampleInstant }

/-- The sample account, created half a second after 2019-05-17T10:00:00Z. -/
def sampleAccountHalfSecond : core.Account :=
  { sampleAccount with
    Contact := ["mailto:admin@example.test"],
    CreatedAt := sampleInstant + 500000000 }

/-- A certificate with the common name `localhost1` and the DNS SANs
`localhost1` and `localhost2`. -/
def sampleCertTwoNames : X509Certificate :=
  { PublicKey := .rsa 3233 17, SubjectCommonName := "localhost1",
    DNSNames := ["localhost1", "localhost2"] }

/-- The sample authorization after its validation: the HTTP-01 challenge is
valid since 2019-05-17T10:00:00Z, a second challenge is still pending. -/
def sampleAuthzValid : core.Authorization :=
  { sampleAuthz with
    Status := "valid",
    Challenges :=
      [{ sampleChallenge with Status := "valid", ValidatedAt := sampleInstant },
       { Token := "Nq3w7zU9cJXo2J9H6cYv0w", Status := "pending", Typ := "dns-01",
         ID := "chal-2", AuthzID := "authz-1" }] }

/-- A front end like `sampleWFE "/authZ/authz-1"` with RFC 3339 texts, whose
storage holds the given authorization as `authz-1`. -/
def sampleWFEAuthz (authz : core.Authorization) : WebFrontEndImpl :=
  { sampleWFE "/authZ/authz-1" with
    db := { sampleStorage with
      GetAuthorizationByID := fun _ id =>
        if id = "authz-1" then .ok authz else .error (.brick (NotFoundError "no authz")) },
    lib := wireLib }

/-! ## Theorems -/

/-! ### Nonce service -/

theorem nonceImpl.run_append (n : nonceImpl) (cs ds : List NonceCall) :
    n.run (cs ++ ds) = (n.run cs).run ds := by
  induction cs generalizing n with
  | nil => rfl
  | cons c cs ih => simp [nonceImpl.run, ih]

/-- A registered nonce stays registered as long as it is not validated and the
set is not dropped. -/
theorem nonceImpl.mem_run_of_mem (nonce : Nonce) (cs : List NonceCall) :
    ∀ n : nonceImpl, nonce ∈ n.nonces → NonceCall.valid nonce ∉ cs →
      n.flushes cs = false → nonce ∈ (n.run cs).nonces := by
  induction cs with
  | nil => intro n h _ _; simpa [nonceImpl.run] using h
  | cons c cs ih =>
    intro n h hv hf
    have hc : NonceCall.valid nonce ≠ c := fun e => hv (by simp [e])
    have hcs : NonceCall.valid nonce ∉ cs := fun e => hv (by simp [e])
    cases c with
    | next drawn =>
      simp only [nonceImpl.flushes, Bool.or_eq_false_iff, decide_eq_false_iff_not] at hf
      refine ih _ ?_ hcs hf.2
      simp [nonceImpl.call, nonceImpl.Next, hf.1, h]
    | valid x =>
      simp only [nonceImpl.flushes] at hf
      refine ih _ ?_ hcs hf
      have hx : nonce ≠ x := fun e => hc (by rw [e])
      by_cases hm : x ∈ n.nonces
      · simp [nonceImpl.call, nonceImpl.Valid, hm, hx, h]
      · simp [nonceImpl.call, nonceImpl.Valid, hm, h]

/-- A nonce that is not registered stays unregistered as long as the generator
does not deliver it. -/
theorem nonceImpl.not_mem_run_of_not_mem (nonce : Nonce) (cs : List NonceCall) :
    ∀ n : nonceImpl, nonce ∉ n.nonces → NonceCall.next nonce ∉ cs →
      nonce ∉ (n.run cs).nonces := by
  induction cs with
  | nil => intro n h _; simpa [nonceImpl.run] using h
  | cons c cs ih =>
    intro n h hd
    have hc : NonceCall.next nonce ≠ c := fun e => hd (by simp [e])
    have hcs : NonceCall.next nonce ∉ cs := fun e => hd (by simp [e])
    cases c with
    | next drawn =>
      refine ih _ ?_ hcs
      have hx : nonce ≠ drawn := fun e => hc (by rw [e])
      by_cases hk : n.nonces.card > MaxUsed
      · simp [nonceImpl.call, nonceImpl.Next, hk, hx]
      · simp [nonceImpl.call, nonceImpl.Next, hk, hx, h]
    | valid x =>
      refine ih _ ?_ hcs
      by_cases hm : x ∈ n.nonces
      · simp [nonceImpl.call, nonceImpl.Valid, hm, h]
      · simp [nonceImpl.call, nonceImpl.Valid, hm, h]

theorem sampleNonce_inj (i j : Nat) (hi : i < 676) (hj : j < 676)
    (h : sampleNonce i = sampleNonce j) : i = j := by
  have letters : ∀ a b : Fin 26,
      Char.ofNat (65 + a.val) = Char.ofNat (65 + b.val) → a = b := by decide
  have hd : i / 26 < 26 := by omega
  have hd' : j / 26 < 26 := by omega
  have hm : i % 26 < 26 := Nat.mod_lt _ (by decide)
  have hm' : j % 26 < 26 := Nat.mod_lt _ (by decide)
  unfold sampleNonce at h
  have h2 := List.append_cancel_left (congrArg String.data h)
  simp only [List.cons.injEq, and_true] at h2
  have e1 := congrArg Fin.val (letters ⟨i / 26, hd⟩ ⟨j / 26, hd'⟩ h2.1)
  have e2 := congrArg Fin.val (letters ⟨i % 26, hm⟩ ⟨j % 26, hm'⟩ h2.2)
  simp only at e1 e2
  omega

/-- Registering fresh sample nonces one after the other grows the set by one
each time, as long as no call finds more than `MaxUsed` entries. -/
theorem nonceImpl.card_run_sampleNexts (k : Nat) :
    ∀ (lo : Nat) (n : nonceImpl),
      (∀ i, lo ≤ i → i < lo + k → sampleNonce i ∉ n.nonces) →
      lo + k ≤ 676 → n.nonces.card + k ≤ MaxUsed + 1 →
      (n.run (sampleNexts lo k)).nonces.card = n.nonces.card + k := by
  induction k with
  | zero => intro lo n _ _ _; simp [sampleNexts, nonceImpl.run]
  | succ k ih =>
    intro lo n hfresh hlo hcard
    have hnot : ¬ n.nonces.card > MaxUsed := by omega
    have hstep : (n.call (.next (sampleNonce lo))).nonces
        = insert (sampleNonce lo) n.nonces := by
      simp [nonceImpl.call, nonceImpl.Next, hnot]
    have hnew : sampleNonce lo ∉ n.nonces := hfresh lo (le_refl _) (by omega)
    have hc : (n.call (.next (sampleNonce lo))).nonces.card = n.nonces.card + 1 := by
      rw [hstep, Finset.card_insert_of_not_mem hnew]
    have hrun : n.run (sampleNexts lo (k + 1))
        = (n.call (.next (sampleNonce lo))).run (sampleNexts (lo + 1) k) := by
      simp [sampleNexts, List.range'_succ, nonceImpl.run]
    rw [hrun, ih (lo + 1) _ ?_ (by omega) (by omega), hc]
    · omega
    · intro i h1 h2
      rw [hstep, Finset.mem_insert, not_or]
      refine ⟨fun e => ?_, hfresh i (by omega) (by omega)⟩
      have := sampleNonce_inj i lo (by omega) (by omega) e
      omega

/-- C1 (as stated, refuted): a nonce is issued by `Next` on a fresh service,
then 513 further `Next` calls register pairwise different nonces and no
`Valid` call happens; the first `Valid` of the issued nonce returns false,
because the last of those `Next` calls found 513 entries and dropped the set. -/
theorem nonce_first_valid_fails_after_flush :
    (NewNoncer.Next (sampleNonce 0)).2 = sampleNonce 0 ∧
    (∀ c ∈ sampleNexts 1 513, c ≠ NonceCall.valid (sampleNonce 0)) ∧
    ((((NewNoncer.Next (sampleNonce 0)).1.run (sampleNexts 1 513)).Valid
        (sampleNonce 0)).2 = false) := by
  refine ⟨rfl, ?_, ?_⟩
  · intro c hc
    simp only [sampleNexts, List.mem_map] at hc
    obtain ⟨i, _, rfl⟩ := hc
    simp
  · have hsplit : sampleNexts 1 513
        = sampleNexts 1 512 ++ [NonceCall.next (sampleNonce 513)] := by
      simp only [sampleNexts]
      rw [show (513 : Nat) = 512 + 1 from rfl, List.range'_concat]
      simp
    have h0 : (NewNoncer.Next (sampleNonce 0)).1.nonces = {sampleNonce 0} := by
      simp [NewNoncer, nonceImpl.Next]
    have hcard := nonceImpl.card_run_sampleNexts 512 1 (NewNoncer.Next (sampleNonce 0)).1
      (by
        intro i h1 h2
        rw [h0, Finset.mem_singleton]
        intro e
        have := sampleNonce_inj i 0 (by omega) (by omega) e
        omega)
      (by omega) (by rw [h0]; simp [MaxUsed])
    rw [h0, Finset.card_singleton] at hcard
    have hbig : ((NewNoncer.Next (sampleNonce 0)).1.run (sampleNexts 1 512)).nonces.card
        > MaxUsed := by rw [hcard]; decide
    have hne : sampleNonce 0 ≠ sampleNonce 513 := by
      intro e
      have := sampleNonce_inj 0 513 (by omega) (by omega) e
      omega
    rw [hsplit, nonceImpl.run_append]
    generalize (NewNoncer.Next (sampleNonce 0)).1.run (sampleNexts 1 512) = st at hbig
    generalize sampleNonce 0 = issued at hne
    generalize sampleNonce 513 = last at hne
    simp [nonceImpl.run, nonceImpl.call, nonceImpl.Next, nonceImpl.Valid, hbig, hne]

/-- C1 (amended): let `n` be the nonce returned by a `Next` call made after any
sequence `pre` of calls; let `mid` be further calls that do not validate `n`
and during which no `Next` finds more than `MaxUsed` entries. Then `Valid n`
returns true, and after any later calls `post` in which the generator does
not deliver `n` again, `Valid n` returns false. -/
theorem nonce_valid_once (pre mid post : List NonceCall) (drawn : Nonce)
    (hmid : NonceCall.valid ((NewNoncer.run pre).Next drawn).2 ∉ mid)
    (hflush : ((NewNoncer.run pre).Next drawn).1.flushes mid = false)
    (hpost : NonceCall.next ((NewNoncer.run pre).Next drawn).2 ∉ post) :
    ((((NewNoncer.run pre).Next drawn).1.run mid).Valid
        ((NewNoncer.run pre).Next drawn).2).2 = true ∧
    ((((((NewNoncer.run pre).Next drawn).1.run mid).Valid
        ((NewNoncer.run pre).Next drawn).2).1.run post).Valid
        ((NewNoncer.run pre).Next drawn).2).2 = false := by
  have hret : ((NewNoncer.run pre).Next drawn).2 = drawn := rfl
  rw [hret] at hmid hpost ⊢
  have hin : drawn ∈ ((NewNoncer.run pre).Next drawn).1.nonces := by
    simp [nonceImpl.Next]
  have hmem := nonceImpl.mem_run_of_mem drawn mid _ hin hmid hflush
  have hout : drawn ∉
      ((((NewNoncer.run pre).Next drawn).1.run mid).Valid drawn).1.nonces := by
    simp [nonceImpl.Valid, hmem]
  have hstill := nonceImpl.not_mem_run_of_not_mem drawn post _ hout hpost
  constructor
  · simp [nonceImpl.Valid, hmem]
  · simp only [nonceImpl.Valid] at hstill ⊢
    simp [hstill]

/-- The amended C1 at a concrete run: three nonces are issued, the second is
validated after the first, and validated again after further calls. -/
theorem nonce_valid_once_witness :
    ((((NewNoncer.run [.next "fyGdGz9sLcV6yOFkdFPmPA"]).Next
          "Zm6nTiaeSDGQv0aXugm1Ug").1.run
        [.next "Qd2kq8xG1nXcPzL0aYtW5g", .valid "fyGdGz9sLcV6yOFkdFPmPA"]).Valid
        "Zm6nTiaeSDGQv0aXugm1Ug").2 = true ∧
    ((((((NewNoncer.run [.next "fyGdGz9sLcV6yOFkdFPmPA"]).Next
          "Zm6nTiaeSDGQv0aXugm1Ug").1.run
        [.next "Qd2kq8xG1nXcPzL0aYtW5g", .valid "fyGdGz9sLcV6yOFkdFPmPA"]).Valid
        "Zm6nTiaeSDGQv0aXugm1Ug").1.run
        [.valid "Qd2kq8xG1nXcPzL0aYtW5g", .next "b0V5mYc2Q3uJ8rT1sWk9Xw"]).Valid
        "Zm6nTiaeSDGQv0aXugm1Ug").2 = false :=
  nonce_valid_once [.next "fyGdGz9sLcV6yOFkdFPmPA"]
    [.next "Qd2kq8xG1nXcPzL0aYtW5g", .valid "fyGdGz9sLcV6yOFkdFPmPA"]
    [.valid "Qd2kq8xG1nXcPzL0aYtW5g", .next "b0V5mYc2Q3uJ8rT1sWk9Xw"]
    "Zm6nTiaeSDGQv0aXugm1Ug" (by decide) (by decide) (by decide)

/-! ### JOSE verifier -/

theorem badNonceErr_eq : badNonceErr = "urn:ietf:params:acme:error:badNonce" := by decide

theorem malformedErr_eq : malformedErr = "urn:ietf:params:acme:error:malformed" := by decide

/-- C6: `CheckAlgorithm` returns no error exactly when the key has a natural
algorithm `a` (RS256 for RSA; ES256, ES384, ES512 for ECDSA on P-256, P-384,
P-521), the JWS header algorithm equals `a`, `a` is in the policy allowlist,
and the algorithm field of the JWK is empty or equals `a`. -/
theorem CheckAlgorithm_none_iff (key : JSONWebKey) (parsedJws : JSONWebSignature) :
    CheckAlgorithm key parsedJws = none ↔
      ∃ a, naturalAlgorithm key.Key = some a ∧
        parsedJws.Signatures0.Header.Algorithm = a ∧
        a ∈ ["ES256", "ES384", "ES512", "RS256"] ∧
        (key.Algorithm = "" ∨ key.Algorithm = a) := by
  obtain ⟨k, kid, alg, use⟩ := key
  cases k with
  | rsa N E =>
    by_cases h1 : parsedJws.Signatures0.Header.Algorithm = "RS256" <;>
      by_cases h2 : alg = "" <;> by_cases h3 : alg = "RS256" <;>
      simp [CheckAlgorithm, AlgorithmForKey, naturalAlgorithm, GetAllowedJWSAlgorithms,
        h1, h2, h3]
  | ecdsa c X Y =>
    cases c
    · simp [CheckAlgorithm, AlgorithmForKey, naturalAlgorithm, Curve.Name]
    · by_cases h1 : parsedJws.Signatures0.Header.Algorithm = "ES256" <;>
        by_cases h2 : alg = "" <;> by_cases h3 : alg = "ES256" <;>
        simp [CheckAlgorithm, AlgorithmForKey, naturalAlgorithm, GetAllowedJWSAlgorithms,
          Curve.Name, h1, h2, h3]
    · by_cases h1 : parsedJws.Signatures0.Header.Algorithm = "ES384" <;>
        by_cases h2 : alg = "" <;> by_cases h3 : alg = "ES384" <;>
        simp [CheckAlgorithm, AlgorithmForKey, naturalAlgorithm, GetAllowedJWSAlgorithms,
          Curve.Name, h1, h2, h3]
    · by_cases h1 : parsedJws.Signatures0.Header.Algorithm = "ES512" <;>
        by_cases h2 : alg = "" <;> by_cases h3 : alg = "ES512" <;>
        simp [CheckAlgorithm, AlgorithmForKey, naturalAlgorithm, GetAllowedJWSAlgorithms,
          Curve.Name, h1, h2, h3]
  | other t => simp [CheckAlgorithm, AlgorithmForKey, naturalAlgorithm]

/-- When `verifyJWS` returns a payload, the nonce service was asked about the
nonce of the JWS header, said yes, and is left in the state after that call. -/
theorem verifyJWS_ok_inv {σ : Type} (lib : Lib) (Valid : σ → Nonce → σ × Bool) (noncer : σ)
    (pubKey : JSONWebKey) (parsedJWS : JSONWebSignature) (request : Request)
    (noncer1 : σ) (payload : List UInt8)
    (h : verifyJWS lib Valid noncer pubKey parsedJWS request = (noncer1, .ok payload)) :
    Valid noncer parsedJWS.Signatures0.Header.Nonce = (noncer1, true) := by
  unfold verifyJWS at h
  split at h
  · simp at h
  · split at h
    · simp at h
    · simp only at h
      split at h
      · simp at h
      · rcases hv : Valid noncer parsedJWS.Signatures0.Header.Nonce with ⟨st, b⟩
        rw [hv] at h
        simp only at h
        cases b with
        | false => simp at h
        | true =>
          simp only [Bool.not_true, Bool.false_eq_true, if_false] at h
          split at h
          · simp at h
          · split at h
            · simp at h
            · split at h
              · simp at h
              · simp only [Prod.mk.injEq] at h
                rw [h.1]

/-- C2: with the in-memory nonce service, once a `verifyJWS` call has accepted
a request (returned its payload), every later `verifyJWS` call on a request
that passes the signature and algorithm checks and carries the same nonce
returns a badNonce problem with HTTP status 400 and no payload, whatever
calls on the nonce service happen in between, the generator not delivering
that same nonce again. -/
theorem verifyJWS_replay_badNonce (lib : Lib) (noncer noncer1 : nonceImpl)
    (between : List NonceCall)
    (key1 key2 : JSONWebKey) (jws1 jws2 : JSONWebSignature) (req1 req2 : Request)
    (payload1 payload2 : List UInt8)
    (haccepted : verifyJWS lib nonceImpl.Valid noncer key1 jws1 req1 = (noncer1, .ok payload1))
    (hsame : jws2.Signatures0.Header.Nonce = jws1.Signatures0.Header.Nonce)
    (hsig : lib.Verify jws2 key2 = .ok payload2)
    (halg : CheckAlgorithm key2 jws2 = none)
    (hfresh : NonceCall.next jws1.Signatures0.Header.Nonce ∉ between) :
    ∃ prob, (verifyJWS lib nonceImpl.Valid (noncer1.run between) key2 jws2 req2).2 = .error prob ∧
      prob.Typ = "urn:ietf:params:acme:error:badNonce" ∧ prob.HTTPStatus = 400 := by
  have hv := verifyJWS_ok_inv lib nonceImpl.Valid noncer key1 jws1 req1 noncer1 payload1 haccepted
  have hout : jws1.Signatures0.Header.Nonce ∉ noncer1.nonces := by
    unfold nonceImpl.Valid at hv
    split at hv
    · simp only [Prod.mk.injEq, and_true] at hv
      rw [← hv]
      simp
    · simp at hv
  have hstill := nonceImpl.not_mem_run_of_not_mem _ between noncer1 hout hfresh
  unfold verifyJWS
  rw [hsig, halg, hsame]
  simp only
  by_cases hlen : jws1.Signatures0.Header.Nonce.length = 0
  · rw [if_pos hlen]
    exact ⟨_, rfl, badNonceErr_eq, rfl⟩
  · rw [if_neg hlen]
    simp only [nonceImpl.Valid, hstill, if_false, Bool.not_false, if_true]
    exact ⟨_, rfl, badNonceErr_eq, rfl⟩

/-- C2 at a concrete replay: a request is accepted, another nonce is issued,
and a second request with the first nonce is answered with badNonce. -/
theorem verifyJWS_replay_badNonce_witness :
    ∃ prob, (verifyJWS sampleLib nonceImpl.Valid
        ((nonceImpl.mk ∅).run [.next "Qd2kq8xG1nXcPzL0aYtW5g"]) sampleKey
        (sampleJWS "Zm6nTiaeSDGQv0aXugm1Ug" [("url", .str "https://localhost/new-order")])
        sampleRequest).2 = .error prob ∧
      prob.Typ = "urn:ietf:params:acme:error:badNonce" ∧ prob.HTTPStatus = 400 :=
  verifyJWS_replay_badNonce sampleLib (NewNoncer.Next "Zm6nTiaeSDGQv0aXugm1Ug").1 (nonceImpl.mk ∅)
    [.next "Qd2kq8xG1nXcPzL0aYtW5g"] sampleKey sampleKey
    (sampleJWS "Zm6nTiaeSDGQv0aXugm1Ug" [("url", .str "http://localhost/new-order")])
    (sampleJWS "Zm6nTiaeSDGQv0aXugm1Ug" [("url", .str "https://localhost/new-order")])
    sampleRequest sampleRequest [123, 125] [123, 125]
    (by decide) rfl (by decide) (by decide) (by decide)

/-- C7 (as stated, refuted): a request whose signature verifies and whose
algorithm is fine, with no `url` header and a nonce the service never issued,
is answered with badNonce, not with malformed. -/
theorem verifyJWS_missing_url_not_malformed :
    sampleLib.Verify (sampleJWS "Zm6nTiaeSDGQv0aXugm1Ug" []) sampleKey = .ok [123, 125] ∧
    (sampleJWS "Zm6nTiaeSDGQv0aXugm1Ug" []).Signatures0.Header.ExtraHeaders.lookup "url" = none ∧
    (verifyJWS sampleLib nonceImpl.Valid NewNoncer sampleKey
        (sampleJWS "Zm6nTiaeSDGQv0aXugm1Ug" []) sampleRequest).2
      = .error (BadNonceProblem
          "JWS has an invalid anti-replay nonce: Zm6nTiaeSDGQv0aXugm1Ug") ∧
    (BadNonceProblem "JWS has an invalid anti-replay nonce: Zm6nTiaeSDGQv0aXugm1Ug").Typ
      ≠ malformedErr := by
  decide

/-- C7 (amended): a request whose signature verifies, that passes the
algorithm check and whose nonce is non-empty and accepted by the nonce
service, and whose protected header has no `url`, a non-string `url`, an
empty `url`, or a `url` different from both the `https` and the `http`
rendering of the request's host and URI, is answered with a malformed
problem (status 400) and no payload. -/
theorem verifyJWS_bad_url_malformed {σ : Type} (lib : Lib) (Valid : σ → Nonce → σ × Bool)
    (noncer : σ) (pubKey : JSONWebKey) (parsedJWS : JSONWebSignature) (request : Request)
    (payload : List UInt8)
    (hsig : lib.Verify parsedJWS pubKey = .ok payload)
    (halg : CheckAlgorithm pubKey parsedJWS = none)
    (hnon : parsedJWS.Signatures0.Header.Nonce ≠ "")
    (hvalid : (Valid noncer parsedJWS.Signatures0.Header.Nonce).2 = true)
    (hurl : parsedJWS.Signatures0.Header.ExtraHeaders.lookup "url" = none ∨
      (∃ json, parsedJWS.Signatures0.Header.ExtraHeaders.lookup "url"
        = some (.nonString json)) ∨
      parsedJWS.Signatures0.Header.ExtraHeaders.lookup "url" = some (.str "") ∨
      (∃ u, parsedJWS.Signatures0.Header.ExtraHeaders.lookup "url" = some (.str u) ∧
        u ≠ lib.URLString "https" request.Host request.RequestURI ∧
        u ≠ lib.URLString "http" request.Host request.RequestURI)) :
    ∃ prob, (verifyJWS lib Valid noncer pubKey parsedJWS request).2 = .error prob ∧
      prob.Typ = "urn:ietf:params:acme:error:malformed" ∧ prob.HTTPStatus = 400 := by
  have hlen : ¬ parsedJWS.Signatures0.Header.Nonce.length = 0 := by
    intro h0
    apply hnon
    have hd : parsedJWS.Signatures0.Header.Nonce.data = [] := List.length_eq_zero.mp h0
    exact String.ext hd
  unfold verifyJWS
  rw [hsig, halg]
  simp only
  rw [if_neg hlen]
  rcases hv : Valid noncer parsedJWS.Signatures0.Header.Nonce with ⟨st, b⟩
  rw [hv] at hvalid
  simp only at hvalid
  subst hvalid
  simp only [Bool.not_true, Bool.false_eq_true, if_false]
  rcases hurl with h | ⟨json, h⟩ | h | ⟨u, h, h1, h2⟩
  · rw [h]
    exact ⟨_, rfl, malformedErr_eq, rfl⟩
  · rw [h]
    exact ⟨_, rfl, malformedErr_eq, rfl⟩
  · rw [h]
    exact ⟨_, rfl, malformedErr_eq, rfl⟩
  · rw [h]
    simp only
    by_cases hu : u.length = 0
    · rw [if_pos hu]
      exact ⟨_, rfl, malformedErr_eq, rfl⟩
    · rw [if_neg hu, if_pos ⟨fun e => h1 e.symm, fun e => h2 e.symm⟩]
      exact ⟨_, rfl, malformedErr_eq, rfl⟩

/-- The amended C7 at a concrete request: valid signature, algorithm and nonce,
and a `url` header naming another path. -/
theorem verifyJWS_bad_url_malformed_witness :
    ∃ prob, (verifyJWS sampleLib nonceImpl.Valid (NewNoncer.Next "Zm6nTiaeSDGQv0aXugm1Ug").1
        sampleKey
        (sampleJWS "Zm6nTiaeSDGQv0aXugm1Ug" [("url", .str "https://localhost/new-acct")])
        sampleRequest).2 = .error prob ∧
      prob.Typ = "urn:ietf:params:acme:error:malformed" ∧ prob.HTTPStatus = 400 :=
  verifyJWS_bad_url_malformed sampleLib nonceImpl.Valid
    (NewNoncer.Next "Zm6nTiaeSDGQv0aXugm1Ug").1 sampleKey
    (sampleJWS "Zm6nTiaeSDGQv0aXugm1Ug" [("url", .str "https://localhost/new-acct")])
    sampleRequest [123, 125] (by decide) (by decide) (by decide) (by decide)
    (Or.inr (Or.inr (Or.inr ⟨"https://localhost/new-acct", by decide, by decide, by decide⟩)))

/-! ### Revocation authorization -/

theorem Curve.Name_inj (c d : Curve) : c.Name = d.Name ↔ c = d := by
  cases c <;> cases d <;> decide

/-- C4 (as stated, refuted): an RSA JWS key and an RSA certificate key with
the same modulus and different public exponents are different keys, and
`checkRevocationAuthorization` returns true for them. -/
theorem checkRevocationAuthorization_ignores_exponent :
    (checkRevocationAuthorization (.rsa 3233 17)
        { ID := "cert-1", Cert := { PublicKey := .rsa 3233 65537 } }).1 = true ∧
    PublicKey.rsa 3233 17 ≠ PublicKey.rsa 3233 65537 := by
  decide

/-- C4 (amended): `checkRevocationAuthorization` returns true exactly when the
JWS key and the certificate's key are both RSA keys with the same modulus
(the exponent is not compared), or both ECDSA keys on the same curve with
the same point; for every other pair it returns false. Its error is nil. -/
theorem checkRevocationAuthorization_true_iff (key : PublicKey) (cert : core.Certificate) :
    ((checkRevocationAuthorization key cert).1 = true ↔
      (∃ N E E', key = .rsa N E ∧ cert.Cert.PublicKey = .rsa N E') ∨
      (∃ c X Y, key = .ecdsa c X Y ∧ cert.Cert.PublicKey = .ecdsa c X Y)) ∧
    (checkRevocationAuthorization key cert).2 = none := by
  cases key with
  | rsa N E =>
    cases hk : cert.Cert.PublicKey with
    | rsa N' E' =>
      simp only [checkRevocationAuthorization, hk, decide_eq_true_eq, and_true]
      constructor
      · intro h
        exact Or.inl ⟨N, E, E', rfl, by rw [h]⟩
      · rintro (⟨n, e, e', h1, h2⟩ | ⟨c, X, Y, h1, _⟩)
        · cases h1
          cases h2
          rfl
        · cases h1
    | ecdsa c X Y => simp [checkRevocationAuthorization, hk]
    | other t => simp [checkRevocationAuthorization, hk]
  | ecdsa c X Y =>
    cases hk : cert.Cert.PublicKey with
    | rsa N' E' => simp [checkRevocationAuthorization, hk]
    | ecdsa c' X' Y' =>
      simp only [checkRevocationAuthorization, hk, Bool.and_eq_true, decide_eq_true_eq,
        Curve.Name_inj, and_true]
      constructor
      · rintro ⟨⟨h1, h2⟩, h3⟩
        exact Or.inr ⟨c, X, Y, rfl, by rw [h1, h2, h3]⟩
      · rintro (⟨n, e, e', h1, _⟩ | ⟨d, x, y, h1, h2⟩)
        · cases h1
        · cases h1
          cases h2
          exact ⟨⟨rfl, rfl⟩, rfl⟩
    | other t => simp [checkRevocationAuthorization, hk]
  | other t => simp [checkRevocationAuthorization]

/-! ### Account lookup by key id -/

theorem HasPrefix_append (pre rest : String) : HasPrefix (pre ++ rest) pre = true := by
  simp [HasPrefix, String.data_append]

theorem TrimPrefix_append (pre rest : String) : TrimPrefix (pre ++ rest) pre = rest := by
  simp [TrimPrefix, HasPrefix_append, String.data_append]

theorem eq_append_TrimPrefix (s pre : String) (h : HasPrefix s pre = true) :
    s = pre ++ TrimPrefix s pre := by
  have hp : pre.data <+: s.data := by simpa [HasPrefix] using h
  obtain ⟨t, ht⟩ := hp
  apply String.ext
  simp [TrimPrefix, h, String.data_append, ← ht]

theorem accountDoesNotExistErr_eq :
    accountDoesNotExistErr = "urn:ietf:params:acme:error:accountDoesNotExist" := by decide

theorem serverInternalErr_eq :
    serverInternalErr = "urn:ietf:params:acme:error:serverInternal" := by decide

/-- C8: for `lookupJWK` on a JWS whose kid is `BasePath ++ "/acct/" ++ id` with
`id` non-empty: a storage NotFound error for `id` gives an accountDoesNotExist
problem, any other storage error gives serverInternal; a kid without the
account-URL prefix, or with nothing after it, gives malformed; and an account
is returned only if storage returned it for the id after the prefix and the
header carries no jwk. -/
theorem lookupJWK_outcomes (wfe : WebFrontEndImpl) (log : List Call) (jws : JSONWebSignature) :
    (∀ id : String, id ≠ "" → jws.Signatures0.Header.KeyID = wfe.BasePath ++ "/acct/" ++ id →
      (∀ b : BrickProblem, wfe.db.GetAccountByID log id = .error (.brick b) →
        b.Typ = errorType.notFoundType →
        ∃ prob, (wfe.lookupJWK log jws).2 = .error prob ∧
          prob.Typ = "urn:ietf:params:acme:error:accountDoesNotExist") ∧
      (∀ err : GoError, wfe.db.GetAccountByID log id = .error err →
        (∀ b : BrickProblem, err = .brick b → b.Typ ≠ errorType.notFoundType) →
        ∃ prob, (wfe.lookupJWK log jws).2 = .error prob ∧
          prob.Typ = "urn:ietf:params:acme:error:serverInternal" ∧ prob.HTTPStatus = 500)) ∧
    ((HasPrefix jws.Signatures0.Header.KeyID (wfe.BasePath ++ "/acct/") = false ∨
        jws.Signatures0.Header.KeyID = wfe.BasePath ++ "/acct/") →
      ∃ prob, (wfe.lookupJWK log jws).2 = .error prob ∧
        prob.Typ = "urn:ietf:params:acme:error:malformed") ∧
    (∀ account : core.Account, (wfe.lookupJWK log jws).2 = .ok account →
      jws.Signatures0.Header.JSONWebKey = none ∧
      ∃ id : String, id ≠ "" ∧ jws.Signatures0.Header.KeyID = wfe.BasePath ++ "/acct/" ++ id ∧
        wfe.db.GetAccountByID log id = .ok account) := by
  have hpre : wfe.RelativePath acctPath = wfe.BasePath ++ "/acct/" := rfl
  refine ⟨?_, ?_, ?_⟩
  · intro id hid hkid
    have h1 : HasPrefix jws.Signatures0.Header.KeyID (wfe.BasePath ++ "/acct/") = true := by
      rw [hkid]; exact HasPrefix_append _ _
    have h2 : TrimPrefix jws.Signatures0.Header.KeyID (wfe.BasePath ++ "/acct/") = id := by
      rw [hkid]; exact TrimPrefix_append _ _
    constructor
    · intro b hdb hb
      refine ⟨AccountDoesNotExistProblem "Account not found", ?_, accountDoesNotExistErr_eq⟩
      simp [WebFrontEndImpl.lookupJWK, hpre, h1, h2, hid, hdb, IsNotFoundError, hb]
    · intro err hdb hother
      have hnf : IsNotFoundError err = none := by
        cases err with
        | problem p => rfl
        | brick b => simp [IsNotFoundError, hother b rfl]
        | plain msg => rfl
      refine ⟨InternalErrorProblem "Error looking up Account", ?_, serverInternalErr_eq, rfl⟩
      simp [WebFrontEndImpl.lookupJWK, hpre, h1, h2, hid, hdb, hnf]
  · rintro (h | h)
    · refine ⟨MalformedProblem "Key ID (kid) in JWS header missing expected URL prefix", ?_,
        malformedErr_eq⟩
      simp [WebFrontEndImpl.lookupJWK, hpre, h]
    · have h1 : HasPrefix jws.Signatures0.Header.KeyID (wfe.BasePath ++ "/acct/") = true := by
        rw [h]; simpa using HasPrefix_append (wfe.BasePath ++ "/acct/") ""
      have h2 : TrimPrefix jws.Signatures0.Header.KeyID (wfe.BasePath ++ "/acct/") = "" := by
        rw [h]; simpa using TrimPrefix_append (wfe.BasePath ++ "/acct/") ""
      refine ⟨MalformedProblem "No KID in JWS Header", ?_, malformedErr_eq⟩
      simp [WebFrontEndImpl.lookupJWK, hpre, h1, h2]
  · intro account hok
    unfold WebFrontEndImpl.lookupJWK at hok
    simp only [hpre] at hok
    split at hok
    · simp at hok
    · rename_i hp
      split at hok
      · simp at hok
      · rename_i hne
        split at hok
        · split at hok <;> simp at hok
        · rename_i acct hdb
          split at hok
          · simp at hok
          · rename_i hjwk
            simp only [Except.ok.injEq] at hok
            subst hok
            exact ⟨hjwk, _, hne, eq_append_TrimPrefix _ _ (by simpa using hp), hdb⟩

/-! ### Request verification and the handlers -/

/-- The only collaborator call `lookupJWK` makes is one account lookup. -/
theorem lookupJWK_log (wfe : WebFrontEndImpl) (log : List Call) (jws : JSONWebSignature) :
    (wfe.lookupJWK log jws).1 = log ∨
      ∃ id, (wfe.lookupJWK log jws).1 = log ++ [Call.GetAccountByID id] := by
  unfold WebFrontEndImpl.lookupJWK
  simp only
  split
  · exact Or.inl rfl
  · split
    · exact Or.inl rfl
    · refine Or.inr ⟨TrimPrefix jws.Signatures0.Header.KeyID (wfe.RelativePath acctPath), ?_⟩
      split
      · split <;> rfl
      · split <;> rfl

/-- The only collaborator call `verifyPOST` makes is at most one account
lookup. -/
theorem verifyPOST_log {σ : Type} (wfe : WebFrontEndImpl) (Valid : σ → Nonce → σ × Bool)
    (noncer : σ) (log : List Call) (request : Request) :
    (wfe.verifyPOST Valid noncer log request).2.1 = log ∨
      ∃ id, (wfe.verifyPOST Valid noncer log request).2.1 = log ++ [Call.GetAccountByID id] := by
  unfold WebFrontEndImpl.verifyPOST
  split
  · exact Or.inl rfl
  · split
    · exact Or.inl rfl
    · exact Or.inl rfl
    · split
      · exact Or.inl rfl
      · rename_i parsedJWS _
        have hl := lookupJWK_log wfe log parsedJWS
        split
        · rename_i log1 prob hlk
          rw [hlk] at hl
          exact hl
        · rename_i log1 account hlk
          rw [hlk] at hl
          split
          · exact hl
          · split <;> exact hl

theorem verifyPOST_log_any {σ : Type} (wfe : WebFrontEndImpl) (Valid : σ → Nonce → σ × Bool)
    (noncer : σ) (request : Request) (p : Call → Bool)
    (hp : ∀ id, p (Call.GetAccountByID id) = false) :
    (wfe.verifyPOST Valid noncer [] request).2.1.any p = false := by
  rcases verifyPOST_log wfe Valid noncer [] request with h | ⟨id, h⟩
  · rw [h]; rfl
  · rw [h]; simp [hp]

/-- C5: a verified finalize request whose account is not the owner of the
order is rejected (the response consists of an unauthorized problem, status
403, followed by a malformed problem), and neither `UpdateOrder` nor
`CompleteOrder` is called, whatever the order status, the request body and
the bound on the polling loop. -/
theorem FinalizeOrder_not_owner {σ : Type} (wfe : WebFrontEndImpl)
    (Valid : σ → Nonce → σ × Bool) (traceID : String) (fuel : Nat) (noncer noncer1 : σ)
    (r : Request) (orderID : String) (log1 : List Call) (postRequest : postRequest)
    (order : core.Order)
    (hverified : wfe.verifyPOST Valid noncer [] r = (noncer1, log1, .ok postRequest))
    (horder : wfe.db.GetOrderByID log1 orderID = .ok order)
    (hnotOwner : order.AccountID ≠ postRequest.account.ID) :
    ∃ st, wfe.FinalizeOrder Valid traceID fuel (Exchange.start noncer) r orderID = some st ∧
      st.log.any Call.issues = false ∧
      st.response =
        [Write.problem { UnauthorizedProblem "AccountID and Order AccountID do not match" with
            TraceID := traceID },
         Write.problem { MalformedProblem "You are not the Owner of this Order" with
            TraceID := traceID }] := by
  have hlog := verifyPOST_log_any wfe Valid noncer r Call.issues (fun _ => rfl)
  rw [hverified] at hlog
  simp only at hlog
  have hfin : wfe.FinalizeOrder Valid traceID fuel (Exchange.start noncer) r orderID =
      some { noncer := noncer1, log := log1 ++ [Call.GetOrderByID orderID],
             response :=
              [Write.problem { UnauthorizedProblem "AccountID and Order AccountID do not match"
                  with TraceID := traceID },
               Write.problem { MalformedProblem "You are not the Owner of this Order" with
                  TraceID := traceID }] } := by
    unfold WebFrontEndImpl.FinalizeOrder
    simp [Exchange.start, hverified, horder, validateOrderForIssuance, hnotOwner,
      Exchange.wrote, handleError, sendError]
  exact ⟨_, hfin, by simp [hlog, Call.issues], rfl⟩

/-- C5 at a concrete request: account `acct-1` asks to finalize the order
`order-1` of account `acct-2`. -/
theorem FinalizeOrder_not_owner_witness :
    ∃ st, (sampleWFE "/finalize-order/order-1").FinalizeOrder nonceImpl.Valid "trace-1" 3
        (Exchange.start (NewNoncer.Next "Zm6nTiaeSDGQv0aXugm1Ug").1)
        (samplePost "/finalize-order/order-1") "order-1" = some st ∧
      st.log.any Call.issues = false ∧
      st.response =
        [Write.problem { UnauthorizedProblem "AccountID and Order AccountID do not match" with
            TraceID := "trace-1" },
         Write.problem { MalformedProblem "You are not the Owner of this Order" with
            TraceID := "trace-1" }] :=
  FinalizeOrder_not_owner (sampleWFE "/finalize-order/order-1") nonceImpl.Valid "trace-1" 3
    (NewNoncer.Next "Zm6nTiaeSDGQv0aXugm1Ug").1 (nonceImpl.mk ∅)
    (samplePost "/finalize-order/order-1") "order-1" [Call.GetAccountByID "acct-1"]
    { isPostAsGet := false, r := samplePost "/finalize-order/order-1",
      account := sampleAccount, jwsBody := some [123, 125] }
    sampleOrder (by decide) (by decide) (by decide)

/-- C8 at a concrete JWS: the kid names the account `acct-7`, which storage
does not have. -/
theorem lookupJWK_outcomes_witness :
    ∃ prob, ((sampleWFE "/new-order").lookupJWK []
        { payload := "{}",
          Signatures0 := { Header := { KeyID := "http://localhost/acct/acct-7" } } }).2
        = .error prob ∧
      prob.Typ = "urn:ietf:params:acme:error:accountDoesNotExist" :=
  ((lookupJWK_outcomes (sampleWFE "/new-order") []
      { payload := "{}",
        Signatures0 := { Header := { KeyID := "http://localhost/acct/acct-7" } } }).1
    "acct-7" (by decide) (by decide)).1 (NotFoundError "no account") (by decide) (by decide)

/-! ### Starting a challenge -/

theorem getChallengeJSON_log (wfe : WebFrontEndImpl) (log : List Call) (ID : String) :
    (wfe.getChallengeJSON log ID).1 = log ++ [Call.GetChallengeByID ID] := by
  unfold WebFrontEndImpl.getChallengeJSON
  simp only
  split <;> rfl

/-- C3 (as stated, refuted): with GET allowed (`ProhibitGet` false, the value
`New` leaves it at), a plain GET of the challenge path, which is neither a
POST nor authenticated, makes the front end call `UpdateChallengeStatus` and
`DoValidation`. -/
theorem PostChallenge_get_starts_validation :
    (sampleGet "/chalZ/chal-1").Method ≠ "POST" ∧
    ((sampleWFE "/chalZ/chal-1").PostChallenge nonceImpl.Valid "trace-1" 1000
        (Exchange.start NewNoncer) (sampleGet "/chalZ/chal-1") "chal-1").log =
      [Call.GetChallengeByID "chal-1", Call.GetAuthorizationByID "authz-1",
       Call.GetAccountByID "acct-1", Call.UpdateChallengeStatus "chal-1" "processing",
       Call.DoValidation
        { Challenge := sampleChallenge, Authorization := sampleAuthz, AccountJWK := sampleKey },
       Call.GetChallengeByID "chal-1"] := by
  decide

/-- What `HandleStartChallenge` needs to start a validation: the challenge
exists and is owned by the authenticated account. -/
theorem HandleStartChallenge_starts_only {σ : Type} (wfe : WebFrontEndImpl) (traceID : String)
    (now : Time) (st : Exchange σ) (pr : postRequest) (id : String)
    (hst : st.log.any Call.startsValidation = false)
    (h : (wfe.HandleStartChallenge traceID now st pr id).log.any Call.startsValidation = true) :
    ∃ chal authzID, wfe.db.GetChallengeByID st.log id = .ok (chal, pr.account.ID, authzID) := by
  unfold WebFrontEndImpl.HandleStartChallenge at h
  simp only at h
  split at h
  · simp [Exchange.wrote, Exchange.called, hst, Call.startsValidation] at h
  · rename_i chal owner authzID hch
    split at h
    · simp [Exchange.wrote, Exchange.called, hst, Call.startsValidation] at h
    · rename_i hown
      have hown' : pr.account.ID = owner := by simpa using hown
      exact ⟨chal, authzID, by rw [hch, hown']⟩

/-- C3 (amended): a request to the challenge path makes the front end call
`UpdateChallengeStatus` or `DoValidation` only if it is a JWS-verified POST
with a non-empty payload whose authenticated account is the owner of the
challenge, or it is a GET and `ProhibitGet` is off. Every other request (any
other method, a POST that fails verification, a POST by another account, a
GET while `ProhibitGet` is on) causes neither call. -/
theorem PostChallenge_starts_validation_only {σ : Type} (wfe : WebFrontEndImpl)
    (Valid : σ → Nonce → σ × Bool) (traceID : String) (now : Time) (noncer : σ)
    (r : Request) (id : String)
    (h : (wfe.PostChallenge Valid traceID now (Exchange.start noncer) r id).log.any
        Call.startsValidation = true) :
    (r.Method = "POST" ∧
      ∃ noncer1 log1 pr chal authzID,
        wfe.verifyPOST Valid noncer [] r = (noncer1, log1, .ok pr) ∧
        pr.isPostAsGet = false ∧
        wfe.db.GetChallengeByID log1 id = .ok (chal, pr.account.ID, authzID)) ∨
    (r.Method = "GET" ∧ wfe.ProhibitGet = false) := by
  unfold WebFrontEndImpl.PostChallenge at h
  split at h
  · simp [Exchange.wrote, Exchange.start] at h
  · rename_i hmeth
    split at h
    · rename_i hpost
      have hlog := verifyPOST_log_any wfe Valid noncer r Call.startsValidation (fun _ => rfl)
      left
      refine ⟨hpost, ?_⟩
      simp only [Exchange.start] at h
      split at h
      · rename_i noncer1 log1 prob hv
        rw [hv] at hlog
        simp only at hlog
        simp [hlog] at h
      · rename_i noncer1 log1 pr hv
        rw [hv] at hlog
        simp only at hlog
        split at h
        · rename_i hpag
          obtain ⟨chal, authzID, hch⟩ :=
            HandleStartChallenge_starts_only wfe traceID now _ pr id hlog h
          exact ⟨noncer1, log1, pr, chal, authzID, hv, by simpa using hpag, hch⟩
        · have hj := getChallengeJSON_log wfe log1 id
          split at h
          · rename_i log2 err hg
            rw [hg] at hj
            simp only at hj
            simp [hj, hlog, Call.startsValidation] at h
          · rename_i log2 chal hg
            rw [hg] at hj
            simp only at hj
            simp [hj, hlog, Call.startsValidation] at h
    · rename_i hnpost
      right
      have hget : r.Method = "GET" := by
        by_contra hne
        exact hmeth ⟨hne, hnpost⟩
      refine ⟨hget, ?_⟩
      split at h
      · simp [Exchange.wrote, Exchange.start] at h
      · rename_i hp
        simpa using hp

/-- The amended C3 at a concrete request: the verified POST of account
`acct-1` to its own challenge `chal-1` starts the validation. -/
theorem PostChallenge_starts_validation_only_witness :
    ((samplePost "/chalZ/chal-1").Method = "POST" ∧
      ∃ noncer1 log1 pr chal authzID,
        (sampleWFE "/chalZ/chal-1").verifyPOST nonceImpl.Valid
            (NewNoncer.Next "Zm6nTiaeSDGQv0aXugm1Ug").1 [] (samplePost "/chalZ/chal-1")
          = (noncer1, log1, .ok pr) ∧
        pr.isPostAsGet = false ∧
        (sampleWFE "/chalZ/chal-1").db.GetChallengeByID log1 "chal-1"
          = .ok (chal, pr.account.ID, authzID)) ∨
    ((samplePost "/chalZ/chal-1").Method = "GET" ∧
      (sampleWFE "/chalZ/chal-1").ProhibitGet = false) :=
  PostChallenge_starts_validation_only (sampleWFE "/chalZ/chal-1") nonceImpl.Valid "trace-1"
    1000 (NewNoncer.Next "Zm6nTiaeSDGQv0aXugm1Ug").1 (samplePost "/chalZ/chal-1") "chal-1"
    (by decide)

/-! ### HTTP-01 probe -/

theorem dropWhile_append_of_all {α : Type} (p : α → Bool) (xs ys : List α)
    (h : ∀ x ∈ xs, p x = true) : (xs ++ ys).dropWhile p = ys.dropWhile p := by
  induction xs with
  | nil => rfl
  | cons x xs ih =>
    have hx : p x = true := h x (by simp)
    simp only [List.cons_append, List.dropWhile_cons, hx, if_true]
    exact ih (fun y hy => h y (by simp [hy]))

/-- Trimming on the right gives `t`, a string not ending in a cutset byte,
exactly when the input is `t` followed by cutset bytes only. -/
theorem TrimRight_eq_iff (s t cutset : List UInt8)
    (ht : ∀ b, t.getLast? = some b → cutset.contains b = false) :
    TrimRight s cutset = t ↔ ∃ w, s = t ++ w ∧ ∀ x ∈ w, cutset.contains x = true := by
  constructor
  · intro h
    refine ⟨(s.reverse.takeWhile (fun b => cutset.contains b)).reverse, ?_, ?_⟩
    · rw [← h, TrimRight, ← List.reverse_append, List.takeWhile_append_dropWhile,
        List.reverse_reverse]
    · intro x hx
      rw [List.mem_reverse] at hx
      exact List.mem_takeWhile_imp hx
  · rintro ⟨w, rfl, hw⟩
    unfold TrimRight
    rw [List.reverse_append, dropWhile_append_of_all _ _ _
      (fun x hx => hw x (List.mem_reverse.mp hx))]
    cases hrev : t.reverse with
    | nil =>
      have : t = [] := by simpa using hrev
      simp [this]
    | cons b rest =>
      have hlast : t.getLast? = some b := by
        rw [List.getLast?_eq_head?_reverse, hrev]
        rfl
      have hb := ht b hlast
      simp only [List.dropWhile_cons, hb, Bool.false_eq_true, if_false]
      rw [← hrev, List.reverse_reverse]

theorem encode6_mem (n : Nat) : encode6 n ∈ encodeURL := by
  have h : ∀ k : Fin 64, encodeURL.getD k.val 'A' ∈ encodeURL := by decide
  exact h ⟨n % 64, Nat.mod_lt _ (by decide)⟩

theorem EncodeToString_mem (bs : List UInt8) : ∀ c ∈ EncodeToString bs, c ∈ encodeURL := by
  induction bs using EncodeToString.induct with
  | case1 a b c rest ih =>
    intro ch hch
    simp only [EncodeToString, List.mem_cons] at hch
    rcases hch with rfl | rfl | rfl | rfl | hch
    · exact encode6_mem _
    · exact encode6_mem _
    · exact encode6_mem _
    · exact encode6_mem _
    · exact ih ch hch
  | case2 a b =>
    intro ch hch
    simp only [EncodeToString, List.mem_cons, List.mem_singleton, List.not_mem_nil,
      or_false] at hch
    rcases hch with rfl | rfl | rfl <;> exact encode6_mem _
  | case3 a =>
    intro ch hch
    simp only [EncodeToString, List.mem_cons, List.mem_singleton, List.not_mem_nil,
      or_false] at hch
    rcases hch with rfl | rfl <;> exact encode6_mem _
  | case4 => intro ch hch; simp [EncodeToString] at hch

theorem goBytes_append (a b : String) : goBytes (a ++ b) = goBytes a ++ goBytes b := by
  simp [goBytes, String.data_append]

/-- The expected key authorization never ends in a newline, carriage return
or tab: it ends in the dot or in a character of the base64 alphabet. -/
theorem keyAuthorization_last (token : String) (thumb : List UInt8) (b : UInt8)
    (h : (goBytes (token ++ "." ++ String.mk (EncodeToString thumb))).getLast? = some b) :
    [(10 : UInt8), 13, 9].contains b = false := by
  have hsafe : ∀ c ∈ encodeURL, ∀ x ∈ String.utf8EncodeChar c,
      [(10 : UInt8), 13, 9].contains x = false := by decide
  have hdot : goBytes "." = [46] := by decide
  rw [goBytes_append, goBytes_append, hdot, List.append_assoc, List.getLast?_append] at h
  have hne : ([46] ++ goBytes (String.mk (EncodeToString thumb))).getLast? ≠ none := by
    simp [List.getLast?_eq_none_iff]
  cases hl : ([46] ++ goBytes (String.mk (EncodeToString thumb))).getLast? with
  | none => exact absurd hl hne
  | some x =>
    rw [hl] at h
    simp only [Option.or_some, Option.some.injEq] at h
    subst h
    have hmem := List.mem_of_getLast?_eq_some hl
    simp only [List.singleton_append, List.mem_cons] at hmem
    rcases hmem with rfl | hmem
    · decide
    · simp only [goBytes, List.mem_flatMap] at hmem
      obtain ⟨c, hc, hx⟩ := hmem
      exact hsafe c (EncodeToString_mem thumb c hc) x hx

theorem unauthorizedErr_eq :
    unauthorizedErr = "urn:ietf:params:acme:error:unauthorized" := by decide

/-- C9: given an HTTP 200 probe response with body `body`, and the thumbprint
of the account key, `VerifyHTTP01` succeeds exactly when the first 1000 bytes
of the body, with every trailing line feed, carriage return and tab removed,
are the expected key authorization `token.base64url(thumbprint)`; equivalently,
when those bytes are the key authorization followed only by such characters.
Otherwise it returns an unauthorized problem. A body with the same first
1000 bytes gets the same verdict. -/
theorem VerifyHTTP01_verdict (lib : Lib)
    (client client' : String → Except GoError ProbeResponse)
    (req : core.VerificationRequest) (body body' thumb : List UInt8)
    (hnew : lib.NewRequest (probeURL lib req) = none)
    (hresp : client (probeURL lib req) = .ok { StatusCode := 200, Body := body })
    (hresp' : client' (probeURL lib req) = .ok { StatusCode := 200, Body := body' })
    (hthumb : lib.Thumbprint req.AccountJWK = .ok thumb) :
    (VerifyHTTP01 lib client req = none ↔
      TrimRight (body.take 1000) [10, 13, 9]
        = goBytes (req.Challenge.Token ++ "." ++ String.mk (EncodeToString thumb))) ∧
    (VerifyHTTP01 lib client req = none ↔
      ∃ w, body.take 1000
          = goBytes (req.Challenge.Token ++ "." ++ String.mk (EncodeToString thumb)) ++ w ∧
        ∀ x ∈ w, x = 10 ∨ x = 13 ∨ x = 9) ∧
    (VerifyHTTP01 lib client req ≠ none →
      ∃ prob, VerifyHTTP01 lib client req = some prob ∧
        prob.Typ = "urn:ietf:params:acme:error:unauthorized" ∧ prob.HTTPStatus = 403) ∧
    (body'.take 1000 = body.take 1000 →
      VerifyHTTP01 lib client' req = VerifyHTTP01 lib client req) := by
  have hurl : lib.URLString "http" (req.Authorization.Identifier.Value ++ ":" ++ "80")
      (HTTP01BaseURL ++ req.Challenge.Token) = probeURL lib req := rfl
  have hfetch : ∀ (cl : String → Except GoError ProbeResponse) (bd : List UInt8),
      cl (probeURL lib req) = .ok { StatusCode := 200, Body := bd } →
      VerifyHTTP01 lib cl req =
        if TrimRight (bd.take 1000) [10, 13, 9]
            ≠ goBytes (req.Challenge.Token ++ "." ++ String.mk (EncodeToString thumb)) then
          some (UnauthorizedProblem
            ("The key authorization file from server did not match this challenge: " ++
              lib.Quote (goBytes (req.Challenge.Token ++ "." ++
                String.mk (EncodeToString thumb))) ++ " != " ++
              lib.Quote (TrimRight (bd.take 1000) [10, 13, 9])))
        else none := by
    intro cl bd hcl
    simp [VerifyHTTP01, fetchToken, hurl, hnew, hcl, ExpectedKeyAuthorization, hthumb]
  have hverdict : VerifyHTTP01 lib client req = none ↔
      TrimRight (body.take 1000) [10, 13, 9]
        = goBytes (req.Challenge.Token ++ "." ++ String.mk (EncodeToString thumb)) := by
    rw [hfetch client body hresp]
    by_cases hc : TrimRight (body.take 1000) [10, 13, 9]
        = goBytes (req.Challenge.Token ++ "." ++ String.mk (EncodeToString thumb))
    · simp [hc]
    · simp [hc]
  refine ⟨hverdict, ?_, ?_, ?_⟩
  · rw [hverdict, TrimRight_eq_iff _ _ _ (keyAuthorization_last req.Challenge.Token thumb)]
    constructor
    · rintro ⟨w, hw, hall⟩
      refine ⟨w, hw, fun x hx => ?_⟩
      have := hall x hx
      simpa using this
    · rintro ⟨w, hw, hall⟩
      refine ⟨w, hw, fun x hx => ?_⟩
      have := hall x hx
      simpa using this
  · intro hne
    rw [hfetch client body hresp] at hne ⊢
    split at hne
    · rename_i hc
      rw [if_pos hc]
      exact ⟨_, rfl, unauthorizedErr_eq, rfl⟩
    · exact absurd rfl hne
  · intro hsame
    rw [hfetch client body hresp, hfetch client' body' hresp', hsame]

/-- C9 at a concrete probe: a body of 1000 bytes, the key authorization padded
with a line feed and tabs, and the same body followed by more bytes. -/
theorem VerifyHTTP01_verdict_witness :
    (VerifyHTTP01 sampleLib (sampleClient sampleBody) sampleVerificationRequest = none ↔
      TrimRight (sampleBody.take 1000) [10, 13, 9]
        = goBytes (sampleVerificationRequest.Challenge.Token ++ "." ++
            String.mk (EncodeToString [1, 2, 3, 4]))) ∧
    (VerifyHTTP01 sampleLib (sampleClient sampleBody) sampleVerificationRequest = none ↔
      ∃ w, sampleBody.take 1000
          = goBytes (sampleVerificationRequest.Challenge.Token ++ "." ++
              String.mk (EncodeToString [1, 2, 3, 4])) ++ w ∧
        ∀ x ∈ w, x = 10 ∨ x = 13 ∨ x = 9) ∧
    (VerifyHTTP01 sampleLib (sampleClient sampleBody) sampleVerificationRequest ≠ none →
      ∃ prob, VerifyHTTP01 sampleLib (sampleClient sampleBody) sampleVerificationRequest
          = some prob ∧
        prob.Typ = "urn:ietf:params:acme:error:unauthorized" ∧ prob.HTTPStatus = 403) ∧
    (sampleBodyLong.take 1000 = sampleBody.take 1000 →
      VerifyHTTP01 sampleLib (sampleClient sampleBodyLong) sampleVerificationRequest
        = VerifyHTTP01 sampleLib (sampleClient sampleBody) sampleVerificationRequest) :=
  VerifyHTTP01_verdict sampleLib (sampleClient sampleBody) (sampleClient sampleBodyLong)
    sampleVerificationRequest sampleBody sampleBodyLong [1, 2, 3, 4] rfl rfl rfl rfl

/-! ### Validation authority: retries -/

theorem VerifyHTTP01_retries (lib : Lib) (client : String → Except GoError ProbeResponse)
    (req : core.VerificationRequest) (k : Int) :
    VerifyHTTP01 lib client { req with Retries := k } = VerifyHTTP01 lib client req := rfl

/-- One validation of a request whose probe fails, by the value of `Retries`. -/
theorem performValidation_failed (env : VAEnv) (va : vaImpl) (req : core.VerificationRequest)
    (prob : ProblemDetails) (htype : req.Challenge.Typ = "http-01")
    (hfail : VerifyHTTP01 env.lib (env.client va.performed) req = some prob) :
    va.performValidation env req =
      if req.Retries < 5 then
        { va with c := va.c ++ [{ req with Retries := req.Retries + 1 }],
                  performed := va.performed + 1 }
      else
        { va with
          log := va.log ++ [Call.UpdateAuthorization { req.Challenge with Error := some prob }
            req.Authorization.ID "invalid"],
          performed := va.performed + 1 } := by
  simp [vaImpl.performValidation, verificationFuncs, htype, hfail, maxChallengeRetries,
    SetChallengeInvalid, getAcmeProblem, StatusInvalid]

/-- C10: a request that starts with `Retries = 0` and whose probe fails every
time is validated exactly six times. Each of the validations with `Retries`
0 to 4 puts it back on the channel with `Retries` one higher and writes
nothing to storage; the one with `Retries = 5` puts nothing back and calls
`UpdateAuthorization(challenge, authzID, "invalid")` once, the problem
attached to the challenge. After that the channel is empty. No validation of
any request puts a request with `Retries` above 5 on the channel. -/
theorem performValidation_retry_bound (env : VAEnv) (req : core.VerificationRequest)
    (probs : Nat → ProblemDetails) (extra : Nat)
    (hretries : req.Retries = 0) (htype : req.Challenge.Typ = "http-01")
    (hfail : ∀ t, VerifyHTTP01 env.lib (env.client t) req = some (probs t)) :
    (∀ (k : Nat) (va : vaImpl), k ≤ 4 →
      va.performValidation env { req with Retries := k } =
        { va with c := va.c ++ [{ req with Retries := (k : Int) + 1 }],
                  performed := va.performed + 1 }) ∧
    (∀ va : vaImpl,
      va.performValidation env { req with Retries := 5 } =
        { va with
          log := va.log ++ [Call.UpdateAuthorization
            { req.Challenge with Error := some (probs va.performed) }
            req.Authorization.ID "invalid"],
          performed := va.performed + 1 }) ∧
    vaImpl.startLoop env (6 + extra) { c := [req] } =
      { c := [],
        log := [Call.UpdateAuthorization { req.Challenge with Error := some (probs 5) }
          req.Authorization.ID "invalid"],
        performed := 6, exited := false } ∧
    (∀ (va : vaImpl) (r r' : core.VerificationRequest),
      r' ∈ (va.performValidation env r).c → r' ∈ va.c ∨ r'.Retries ≤ 5) := by
  have hstep : ∀ (k : Int) (va : vaImpl), va.performValidation env { req with Retries := k } =
      if k < 5 then
        { va with c := va.c ++ [{ req with Retries := k + 1 }],
                  performed := va.performed + 1 }
      else
        { va with
          log := va.log ++ [Call.UpdateAuthorization
            { req.Challenge with Error := some (probs va.performed) }
            req.Authorization.ID "invalid"],
          performed := va.performed + 1 } := by
    intro k va
    exact performValidation_failed env va { req with Retries := k } (probs va.performed) htype
      (hfail va.performed)
  have hreq : req = { req with Retries := 0 } := by
    cases req
    simp only at hretries
    subst hretries
    rfl
  refine ⟨?_, ?_, ?_, ?_⟩
  · intro k va hk
    rw [hstep]
    have : (k : Int) < 5 := by omega
    simp [this]
  · intro va
    rw [hstep]
    simp
  · have hloop : ∀ (k : Int) (fuel p : Nat), k < 5 →
        vaImpl.startLoop env (fuel + 1)
          { c := [{ req with Retries := k }], log := [], performed := p, exited := false } =
        vaImpl.startLoop env fuel
          { c := [{ req with Retries := k + 1 }], log := [], performed := p + 1,
            exited := false } := by
      intro k fuel p hk
      rw [vaImpl.startLoop]
      simp only [Bool.false_eq_true, if_false, hstep, hk, if_true, List.nil_append]
    have hlast : ∀ (fuel p : Nat),
        vaImpl.startLoop env (fuel + 1)
          { c := [{ req with Retries := 5 }], log := [], performed := p, exited := false } =
        { c := [],
          log := [Call.UpdateAuthorization { req.Challenge with Error := some (probs p) }
            req.Authorization.ID "invalid"],
          performed := p + 1, exited := false } := by
      intro fuel p
      rw [vaImpl.startLoop]
      simp only [Bool.false_eq_true, if_false, hstep, lt_self_iff_false, List.nil_append]
      cases fuel <;> simp [vaImpl.startLoop]
    rw [show 6 + extra = extra + 5 + 1 from by omega]
    have h0 := hloop 0 (extra + 5) 0 (by decide)
    rw [← hreq] at h0
    rw [h0, show extra + 5 = extra + 4 + 1 from rfl, hloop (0 + 1) (extra + 4) 1 (by decide),
      show extra + 4 = extra + 3 + 1 from rfl, hloop (0 + 1 + 1) (extra + 3) 2 (by decide),
      show extra + 3 = extra + 2 + 1 from rfl, hloop (0 + 1 + 1 + 1) (extra + 2) 3 (by decide),
      show extra + 2 = extra + 1 + 1 from rfl, hloop (0 + 1 + 1 + 1 + 1) (extra + 1) 4 (by decide)]
    exact hlast extra 5
  · intro va r r' hmem
    unfold vaImpl.performValidation at hmem
    split at hmem
    · exact Or.inl hmem
    · split at hmem
      · split at hmem
        · rename_i hlt
          simp only [List.mem_append, List.mem_singleton] at hmem
          rcases hmem with h | h
          · exact Or.inl h
          · right
            rw [h]
            simp only [maxChallengeRetries] at hlt
            show r.Retries + 1 ≤ 5
            omega
        · exact Or.inl hmem
      · exact Or.inl hmem

/-- C10 at a concrete environment: every probe is answered with a page that is
not the key authorization. -/
theorem performValidation_retry_bound_witness :
    (∀ (k : Nat) (va : vaImpl), k ≤ 4 →
      va.performValidation sampleVAEnv { sampleVerificationRequest with Retries := k } =
        { va with c := va.c ++ [{ sampleVerificationRequest with Retries := (k : Int) + 1 }],
                  performed := va.performed + 1 }) ∧
    (∀ va : vaImpl,
      va.performValidation sampleVAEnv { sampleVerificationRequest with Retries := 5 } =
        { va with
          log := va.log ++ [Call.UpdateAuthorization
            { sampleVerificationRequest.Challenge with Error := some sampleMismatch }
            sampleVerificationRequest.Authorization.ID "invalid"],
          performed := va.performed + 1 }) ∧
    vaImpl.startLoop sampleVAEnv (6 + 0) { c := [sampleVerificationRequest] } =
      { c := [],
        log := [Call.UpdateAuthorization
          { sampleVerificationRequest.Challenge with Error := some sampleMismatch }
          sampleVerificationRequest.Authorization.ID "invalid"],
        performed := 6, exited := false } ∧
    (∀ (va : vaImpl) (r r' : core.VerificationRequest),
      r' ∈ (va.performValidation sampleVAEnv r).c → r' ∈ va.c ∨ r'.Retries ≤ 5) :=
  performValidation_retry_bound sampleVAEnv sampleVerificationRequest (fun _ => sampleMismatch) 0
    (by decide) (by decide)
    (fun _ => show VerifyHTTP01 sampleLib (sampleClient (goBytes "<html>It works!</html>\n"))
        sampleVerificationRequest = some sampleMismatch by decide)

/-! ### Nonce services: size of the set, store outage -/

/-- The in-memory set never holds more than `MaxUsed + 1` nonces. -/
theorem nonceImpl.card_run_le (cs : List NonceCall) :
    ∀ n : nonceImpl, n.nonces.card ≤ MaxUsed + 1 → (n.run cs).nonces.card ≤ MaxUsed + 1 := by
  induction cs with
  | nil => intro n h; simpa [nonceImpl.run] using h
  | cons c cs ih =>
    intro n h
    apply ih
    cases c with
    | next drawn =>
      by_cases hk : n.nonces.card > MaxUsed
      · simp only [nonceImpl.call, nonceImpl.Next, hk, if_true]
        simp [MaxUsed]
      · simp only [nonceImpl.call, nonceImpl.Next, hk, if_false]
        have := Finset.card_insert_le drawn n.nonces
        omega
    | valid x =>
      by_cases hm : x ∈ n.nonces
      · simp only [nonceImpl.call, nonceImpl.Valid, hm, if_true]
        have := Finset.card_erase_le (s := n.nonces) (a := x)
        omega
      · simpa [nonceImpl.call, nonceImpl.Valid, hm] using h

/-- C19 (the code at the failing input): after 513 `Next` calls on a fresh
service, the generator delivering pairwise different nonces, the set holds 513
nonces, one more than `MaxUsed`: the set is dropped only by a `Next` that
finds more than `MaxUsed` entries. -/
theorem nonce_set_exceeds_MaxUsed :
    (NewNoncer.run (sampleNexts 0 513)).nonces.card = 513 ∧
    MaxUsed < (NewNoncer.run (sampleNexts 0 513)).nonces.card := by
  have h := nonceImpl.card_run_sampleNexts 513 0 NewNoncer
    (by intro i _ _; simp [NewNoncer]) (by omega) (by simp [NewNoncer, MaxUsed])
  have h0 : NewNoncer.nonces.card = 0 := by simp [NewNoncer]
  rw [h0] at h
  refine ⟨by omega, ?_⟩
  rw [h]
  decide

/-- C18 (the code at the failing input): when the redis server cannot be
reached, `Valid` of the shared-store nonce service returns true for a nonce
it never issued, and `verifyJWS` accepts the request that carries it. -/
theorem redisNoncer_Valid_true_on_outage :
    (downClient.Get () "Zm6nTiaeSDGQv0aXugm1Ug").2
      = .failure (.plain "dial tcp 127.0.0.1:6379: connect: connection refused") ∧
    (redisNoncer.Valid downClient () "Zm6nTiaeSDGQv0aXugm1Ug").2 = true ∧
    (verifyJWS sampleLib (redisNoncer.Valid downClient) () sampleKey
        (sampleJWS "Zm6nTiaeSDGQv0aXugm1Ug" [("url", .str "https://localhost/new-order")])
        sampleRequest).2 = .ok [123, 125] := by
  decide

/-- C20 (the code at the failing input): a body in the flattened serialization
that also has the member `signatures` with the empty array as value is parsed
by `ParseJWS` without error. -/
theorem ParseJWS_accepts_empty_signatures :
    libEmptySignatures.UnmarshalUnprotected bodyWithEmptySignatures
      = .ok { Header := none, Signatures := some [] } ∧
    ParseJWS libEmptySignatures bodyWithEmptySignatures
      = .ok { payload := "{}",
              Signatures0 := { Header := { Algorithm := "RS256" }, Raw := "sig" } } := by
  decide

/-! ### Finalize: order not ready -/

theorem orderNotReadyErr_eq :
    orderNotReadyErr = "urn:ietf:params:acme:error:orderNotReady" := by decide

/-- C15: a verified finalize request by the owner of an order whose status is
not `ready` is answered with an orderNotReady problem and nothing else, and
neither `UpdateOrder` nor `CompleteOrder` is called, whatever the request
body and the bound on the polling loop. -/
theorem FinalizeOrder_not_ready {σ : Type} (wfe : WebFrontEndImpl)
    (Valid : σ → Nonce → σ × Bool) (traceID : String) (fuel : Nat) (noncer noncer1 : σ)
    (r : Request) (orderID : String) (log1 : List Call) (postRequest : postRequest)
    (order : core.Order)
    (hverified : wfe.verifyPOST Valid noncer [] r = (noncer1, log1, .ok postRequest))
    (horder : wfe.db.GetOrderByID log1 orderID = .ok order)
    (howner : order.AccountID = postRequest.account.ID)
    (hstatus : order.Status ≠ "ready") :
    ∃ st prob, wfe.FinalizeOrder Valid traceID fuel (Exchange.start noncer) r orderID = some st ∧
      st.log.any Call.issues = false ∧
      st.response = [Write.problem prob] ∧
      prob.Typ = "urn:ietf:params:acme:error:orderNotReady" ∧
      prob.TraceID = traceID := by
  have hlog := verifyPOST_log_any wfe Valid noncer r Call.issues (fun _ => rfl)
  rw [hverified] at hlog
  simp only at hlog
  have hstatus' : ¬ order.Status = StatusReady := hstatus
  have hfin : wfe.FinalizeOrder Valid traceID fuel (Exchange.start noncer) r orderID =
      some { noncer := noncer1, log := log1 ++ [Call.GetOrderByID orderID],
             response :=
              [Write.problem { OrderNotReadyProblem
                  ("Order Status is " ++ order.Status ++ ", not ready") with
                  TraceID := traceID }] } := by
    unfold WebFrontEndImpl.FinalizeOrder
    simp [Exchange.start, hverified, horder, validateOrderForIssuance, howner, hstatus',
      Exchange.wrote, sendError]
  exact ⟨_, _, hfin, by simp [hlog, Call.issues], rfl, orderNotReadyErr_eq, rfl⟩

/-- C15 at a concrete request: account `acct-1` asks to finalize its own
pending order `order-2`. -/
theorem FinalizeOrder_not_ready_witness :
    ∃ st prob, (sampleWFE "/finalize-order/order-2").FinalizeOrder nonceImpl.Valid "trace-1" 3
        (Exchange.start (NewNoncer.Next "Zm6nTiaeSDGQv0aXugm1Ug").1)
        (samplePost "/finalize-order/order-2") "order-2" = some st ∧
      st.log.any Call.issues = false ∧
      st.response = [Write.problem prob] ∧
      prob.Typ = "urn:ietf:params:acme:error:orderNotReady" ∧
      prob.TraceID = "trace-1" :=
  FinalizeOrder_not_ready (sampleWFE "/finalize-order/order-2") nonceImpl.Valid "trace-1" 3
    (NewNoncer.Next "Zm6nTiaeSDGQv0aXugm1Ug").1 (nonceImpl.mk ∅)
    (samplePost "/finalize-order/order-2") "order-2" [Call.GetAccountByID "acct-1"]
    { isPostAsGet := false, r := samplePost "/finalize-order/order-2",
      account := sampleAccount, jwsBody := some [123, 125] }
    sampleOrderPending (by decide) (by decide) (by decide) (by decide)

/-! ### New order -/

/-- C11: whenever the storage lookup `GetAuthFromIdent(i, a)` returns an
authorization, `createOrGetAuthorization(a, i)` returns the id of that
authorization and its only storage call is that lookup (no
`AddAuthorization`); a further call, made after any other calls, for which
the lookup still returns the authorization, returns the same id. -/
theorem createOrGetAuthorization_existing (wfe : WebFrontEndImpl) (now now' : Time)
    (token token' : String) (log log' : List Call) (acct : core.Account)
    (identifier : acme.Identifier) (auth : core.Authorization)
    (hfound : wfe.db.GetAuthFromIdent log identifier acct = .ok auth)
    (hagain : wfe.db.GetAuthFromIdent log' identifier acct = .ok auth) :
    wfe.createOrGetAuthorization now token log acct identifier
      = (log ++ [Call.GetAuthFromIdent identifier acct], .ok auth.ID) ∧
    wfe.createOrGetAuthorization now' token' log' acct identifier
      = (log' ++ [Call.GetAuthFromIdent identifier acct], .ok auth.ID) := by
  constructor
  · simp [WebFrontEndImpl.createOrGetAuthorization, hfound]
  · simp [WebFrontEndImpl.createOrGetAuthorization, hagain]

/-- C11 at a concrete storage: account `acct-1` asks twice for an authorization
of `example.test`, which storage has as `authz-1`. -/
theorem createOrGetAuthorization_existing_witness :
    (sampleWFE "/new-order").createOrGetAuthorization 1000 "tok-1" [] sampleAccount
        { Typ := "dns", Value := "example.test" }
      = ([] ++ [Call.GetAuthFromIdent { Typ := "dns", Value := "example.test" } sampleAccount],
          .ok sampleAuthz.ID) ∧
    (sampleWFE "/new-order").createOrGetAuthorization 1001 "tok-2"
        [Call.GetAuthFromIdent { Typ := "dns", Value := "example.test" } sampleAccount]
        sampleAccount { Typ := "dns", Value := "example.test" }
      = ([Call.GetAuthFromIdent { Typ := "dns", Value := "example.test" } sampleAccount] ++
          [Call.GetAuthFromIdent { Typ := "dns", Value := "example.test" } sampleAccount],
          .ok sampleAuthz.ID) :=
  createOrGetAuthorization_existing (sampleWFE "/new-order") 1000 1001 "tok-1" "tok-2" []
    [Call.GetAuthFromIdent { Typ := "dns", Value := "example.test" } sampleAccount]
    sampleAccount { Typ := "dns", Value := "example.test" } sampleAuthz (by decide) (by decide)

/-- C16: a verified new-order request whose payload has an empty or absent
`identifiers` list is answered with a malformed problem (status 400) and
nothing else, and no `GetAuthFromIdent`, `AddAuthorization` or `AddOrder`
call is made. -/
theorem NewOrder_no_identifiers {σ : Type} (wfe : WebFrontEndImpl)
    (Valid : σ → Nonce → σ × Bool) (traceID : String) (now : Time) (newToken : Nat → String)
    (noncer noncer1 : σ) (r : Request) (log1 : List Call) (postRequest : postRequest)
    (newOrderReq : NewOrderReq)
    (hverified : wfe.verifyPOST Valid noncer [] r = (noncer1, log1, .ok postRequest))
    (hjson : wfe.lib.UnmarshalNewOrder postRequest.jwsBody = .ok newOrderReq)
    (hnone : newOrderReq.Identifiers = []) :
    ∃ st prob, wfe.NewOrder Valid traceID now newToken (Exchange.start noncer) r = .returned st ∧
      st.response = [Write.problem prob] ∧
      prob.Typ = "urn:ietf:params:acme:error:malformed" ∧ prob.HTTPStatus = 400 ∧
      st.log.any Call.ordersOrAuthorizes = false := by
  have hlog := verifyPOST_log_any wfe Valid noncer r Call.ordersOrAuthorizes (fun _ => rfl)
  rw [hverified] at hlog
  simp only at hlog
  have hfin : wfe.NewOrder Valid traceID now newToken (Exchange.start noncer) r =
      .returned { noncer := noncer1, log := log1,
                  response := [Write.problem
                    { MalformedProblem "Cannot have 0 Identifiers in a Certificate" with
                      TraceID := traceID }] } := by
    unfold WebFrontEndImpl.NewOrder
    simp [Exchange.start, hverified, hjson, hnone, Exchange.wrote, handleError, sendError]
  exact ⟨_, _, hfin, rfl, malformedErr_eq, rfl, hlog⟩

/-- C16 at a concrete request: account `acct-1` posts a new order without
identifiers. -/
theorem NewOrder_no_identifiers_witness :
    ∃ st prob, (sampleWFE "/new-order").NewOrder nonceImpl.Valid "trace-1" 1000
        (fun _ => "tok") (Exchange.start (NewNoncer.Next "Zm6nTiaeSDGQv0aXugm1Ug").1)
        (samplePost "/new-order") = .returned st ∧
      st.response = [Write.problem prob] ∧
      prob.Typ = "urn:ietf:params:acme:error:malformed" ∧ prob.HTTPStatus = 400 ∧
      st.log.any Call.ordersOrAuthorizes = false :=
  NewOrder_no_identifiers (sampleWFE "/new-order") nonceImpl.Valid "trace-1" 1000
    (fun _ => "tok") (NewNoncer.Next "Zm6nTiaeSDGQv0aXugm1Ug").1 (nonceImpl.mk ∅)
    (samplePost "/new-order") [Call.GetAccountByID "acct-1"]
    { isPostAsGet := false, r := samplePost "/new-order",
      account := sampleAccount, jwsBody := some [123, 125] }
    {} (by decide) (by decide) rfl

/-! ### Account ids -/

theorem hex_digit_roundtrip (k : Nat) (hk : k < 16) :
    "0123456789abcdef".data.getD k '0' ∈ "0123456789abcdef".data ∧
    hexDigitValue ("0123456789abcdef".data.getD k '0') = k := by
  have h : ∀ i : Fin 16, "0123456789abcdef".data.getD i.val '0' ∈ "0123456789abcdef".data ∧
      hexDigitValue ("0123456789abcdef".data.getD i.val '0') = i.val := by decide
  exact h ⟨k, hk⟩

/-- The model of `hex.EncodeToString` gives two characters for each byte, only
digits of `0123456789abcdef`, and they spell the bytes. -/
theorem hex_EncodeToString_spec (src : List UInt8) :
    (hex.EncodeToString src).length = 2 * src.length ∧
    (∀ c ∈ hex.EncodeToString src, c ∈ "0123456789abcdef".data) ∧
    hexValues (hex.EncodeToString src) = src.map UInt8.toNat := by
  induction src with
  | nil => simp [hex.EncodeToString, hexValues]
  | cons v rest ih =>
    have hv : v.toNat < 256 := v.val.isLt
    have hhi := hex_digit_roundtrip (v.toNat / 16) (by omega)
    have hlo := hex_digit_roundtrip (v.toNat % 16) (Nat.mod_lt _ (by decide))
    have hcons : hex.EncodeToString (v :: rest) =
        "0123456789abcdef".data.getD (v.toNat / 16) '0' ::
        "0123456789abcdef".data.getD (v.toNat % 16) '0' :: hex.EncodeToString rest := by
      simp [hex.EncodeToString]
    obtain ⟨ih1, ih2, ih3⟩ := ih
    refine ⟨?_, ?_, ?_⟩
    · rw [hcons]
      simp only [List.length_cons, ih1]
      omega
    · intro c hc
      rw [hcons] at hc
      simp only [List.mem_cons] at hc
      rcases hc with rfl | rfl | hc
      · exact hhi.1
      · exact hlo.1
      · exact ih2 c hc
    · rw [hcons, hexValues, ih3, hhi.2, hlo.2]
      simp only [List.map_cons, List.cons.injEq, and_true]
      omega

/-- C12: for a public key whose PKIX encoding succeeds, `KeyToID` returns the
hexadecimal encoding of the SHA-256 digest of that encoding: 64 characters,
all of them digits of `0123456789abcdef`, that spell the 32 bytes of the
digest. The id is the same for the bare key, for a JSON web key holding it
and for a pointer to such a JSON web key, and `createNewAccount` returns an
account with exactly that id and status `valid`. -/
theorem KeyToID_hex_sha256 (lib : Lib) (key : PublicKey) (keyDER : List UInt8)
    (jwk : JSONWebKey) (now : Time) (accountCreation : acme.AccountCreation)
    (hder : lib.MarshalPKIXPublicKey key = .ok keyDER) (hjwk : jwk.Key = key) :
    KeyToID lib (.bare key) = .ok (String.mk (hex.EncodeToString (lib.Sum256 keyDER).val)) ∧
    (hex.EncodeToString (lib.Sum256 keyDER).val).length = 64 ∧
    (∀ c ∈ hex.EncodeToString (lib.Sum256 keyDER).val, c ∈ "0123456789abcdef".data) ∧
    hexValues (hex.EncodeToString (lib.Sum256 keyDER).val)
      = (lib.Sum256 keyDER).val.map UInt8.toNat ∧
    KeyToID lib (.jwkValue jwk) = KeyToID lib (.bare key) ∧
    KeyToID lib (.jwkPointer (some jwk)) = KeyToID lib (.bare key) ∧
    ∃ acct, createNewAccount lib now accountCreation jwk = .ok acct ∧
      KeyToID lib (.bare key) = .ok acct.ID ∧ acct.Status = "valid" := by
  have hid : KeyToID lib (.bare key)
      = .ok (String.mk (hex.EncodeToString (lib.Sum256 keyDER).val)) := by
    simp [KeyToID, keyToIDDefault, hder]
  obtain ⟨h1, h2, h3⟩ := hex_EncodeToString_spec (lib.Sum256 keyDER).val
  refine ⟨hid, ?_, h2, h3, ?_, ?_, ?_⟩
  · rw [h1, (lib.Sum256 keyDER).property]
  · simp [KeyToID, hjwk]
  · simp [KeyToID, hjwk]
  · refine ⟨{ Contact := accountCreation.Contact, Status := StatusValid, Key := jwk,
              ID := String.mk (hex.EncodeToString (lib.Sum256 keyDER).val),
              CreatedAt := now }, ?_, hid, rfl⟩
    simp [createNewAccount, KeyToID, keyToIDDefault, hjwk, hder]

/-- C12 at a concrete key: the sample RSA key under the stand-in library. -/
theorem KeyToID_hex_sha256_witness :
    KeyToID sampleLib (.bare (.rsa 3233 17))
      = .ok (String.mk (hex.EncodeToString (sampleLib.Sum256 [48, 13, 161, 17]).val)) ∧
    (hex.EncodeToString (sampleLib.Sum256 [48, 13, 161, 17]).val).length = 64 ∧
    (∀ c ∈ hex.EncodeToString (sampleLib.Sum256 [48, 13, 161, 17]).val,
      c ∈ "0123456789abcdef".data) ∧
    hexValues (hex.EncodeToString (sampleLib.Sum256 [48, 13, 161, 17]).val)
      = (sampleLib.Sum256 [48, 13, 161, 17]).val.map UInt8.toNat ∧
    KeyToID sampleLib (.jwkValue sampleKey) = KeyToID sampleLib (.bare (.rsa 3233 17)) ∧
    KeyToID sampleLib (.jwkPointer (some sampleKey))
      = KeyToID sampleLib (.bare (.rsa 3233 17)) ∧
    ∃ acct, createNewAccount sampleLib 1000 { Contact := ["mailto:admin@example.test"] }
        sampleKey = .ok acct ∧
      KeyToID sampleLib (.bare (.rsa 3233 17)) = .ok acct.ID ∧ acct.Status = "valid" :=
  KeyToID_hex_sha256 sampleLib (.rsa 3233 17) [48, 13, 161, 17] sampleKey 1000
    { Contact := ["mailto:admin@example.test"] } (by decide) (by decide)

/-! ### New account -/

/-- C13 (the code at the failing input): a verified new-account request whose
key id `sampleKeyID` has an account in storage. The handler looks the account
up, sets `Location` to the account URL and answers with status 200, and it
makes no `AddAccount` call; but the body it writes is the JSON of a nil
value, `null`, not the account that exists. -/
theorem NewAccount_existing_writes_null :
    KeyToID sampleWFEExisting.lib (.jwkPointer (some sampleKey)) = .ok sampleKeyID ∧
    sampleWFEExisting.db.GetAccountByID [] sampleKeyID = .ok sampleExistingAccount ∧
    (sampleWFEExisting.NewAccount nonceImpl.Valid "trace-1" 1000
        (Exchange.start (NewNoncer.Next "Zm6nTiaeSDGQv0aXugm1Ug").1)
        (samplePost "/new-acct")).log = [Call.GetAccountByID sampleKeyID] ∧
    (sampleWFEExisting.NewAccount nonceImpl.Valid "trace-1" 1000
        (Exchange.start (NewNoncer.Next "Zm6nTiaeSDGQv0aXugm1Ug").1)
        (samplePost "/new-acct")).response =
      [Write.header "Location"
        "http://localhost/acct/300da111abababababababababababababababababababababababababababab",
       Write.json 200 Document.null] := by
  decide

/-- C14 (as stated, refuted): no account validator is configured, the key is
unknown to storage, and the request carries an external account binding of
three members; the account is added to storage and the answer is 201. -/
theorem NewAccount_binding_ignored_without_validator :
    (sampleWFEJWK "/new-acct" creationWithBinding).AccountValidator.isNone = true ∧
    (creationWithBinding.ExternalAccountBinding.getD []).length = 3 ∧
    ((sampleWFEJWK "/new-acct" creationWithBinding).NewAccount nonceImpl.Valid "trace-1" 1000
        (Exchange.start (NewNoncer.Next "Zm6nTiaeSDGQv0aXugm1Ug").1)
        (samplePost "/new-acct")).log =
      [Call.GetAccountByID sampleKeyID,
       Call.AddAccount { Status := "valid", Contact := ["mailto:admin@example.test"],
                         Key := sampleKey, ID := sampleKeyID, CreatedAt := 1000 },
       Call.GetAccountByID sampleKeyID] ∧
    ((sampleWFEJWK "/new-acct" creationWithBinding).NewAccount nonceImpl.Valid "trace-1" 1000
        (Exchange.start (NewNoncer.Next "Zm6nTiaeSDGQv0aXugm1Ug").1)
        (samplePost "/new-acct")).response =
      [Write.header "Location"
        "http://localhost/acct/300da111abababababababababababababababababababababababababababab",
       Write.json 201 (.account
        { Status := "valid", Contact := ["mailto:admin@example.test"] })] := by
  decide

/-- C14 (amended): for a verified new-account request for a key unknown to
storage, without `onlyReturnExisting`: when no account validator is
configured, the account is made and added to storage whatever the external
account binding is (absent, empty or not); when `NoopAccountValidator` is the
configured validator, a request with an absent or empty binding adds the
account, and a request with a binding that has a member is answered with a
malformed problem and no account is added. -/
theorem NewAccount_binding {σ : Type} (wfe : WebFrontEndImpl)
    (Valid : σ → Nonce → σ × Bool) (traceID : String) (now : Time) (noncer noncer1 : σ)
    (r : Request) (key : JSONWebKey) (body : List UInt8) (newAcctReq : acme.AccountCreation)
    (keyID : String) (b : BrickProblem)
    (hverified : wfe.verifyPOSTNewAccount Valid noncer r = (noncer1, .ok (key, body)))
    (hjson : wfe.lib.UnmarshalAccountCreation body = .ok newAcctReq)
    (hid : KeyToID wfe.lib (.jwkPointer (some key)) = .ok keyID)
    (hunknown : wfe.db.GetAccountByID [] keyID = .error (.brick b))
    (hb : b.Typ = errorType.notFoundType)
    (honly : newAcctReq.OnlyReturnExisting = false) :
    (wfe.AccountValidator = none →
      Call.AddAccount { Contact := newAcctReq.Contact, Status := "valid", Key := key,
                        ID := keyID, CreatedAt := now } ∈
        (wfe.NewAccount Valid traceID now (Exchange.start noncer) r).log) ∧
    (wfe.AccountValidator = some NoopAccountValidator.Validate →
      ((newAcctReq.ExternalAccountBinding = none ∨ newAcctReq.ExternalAccountBinding = some []) →
        Call.AddAccount { Contact := newAcctReq.Contact, Status := "valid", Key := key,
                          ID := keyID, CreatedAt := now } ∈
          (wfe.NewAccount Valid traceID now (Exchange.start noncer) r).log) ∧
      (∀ entries, newAcctReq.ExternalAccountBinding = some entries → entries ≠ [] →
        (wfe.NewAccount Valid traceID now (Exchange.start noncer) r).log.any
            Call.addsAccount = false ∧
        (wfe.NewAccount Valid traceID now (Exchange.start noncer) r).response =
          [Write.problem { MalformedProblem
            "The passed Token Value for external account-binding was incorrect" with
            TraceID := traceID }])) := by
  have hnf : IsNotFoundError (.brick b) = some b := by simp [IsNotFoundError, hb]
  refine ⟨?_, ?_⟩
  · intro hval
    unfold WebFrontEndImpl.NewAccount
    simp only [Exchange.start, hverified, hjson, hid, Exchange.called, List.nil_append,
      hunknown, hnf, honly, Bool.false_eq_true, if_false, hval, createNewAccount]
    split
    · simp [Exchange.wrote, StatusValid]
    · split <;> simp [Exchange.wrote, StatusValid]
  · intro hval
    refine ⟨?_, ?_⟩
    · intro hbind
      have hv : NoopAccountValidator.Validate newAcctReq.ExternalAccountBinding = .ok "" := by
        rcases hbind with h | h <;> simp [h, NoopAccountValidator.Validate]
      unfold WebFrontEndImpl.NewAccount
      simp only [Exchange.start, hverified, hjson, hid, Exchange.called, List.nil_append,
        hunknown, hnf, honly, Bool.false_eq_true, if_false, hval,
        createNewAccountWithExternalBinding, hv]
      split
      · simp [Exchange.wrote, StatusValid]
      · split <;> simp [Exchange.wrote, StatusValid]
    · intro entries hbind hne
      have hlen : ¬ entries.length = 0 := fun h => hne (List.length_eq_zero.mp h)
      have hv : NoopAccountValidator.Validate newAcctReq.ExternalAccountBinding
          = .error (.plain "External Account Binding should be empty") := by
        simp [hbind, NoopAccountValidator.Validate, hlen]
      unfold WebFrontEndImpl.NewAccount
      simp [Exchange.start, hverified, hjson, hid, Exchange.called, Exchange.wrote,
        hunknown, hnf, honly, hval, createNewAccountWithExternalBinding, hv, handleError,
        sendError, Call.addsAccount]

/-- The amended C14 at concrete requests: without validator a request with a
binding of three members adds the account; with `NoopAccountValidator` a
request without binding adds the account, and the request with the binding of
three members is answered with a malformed problem and adds nothing. -/
theorem NewAccount_binding_witness :
    (Call.AddAccount { Contact := creationWithBinding.Contact, Status := "valid",
                       Key := sampleKey, ID := sampleKeyID, CreatedAt := 1000 } ∈
      ((sampleWFEJWK "/new-acct" creationWithBinding).NewAccount nonceImpl.Valid "trace-1" 1000
        (Exchange.start (NewNoncer.Next "Zm6nTiaeSDGQv0aXugm1Ug").1)
        (samplePost "/new-acct")).log) ∧
    (Call.AddAccount { Contact := [], Status := "valid",
                       Key := sampleKey, ID := sampleKeyID, CreatedAt := 1000 } ∈
      ((sampleWFENoop {}).NewAccount nonceImpl.Valid "trace-1" 1000
        (Exchange.start (NewNoncer.Next "Zm6nTiaeSDGQv0aXugm1Ug").1)
        (samplePost "/new-acct")).log) ∧
    (((sampleWFENoop creationWithBinding).NewAccount nonceImpl.Valid "trace-1" 1000
        (Exchange.start (NewNoncer.Next "Zm6nTiaeSDGQv0aXugm1Ug").1)
        (samplePost "/new-acct")).log.any Call.addsAccount = false ∧
     ((sampleWFENoop creationWithBinding).NewAccount nonceImpl.Valid "trace-1" 1000
        (Exchange.start (NewNoncer.Next "Zm6nTiaeSDGQv0aXugm1Ug").1)
        (samplePost "/new-acct")).response =
      [Write.problem { MalformedProblem
        "The passed Token Value for external account-binding was incorrect" with
        TraceID := "trace-1" }]) :=
  ⟨(NewAccount_binding (sampleWFEJWK "/new-acct" creationWithBinding) nonceImpl.Valid
      "trace-1" 1000 (NewNoncer.Next "Zm6nTiaeSDGQv0aXugm1Ug").1 (nonceImpl.mk ∅)
      (samplePost "/new-acct") sampleKey [123, 125] creationWithBinding sampleKeyID
      (NotFoundError "no account")
      (by decide) (by decide) (by decide) (by decide) (by decide) (by decide)).1 rfl,
   ((NewAccount_binding (sampleWFENoop {}) nonceImpl.Valid
      "trace-1" 1000 (NewNoncer.Next "Zm6nTiaeSDGQv0aXugm1Ug").1 (nonceImpl.mk ∅)
      (samplePost "/new-acct") sampleKey [123, 125] {} sampleKeyID
      (NotFoundError "no account")
      (by decide) (by decide) (by decide) (by decide) (by decide) (by decide)).2 rfl).1
        (Or.inl rfl),
   ((NewAccount_binding (sampleWFENoop creationWithBinding) nonceImpl.Valid
      "trace-1" 1000 (NewNoncer.Next "Zm6nTiaeSDGQv0aXugm1Ug").1 (nonceImpl.mk ∅)
      (samplePost "/new-acct") sampleKey [123, 125] creationWithBinding sampleKeyID
      (NotFoundError "no account")
      (by decide) (by decide) (by decide) (by decide) (by decide) (by decide)).2 rfl).2
        _ rfl (by decide)⟩

/-! ### Revocation -/

/-- C17: for a revoke-cert request that passes the checks of the POST and
whose certificate parses, when storage reports the certificate with a
revocation time that is not zero, `RevokeCert` writes the alreadyRevoked
problem (status 400) and its only storage call is the lookup
`GetCertificateBySerial`: `RevokeCertificate` is not called. This holds from
every state of the exchange, so also for a second revoke of a certificate that
storage reports as revoked after the first. -/
theorem RevokeCert_already_revoked {σ : Type} (wfe : WebFrontEndImpl)
    (Valid : σ → Nonce → σ × Bool) (traceID : String) (st : Exchange σ) (noncer1 : σ)
    (r : Request) (key : JSONWebKey) (body : List UInt8) (certificate : String)
    (certRaw : List UInt8) (cert : X509Certificate) (coreCert : core.Certificate)
    (hverified : wfe.verifyPOSTNewAccount Valid st.noncer r = (noncer1, .ok (key, body)))
    (hjson : wfe.lib.UnmarshalRevocation body = .ok certificate)
    (hb64 : wfe.lib.DecodeString certificate = .ok certRaw)
    (hparse : wfe.lib.ParseCertificate certRaw = .ok cert)
    (hstored : wfe.db.GetCertificateBySerial st.log cert.SerialNumber
      (wfe.lib.Sum1 cert.RawIssuer) = .ok coreCert)
    (hrevoked : coreCert.RevocationTime ≠ 0) :
    (wfe.RevokeCert Valid traceID st r).response =
      st.response ++ [Write.problem
        { Typ := "urn:ietf:params:acme:error:alreadyRevoked",
          Detail := "Cert was already revoked on " ++ wfe.lib.FormatTime coreCert.RevocationTime,
          HTTPStatus := 400, TraceID := traceID }] ∧
    (wfe.RevokeCert Valid traceID st r).log =
      st.log ++ [Call.GetCertificateBySerial cert.SerialNumber (wfe.lib.Sum1 cert.RawIssuer)] ∧
    ((wfe.RevokeCert Valid traceID st r).log.drop st.log.length).any Call.revokes = false := by
  have htyp : alreadyRevokedErr = "urn:ietf:params:acme:error:alreadyRevoked" := by decide
  unfold WebFrontEndImpl.RevokeCert
  simp [hverified, hjson, hb64, hparse, hstored, hrevoked, Exchange.called, Exchange.wrote,
    handleError, sendError, AlreadyRevokedProblem, htyp, Call.revokes]

/-- C17 at a concrete request: a revoke-cert request for the certificate of
serial 77 that follows a revocation of that certificate. -/
theorem RevokeCert_already_revoked_witness :
    (sampleWFERevoking.RevokeCert nonceImpl.Valid "trace-2" afterRevocation
        (samplePost "/revoke-cert")).response =
      afterRevocation.response ++ [Write.problem
        { Typ := "urn:ietf:params:acme:error:alreadyRevoked",
          Detail := "Cert was already revoked on " ++ sampleWFERevoking.lib.FormatTime
            (1500 : Nat),
          HTTPStatus := 400, TraceID := "trace-2" }] ∧
    (sampleWFERevoking.RevokeCert nonceImpl.Valid "trace-2" afterRevocation
        (samplePost "/revoke-cert")).log =
      afterRevocation.log ++ [Call.GetCertificateBySerial 77 (List.replicate 20 7)] ∧
    ((sampleWFERevoking.RevokeCert nonceImpl.Valid "trace-2" afterRevocation
        (samplePost "/revoke-cert")).log.drop afterRevocation.log.length).any
      Call.revokes = false :=
  RevokeCert_already_revoked sampleWFERevoking nonceImpl.Valid "trace-2" afterRevocation
    (nonceImpl.mk ∅) (samplePost "/revoke-cert") sampleKey [123, 125] "MIIB" [48, 130]
    { PublicKey := .rsa 3233 17, SerialNumber := 77, RawIssuer := [48, 130] }
    { ID := "cert-1", Cert := { PublicKey := .rsa 3233 17, SerialNumber := 77 },
      RevocationTime := 1500, Serial := 77, OrderID := "order-1" }
    (by decide) (by decide) (by decide) (by decide) (by decide) (by decide)

/-! ### Rendering of errors -/

/-- C21: `handleError` writes, for every `BrickProblem` (whatever its type,
NotFound, NotImplemented, Timeout or Unknown, and whatever its detail) and for
every other error that is not an ACME problem (whatever its message), a
problem of type serverInternal with status 500 whose detail is a fixed text
that does not depend on the error; and it writes an ACME problem with its own
type, detail and HTTP status and with the trace id of the request as its
trace. -/
theorem handleError_renders (traceID : String) :
    (∀ b : BrickProblem, handleError traceID (.brick b) =
      Write.problem { Typ := "urn:ietf:params:acme:error:serverInternal",
                      Detail := "Something went wrong internally",
                      HTTPStatus := 500, TraceID := traceID }) ∧
    (∀ msg : String, handleError traceID (.plain msg) =
      Write.problem { Typ := "urn:ietf:params:acme:error:serverInternal",
                      Detail := "Something went very wrong internally",
                      HTTPStatus := 500, TraceID := traceID }) ∧
    (∀ e : ProblemDetails, handleError traceID (.problem e) =
      Write.problem { Typ := e.Typ, Detail := e.Detail, HTTPStatus := e.HTTPStatus,
                      TraceID := traceID }) := by
  refine ⟨?_, ?_, ?_⟩
  · intro b
    simp [handleError, sendError, InternalErrorProblem, serverInternalErr_eq]
  · intro msg
    simp [handleError, sendError, InternalErrorProblem, serverInternalErr_eq]
  · intro e
    simp [handleError, sendError]

/-! ### Setting a challenge invalid, queueing a validation -/

/-- C27 (the code at the failing input): `SetChallengeInvalid` on the pending
sample challenge with the problem `sampleMismatch`. The problem is stored as
the error of the challenge and the authorization status passed is `invalid`,
but the challenge handed to `UpdateAuthorization` still has the status
`pending`: the function never assigns the status of the challenge. That holds
for every challenge: its status is passed on as it came in. -/
theorem SetChallengeInvalid_keeps_status :
    SetChallengeInvalid sampleVAEnv [] sampleChallenge sampleAuthz sampleMismatch =
      ([Call.UpdateAuthorization
          { Token := "evaGxfADs6pSRb2LAv9IZf17Dt3juxGJ-PCt92wr-oA", Status := "pending",
            Error := some sampleMismatch, Typ := "http-01", ID := "chal-1",
            AuthzID := "authz-1" }
          "authz-1" "invalid"], none) ∧
    (∀ (env : VAEnv) (log : List Call) (chal : core.Challenge) (auth : core.Authorization)
        (problem : ProblemDetails),
      (SetChallengeInvalid env log chal auth problem).1 =
        log ++ [Call.UpdateAuthorization
          { chal with Error := some problem } auth.ID "invalid"] ∧
      (SetChallengeInvalid env log chal auth problem).2 =
        env.UpdateAuthorization log { chal with Error := some problem } auth.ID "invalid") := by
  refine ⟨by decide, ?_⟩
  intro env log chal auth problem
  simp [SetChallengeInvalid, StatusInvalid]

/-- C28 (the code at the failing inputs): when the validation authority
refuses the request, `QueueValidateChallenge` returns nil, the error of
`DoValidation` being dropped; and when storage fails to mark the challenge
processing, the request is handed to the validation authority all the same
(the storage error is returned afterwards). -/
theorem QueueValidateChallenge_drops_va_error :
    sampleWFEVADown.Validation.DoValidation
        [Call.UpdateChallengeStatus "chal-1" "processing"]
        { Challenge := sampleChallenge, Authorization := sampleAuthz, AccountJWK := sampleKey }
      = some unavailableErr ∧
    sampleWFEVADown.QueueValidateChallenge [] sampleChallenge sampleAuthz sampleKey =
      ([Call.UpdateChallengeStatus "chal-1" "processing",
        Call.DoValidation
          { Challenge := sampleChallenge, Authorization := sampleAuthz,
            AccountJWK := sampleKey }], none) ∧
    sampleWFEStorageDown.db.UpdateChallengeStatus [] "chal-1" "processing"
      = some unavailableErr ∧
    sampleWFEStorageDown.QueueValidateChallenge [] sampleChallenge sampleAuthz sampleKey =
      ([Call.UpdateChallengeStatus "chal-1" "processing",
        Call.DoValidation
          { Challenge := sampleChallenge, Authorization := sampleAuthz,
            AccountJWK := sampleKey }], some unavailableErr) := by
  refine ⟨rfl, ?_, rfl, ?_⟩ <;> decide

/-! ### Update of an account -/

/-- C23: for a verified update-account request on an account whose stored
status is `deactivated`, whatever the payload is (contacts, status, both,
neither, or not even JSON), every account that `UpdateAccount` hands to
storage's `UpdateAccount` has the status `deactivated`; and a request with
`status = deactivated` on an account whose stored status is `valid` makes one
storage update, of that account with the status `deactivated`. -/
theorem UpdateAccount_deactivated_terminal {σ : Type} (wfe : WebFrontEndImpl)
    (Valid : σ → Nonce → σ × Bool) (traceID : String) (noncer noncer1 : σ) (r : Request)
    (log1 : List Call) (postRequest : postRequest)
    (hverified : wfe.verifyPOST Valid noncer [] r = (noncer1, log1, .ok postRequest)) :
    (postRequest.account.Status = "deactivated" →
      ∀ acct, Call.UpdateAccount acct ∈
          (wfe.UpdateAccount Valid traceID (Exchange.start noncer) r).log →
        acct.Status = "deactivated") ∧
    (∀ updateAccountReq,
      wfe.lib.UnmarshalUpdateAccount postRequest.jwsBody = .ok updateAccountReq →
      postRequest.account.Status = "valid" → updateAccountReq.Status = "deactivated" →
      (wfe.UpdateAccount Valid traceID (Exchange.start noncer) r).log =
        log1 ++ [Call.UpdateAccount
          { Status := "deactivated",
            Contact := postRequest.account.Contact,
            Orders := postRequest.account.Orders,
            Key := postRequest.account.Key,
            ID := postRequest.account.ID,
            CreatedAt := postRequest.account.CreatedAt }]) := by
  have hlog1 : ∀ acct, Call.UpdateAccount acct ∉ log1 := by
    intro acct hmem
    have h := verifyPOST_log wfe Valid noncer [] r
    rw [hverified] at h
    rcases h with h | ⟨id, h⟩
    · simp only at h
      rw [h] at hmem
      simp at hmem
    · simp only at h
      rw [h] at hmem
      simp at hmem
  have hstore : ∀ (st : Exchange σ) (newAcct : core.Account),
      (wfe.storeAccount traceID st newAcct).log = st.log ++ [Call.UpdateAccount newAcct] := by
    intro st newAcct
    unfold WebFrontEndImpl.storeAccount writeAccount
    simp only [Exchange.called, Exchange.wrote]
    split
    · rfl
    · split <;> rfl
  have hwrite : ∀ (st : Exchange σ) (a : core.Account),
      (writeAccount wfe.lib traceID st a).log = st.log := by
    intro st a
    unfold writeAccount
    split <;> rfl
  refine ⟨?_, ?_⟩
  · intro hdeact acct
    unfold WebFrontEndImpl.UpdateAccount
    simp only [Exchange.start, hverified]
    split
    · intro hmem
      exact absurd hmem (hlog1 acct)
    · split
      · rw [hwrite]
        intro hmem
        exact absurd hmem (hlog1 acct)
      · split
        · rw [hstore]
          rename_i hreq
          intro hmem
          rcases List.mem_append.mp hmem with hmem | hmem
          · exact absurd hmem (hlog1 acct)
          · simp only [List.mem_singleton, Call.UpdateAccount.injEq] at hmem
            rw [hmem]
            simpa [StatusDeactivated] using hreq
        · split
          · intro hmem
            exact absurd hmem (hlog1 acct)
          · split
            · split
              · intro hmem
                exact absurd hmem (hlog1 acct)
              · rw [hstore]
                intro hmem
                rcases List.mem_append.mp hmem with hmem | hmem
                · exact absurd hmem (hlog1 acct)
                · simp only [List.mem_singleton, Call.UpdateAccount.injEq] at hmem
                  rw [hmem]
                  exact hdeact
            · rw [hstore]
              intro hmem
              rcases List.mem_append.mp hmem with hmem | hmem
              · exact absurd hmem (hlog1 acct)
              · simp only [List.mem_singleton, Call.UpdateAccount.injEq] at hmem
                rw [hmem]
                exact hdeact
  · intro updateAccountReq hjson hvalid hreq
    unfold WebFrontEndImpl.UpdateAccount
    simp only [Exchange.start, hverified, hjson, hreq, StatusDeactivated]
    simp [hstore]

/-- C23 at concrete requests: on the deactivated sample account, a request
with a new contact and the status `valid` writes nothing, and a request
with a new contact alone writes the account with the new contact, still
deactivated; on the valid sample account, a request with the status
`deactivated` writes the account deactivated. -/
theorem UpdateAccount_deactivated_terminal_witness :
    (∀ acct, Call.UpdateAccount acct ∈
        ((sampleWFEUpdating sampleAccountDeactivated
            { Contact := ["mailto:new@example.test"], Status := "valid" }).UpdateAccount
          nonceImpl.Valid "trace-1"
          (Exchange.start (NewNoncer.Next "Zm6nTiaeSDGQv0aXugm1Ug").1)
          (samplePost "/acct/acct-1")).log →
      acct.Status = "deactivated") ∧
    (∀ acct, Call.UpdateAccount acct ∈
        ((sampleWFEUpdating sampleAccountDeactivated
            { Contact := ["mailto:new@example.test"] }).UpdateAccount
          nonceImpl.Valid "trace-1"
          (Exchange.start (NewNoncer.Next "Zm6nTiaeSDGQv0aXugm1Ug").1)
          (samplePost "/acct/acct-1")).log →
      acct.Status = "deactivated") ∧
    ((sampleWFEUpdating sampleAccountDeactivated
          { Contact := ["mailto:new@example.test"] }).UpdateAccount
        nonceImpl.Valid "trace-1"
        (Exchange.start (NewNoncer.Next "Zm6nTiaeSDGQv0aXugm1Ug").1)
        (samplePost "/acct/acct-1")).log =
      [Call.GetAccountByID "acct-1",
       Call.UpdateAccount { Status := "deactivated", Contact := ["mailto:new@example.test"],
                            Key := sampleKey, ID := "acct-1" }] ∧
    ((sampleWFEUpdating sampleAccount { Status := "deactivated" }).UpdateAccount
        nonceImpl.Valid "trace-1"
        (Exchange.start (NewNoncer.Next "Zm6nTiaeSDGQv0aXugm1Ug").1)
        (samplePost "/acct/acct-1")).log =
      [Call.GetAccountByID "acct-1"] ++
        [Call.UpdateAccount { Status := "deactivated", Contact := sampleAccount.Contact,
                              Orders := sampleAccount.Orders, Key := sampleAccount.Key,
                              ID := sampleAccount.ID, CreatedAt := sampleAccount.CreatedAt }] :=
  ⟨(UpdateAccount_deactivated_terminal
      (sampleWFEUpdating sampleAccountDeactivated
        { Contact := ["mailto:new@example.test"], Status := "valid" })
      nonceImpl.Valid "trace-1" (NewNoncer.Next "Zm6nTiaeSDGQv0aXugm1Ug").1 (nonceImpl.mk ∅)
      (samplePost "/acct/acct-1") [Call.GetAccountByID "acct-1"]
      { isPostAsGet := false, r := samplePost "/acct/acct-1",
        account := sampleAccountDeactivated, jwsBody := some [123, 125] }
      (by decide)).1 rfl,
   (UpdateAccount_deactivated_terminal
      (sampleWFEUpdating sampleAccountDeactivated { Contact := ["mailto:new@example.test"] })
      nonceImpl.Valid "trace-1" (NewNoncer.Next "Zm6nTiaeSDGQv0aXugm1Ug").1 (nonceImpl.mk ∅)
      (samplePost "/acct/acct-1") [Call.GetAccountByID "acct-1"]
      { isPostAsGet := false, r := samplePost "/acct/acct-1",
        account := sampleAccountDeactivated, jwsBody := some [123, 125] }
      (by decide)).1 rfl,
   by decide,
   (UpdateAccount_deactivated_terminal
      (sampleWFEUpdating sampleAccount { Status := "deactivated" })
      nonceImpl.Valid "trace-1" (NewNoncer.Next "Zm6nTiaeSDGQv0aXugm1Ug").1 (nonceImpl.mk ∅)
      (samplePost "/acct/acct-1") [Call.GetAccountByID "acct-1"]
      { isPostAsGet := false, r := samplePost "/acct/acct-1",
        account := sampleAccount, jwsBody := some [123, 125] }
      (by decide)).2 { Status := "deactivated" } rfl rfl rfl⟩

/-! ### Panics of a handler -/

/-- C22 (the code at the failing input): a new-order request for which storage
adds the order and then fails to return it. `NewOrder` panics on the nil order
before it has written anything; `handlerFunc` recovers the panic and writes
nothing: the response holds the two headers set before the handler ran and no
problem document, and the client receives status 200. -/
theorem handlerFunc_panic_answers_200 :
    (∀ log req, sampleWFEOrdering.db.AddOrder log req = .ok "order-3") ∧
    (∀ log, sampleWFEOrdering.db.GetOrderByID log "order-3"
      = .error (.brick (NotFoundError "no order"))) ∧
    (sampleWFEOrdering.NewOrder nonceImpl.Valid "trace-1" 1000 (fun _ => "tok")
        (Exchange.start (NewNoncer.Next "Zm6nTiaeSDGQv0aXugm1Ug").1)
        (samplePost "/new-order")).panics = true ∧
    (sampleWFEOrdering.NewOrder nonceImpl.Valid "trace-1" 1000 (fun _ => "tok")
        (Exchange.start (NewNoncer.Next "Zm6nTiaeSDGQv0aXugm1Ug").1)
        (samplePost "/new-order")).exchange.response = [] ∧
    (handlerFunc nonceImpl.Next "SjNGeUV0bVZ2Q0x0ZUxqag"
        (sampleWFEOrdering.NewOrder nonceImpl.Valid "trace-1" 1000 (fun _ => "tok"))
        (Exchange.start (NewNoncer.Next "Zm6nTiaeSDGQv0aXugm1Ug").1)
        (samplePost "/new-order")).response =
      [Write.header "Cache-Control" "public, max-age=0, no-cache",
       Write.header "Replay-Nonce" "SjNGeUV0bVZ2Q0x0ZUxqag"] ∧
    receivedProblems (handlerFunc nonceImpl.Next "SjNGeUV0bVZ2Q0x0ZUxqag"
        (sampleWFEOrdering.NewOrder nonceImpl.Valid "trace-1" 1000 (fun _ => "tok"))
        (Exchange.start (NewNoncer.Next "Zm6nTiaeSDGQv0aXugm1Ug").1)
        (samplePost "/new-order")).response = [] ∧
    receivedStatus (handlerFunc nonceImpl.Next "SjNGeUV0bVZ2Q0x0ZUxqag"
        (sampleWFEOrdering.NewOrder nonceImpl.Valid "trace-1" 1000 (fun _ => "tok"))
        (Exchange.start (NewNoncer.Next "Zm6nTiaeSDGQv0aXugm1Ug").1)
        (samplePost "/new-order")).response = 200 := by
  refine ⟨fun _ _ => rfl, fun _ => rfl, by decide, by decide, by decide, by decide, by decide⟩

/-! ### Accounts on the wire -/

/-- C24 (as stated, refuted): the sample account with a link to its orders,
created at a whole second. Both conversions succeed, and the account that
comes back has an empty `Orders` field: it is not the account that went in. -/
theorem protoToAccount_drops_orders :
    accountToProto wireLib sampleAccountWithOrders =
      .ok { Id := "acct-1",
            Key := goBytes "\x7b\"kty\":\"RSA\",\"n\":\"DKE\",\"e\":\"EQ\"\x7d",
            Status := "valid", Contact := ["mailto:admin@example.test"],
            CreatedAt := "2019-05-17T10:00:00Z", ExternalIdentifier := "" } ∧
    (accountToProto wireLib sampleAccountWithOrders).bind (protoToAccount wireLib) =
      .ok { sampleAccountWithOrders with Orders := "" } ∧
    (accountToProto wireLib sampleAccountWithOrders).bind (protoToAccount wireLib) ≠
      .ok sampleAccountWithOrders := by
  decide

/-- C24 (amended): for every account `a` whose key is marshalled by
`accountToProto` and read back as the same key by `JSONWebKey.UnmarshalJSON`,
and whose RFC 3339 creation text is parsed by `time.Parse`,
`protoToAccount (accountToProto a)` succeeds and yields `a` with an empty
`Orders` field and with the parsed time as creation timestamp (id, status,
contacts, key and external identifier are those of `a`); the result is `a`
itself exactly when `a.Orders` is empty and the parsed time is `a.CreatedAt`. -/
theorem protoToAccount_accountToProto (lib : Lib) (a : core.Account) (keyBytes : List UInt8)
    (createdAtTime : Time)
    (hkey : lib.JWKMarshalJSON a.Key = .ok keyBytes)
    (hback : lib.JWKUnmarshalJSON keyBytes = .ok a.Key)
    (htime : lib.ParseRFC3339 (lib.FormatRFC3339 a.CreatedAt) = .ok createdAtTime) :
    (accountToProto lib a).bind (protoToAccount lib) =
      .ok { a with Orders := "", CreatedAt := createdAtTime } ∧
    ((accountToProto lib a).bind (protoToAccount lib) = .ok a ↔
      a.Orders = "" ∧ createdAtTime = a.CreatedAt) := by
  have h : (accountToProto lib a).bind (protoToAccount lib) =
      .ok { a with Orders := "", CreatedAt := createdAtTime } := by
    simp [accountToProto, protoToAccount, hkey, hback, htime, Except.bind]
  refine ⟨h, ?_⟩
  rw [h]
  constructor
  · intro heq
    have heq := Except.ok.inj heq
    constructor
    · have := congrArg (fun x : core.Account => x.Orders) heq
      simpa using this.symm
    · have := congrArg (fun x : core.Account => x.CreatedAt) heq
      simpa using this
  · rintro ⟨h1, h2⟩
    congr 1
    cases a with
    | mk toAccount Key ID CreatedAt ExternalIdentifier =>
      cases toAccount with
      | mk Status Contact Orders =>
        simp only at h1 h2
        simp [h1, h2]

/-- The amended C24 at a concrete account: the sample account created half a
second after 2019-05-17T10:00:00Z comes back created at the whole second. -/
theorem protoToAccount_accountToProto_witness :
    (accountToProto wireLib sampleAccountHalfSecond).bind (protoToAccount wireLib) =
      .ok { sampleAccountHalfSecond with Orders := "", CreatedAt := sampleInstant } ∧
    ((accountToProto wireLib sampleAccountHalfSecond).bind (protoToAccount wireLib) =
        .ok sampleAccountHalfSecond ↔
      sampleAccountHalfSecond.Orders = "" ∧ sampleInstant = sampleAccountHalfSecond.CreatedAt) :=
  protoToAccount_accountToProto wireLib sampleAccountHalfSecond
    (goBytes "\x7b\"kty\":\"RSA\",\"n\":\"DKE\",\"e\":\"EQ\"\x7d") sampleInstant
    (by decide) (by decide) (by decide)

/-! ### Identifiers of a certificate -/

theorem mapAssign_keys (m : List (String × Nat)) (k : String) (v : Nat) :
    (mapAssign m k v).map Prod.fst =
      if k ∈ m.map Prod.fst then m.map Prod.fst else m.map Prod.fst ++ [k] := by
  unfold mapAssign
  by_cases h : k ∈ m.map Prod.fst
  · have hany : m.any (fun e => decide (e.1 = k)) = true := by
      simp only [List.mem_map] at h
      obtain ⟨e, he, hk⟩ := h
      simp only [List.any_eq_true, decide_eq_true_eq]
      exact ⟨e, he, hk⟩
    simp only [hany, if_true, h]
    rw [List.map_map]
    apply List.map_congr_left
    intro e _
    by_cases hk : e.1 = k <;> simp [hk]
  · have hany : ¬ m.any (fun e => decide (e.1 = k)) = true := by
      intro hany
      simp only [List.any_eq_true, decide_eq_true_eq] at hany
      obtain ⟨e, he, hk⟩ := hany
      exact h (List.mem_map.mpr ⟨e, he, hk⟩)
    simp [hany, h]

/-- The keys of the map built by `indexNames` are pairwise different, and they
are the keys the map had together with the names. -/
theorem indexNames_keys (names : List String) :
    ∀ (i : Nat) (m : List (String × Nat)), (m.map Prod.fst).Nodup →
      ((indexNames names i m).map Prod.fst).Nodup ∧
      ∀ k, k ∈ (indexNames names i m).map Prod.fst ↔ k ∈ m.map Prod.fst ∨ k ∈ names := by
  induction names with
  | nil => intro i m hm; simp [indexNames, hm]
  | cons el rest ih =>
    intro i m hm
    have hkeys := mapAssign_keys m el i
    have hnd : ((mapAssign m el i).map Prod.fst).Nodup := by
      rw [hkeys]
      split
      · exact hm
      · rename_i hnot
        exact List.Nodup.append hm (List.nodup_singleton _) (by
          intro a ha hb
          simp only [List.mem_singleton] at hb
          exact hnot (hb ▸ ha))
    obtain ⟨h1, h2⟩ := ih (i + 1) (mapAssign m el i) hnd
    refine ⟨by simpa [indexNames] using h1, ?_⟩
    intro k
    simp only [indexNames]
    rw [h2 k, hkeys]
    split
    · rename_i hin
      constructor
      · rintro (h | h)
        · exact Or.inl h
        · exact Or.inr (List.mem_cons_of_mem _ h)
      · rintro (h | h)
        · exact Or.inl h
        · rcases List.mem_cons.mp h with h | h
          · exact Or.inl (h ▸ hin)
          · exact Or.inr h
    · simp only [List.mem_append, List.mem_singleton, List.mem_cons]
      tauto

/-- C26: whatever the order in which the map is visited, the list that
`GetIdentifiersFromCert` returns has no duplicates, all its identifiers have
the type `dns`, a name is the value of one of them exactly when it is a DNS
SAN of the certificate or its non-empty subject common name, and the length
of the list is the number of distinct such names. -/
theorem GetIdentifiersFromCert_spec (range : List (String × Nat) → List (String × Nat))
    (cert : X509Certificate) (hrange : ∀ m, (range m).Perm m) :
    (GetIdentifiersFromCert range cert).Nodup ∧
    (∀ ident ∈ GetIdentifiersFromCert range cert, ident.Typ = "dns") ∧
    (∀ name, name ∈ (GetIdentifiersFromCert range cert).map acme.Identifier.Value ↔
      name ∈ cert.DNSNames ∨ (name = cert.SubjectCommonName ∧ cert.SubjectCommonName ≠ "")) ∧
    (GetIdentifiersFromCert range cert).length =
      (cert.DNSNames ++
        (if cert.SubjectCommonName ≠ "" then [cert.SubjectCommonName] else [])).toFinset.card := by
  obtain ⟨hnd, hmem⟩ := indexNames_keys
    (cert.DNSNames ++ (if cert.SubjectCommonName ≠ "" then [cert.SubjectCommonName] else []))
    0 [] (by simp)
  have hvals : (GetIdentifiersFromCert range cert).map acme.Identifier.Value =
      (range (indexNames (cert.DNSNames ++
        (if cert.SubjectCommonName ≠ "" then [cert.SubjectCommonName] else [])) 0 [])).map
        Prod.fst := by
    simp [GetIdentifiersFromCert, List.map_map, Function.comp_def]
  have hperm := (hrange (indexNames (cert.DNSNames ++
        (if cert.SubjectCommonName ≠ "" then [cert.SubjectCommonName] else [])) 0 [])).map
        Prod.fst
  have hnd2 : ((GetIdentifiersFromCert range cert).map acme.Identifier.Value).Nodup := by
    rw [hvals]; exact hperm.nodup_iff.mpr hnd
  refine ⟨List.Nodup.of_map _ hnd2, ?_, ?_, ?_⟩
  · intro ident hident
    simp only [GetIdentifiersFromCert, List.mem_map] at hident
    obtain ⟨e, _, rfl⟩ := hident
    rfl
  · intro name
    rw [hvals, hperm.mem_iff, hmem name]
    by_cases hcn : cert.SubjectCommonName = ""
    · simp [hcn]
    · simp [hcn]
  · have hlen : (GetIdentifiersFromCert range cert).length =
        ((GetIdentifiersFromCert range cert).map acme.Identifier.Value).length := by simp
    rw [hlen, ← List.toFinset_card_of_nodup hnd2]
    congr 1
    ext name
    simp only [List.mem_toFinset]
    rw [hvals, hperm.mem_iff, hmem name]
    simp

/-- C26 at a concrete certificate: common name `localhost1`, SANs `localhost1`
and `localhost2` (a case of `TestGetACMEIdentifiers`), the map visited from
its last entry to its first. -/
theorem GetIdentifiersFromCert_spec_witness :
    GetIdentifiersFromCert List.reverse sampleCertTwoNames =
      [{ Typ := "dns", Value := "localhost2" }, { Typ := "dns", Value := "localhost1" }] ∧
    (GetIdentifiersFromCert List.reverse sampleCertTwoNames).Nodup ∧
    (∀ ident ∈ GetIdentifiersFromCert List.reverse sampleCertTwoNames, ident.Typ = "dns") ∧
    (∀ name, name ∈ (GetIdentifiersFromCert List.reverse sampleCertTwoNames).map
        acme.Identifier.Value ↔
      name ∈ sampleCertTwoNames.DNSNames ∨
        (name = sampleCertTwoNames.SubjectCommonName ∧
          sampleCertTwoNames.SubjectCommonName ≠ "")) ∧
    (GetIdentifiersFromCert List.reverse sampleCertTwoNames).length =
      (sampleCertTwoNames.DNSNames ++
        (if sampleCertTwoNames.SubjectCommonName ≠ "" then
          [sampleCertTwoNames.SubjectCommonName] else [])).toFinset.card :=
  ⟨by decide, GetIdentifiersFromCert_spec List.reverse sampleCertTwoNames
    (fun m => List.reverse_perm m)⟩

/-! ### Verification of the peer certificate -/

theorem verifyNames_true (lib : Lib) (leaf : X509Certificate)
    (intermediatePool rootcertPool : List X509Certificate) (allowedCNs : List String) :
    verifyNames lib leaf intermediatePool rootcertPool allowedCNs true = true := by
  induction allowedCNs with
  | nil => rfl
  | cons allowedCN rest ih =>
    simp only [verifyNames]
    split
    · rfl
    · exact ih

/-- C29 (the code at the failing input): a peer that presents two
certificates, with a library for which the leaf verifies for no name at all.
The check returns nil. It does so for every peer whose certificates parse and
number two or more, whatever the allowed names, the roots and the verdicts of
the verification are: the variable `verified` starts as `true` and is never
set to `false`. -/
theorem customVerify_accepts_unverified :
    (∀ opts, sampleLib.CertificateVerify
        { PublicKey := .rsa 3233 17, SerialNumber := 77, RawIssuer := [48, 1] } opts
      = some (.plain "x509: certificate signed by unknown authority")) ∧
    customVerify sampleLib [] ["storage.brick.internal"] [[48, 1], [48, 2]]
      = .returned none ∧
    (∀ (lib : Lib) (rootcertPool : List X509Certificate) (allowedCNs : List String)
        (rawCerts : List (List UInt8)) (certs : List X509Certificate),
      parseAll lib rawCerts = .ok certs → 2 ≤ certs.length →
      customVerify lib rootcertPool allowedCNs rawCerts = .returned none) := by
  refine ⟨fun _ => rfl, by decide, ?_⟩
  intro lib rootcertPool allowedCNs rawCerts certs hparse hlen
  unfold customVerify
  rw [hparse]
  match certs, hlen with
  | leaf :: second :: rest, _ =>
    simp [verifyNames_true]

/-! ### The authorization document -/

theorem challengesForDisplay_eq (wfe : WebFrontEndImpl) (status : String)
    (challenges : List core.Challenge) :
    wfe.challengesForDisplay status challenges =
      (if status = "pending" then challenges
       else if status = "valid" then challenges.filter (fun c => c.Status = "valid")
       else if status = "invalid" then challenges.filter (fun c => c.Status = "invalid")
       else []).map wfe.challengeForDisplay := by
  induction challenges with
  | nil =>
    simp only [WebFrontEndImpl.challengesForDisplay]
    split
    · rfl
    · split
      · rfl
      · split <;> rfl
  | cons c rest ih =>
    simp only [WebFrontEndImpl.challengesForDisplay, ih, StatusPending, StatusValid,
      StatusInvalid]
    by_cases hp : status = "pending"
    · simp [hp]
    · by_cases hv : status = "valid"
      · by_cases hc : c.Status = "valid" <;> simp [hv, hc]
      · by_cases hi : status = "invalid"
        · by_cases hc : c.Status = "invalid" <;> simp [hi, hc]
        · simp [hp, hv, hi]

/-- C30: for an authorization that storage returns and that the requester may
see, the document of `getAuthzJSON` lists, for the status `pending`, every
challenge of the authorization in order; for `valid`, the challenges whose
status is `valid`, in order; for `invalid`, those whose status is `invalid`;
and for every other status no challenge. A listed challenge has the type,
token, status and error of the stored challenge, and, the RFC 3339 text of a
time never being empty, its `validated` field is empty exactly when the
validated-at time is zero. -/
theorem getAuthzJSON_challenges (wfe : WebFrontEndImpl) (log : List Call) (ID : String)
    (requestingAccountID : String) (authz : core.Authorization)
    (hfound : wfe.db.GetAuthorizationByID log ID = .ok authz)
    (howner : requestingAccountID = authz.AccountID ∨
      (requestingAccountID = "" ∧ wfe.ProhibitGet = false))
    (hformat : ∀ t, wfe.lib.FormatRFC3339 t ≠ "") :
    wfe.getAuthzJSON log ID requestingAccountID =
      (log ++ [Call.GetAuthorizationByID ID], .ok
        { Status := authz.Status, Identifier := authz.Identifier,
          Expires := wfe.lib.FormatRFC3339 authz.ExpiresDate, Wildcard := authz.Wildcard,
          Challenges :=
            (if authz.Status = "pending" then authz.Challenges
             else if authz.Status = "valid" then
               authz.Challenges.filter (fun c => c.Status = "valid")
             else if authz.Status = "invalid" then
               authz.Challenges.filter (fun c => c.Status = "invalid")
             else []).map wfe.challengeForDisplay }) ∧
    (∀ c : core.Challenge,
      (wfe.challengeForDisplay c).Typ = c.Typ ∧
      (wfe.challengeForDisplay c).Token = c.Token ∧
      (wfe.challengeForDisplay c).Status = c.Status ∧
      (wfe.challengeForDisplay c).Error = c.Error ∧
      ((wfe.challengeForDisplay c).Validated = "" ↔ c.ValidatedAt = 0)) := by
  constructor
  · unfold WebFrontEndImpl.getAuthzJSON
    rw [hfound]
    have hno : ¬ (requestingAccountID ≠ authz.AccountID ∧
        (if requestingAccountID = "" then wfe.ProhibitGet = true else True)) := by
      rintro ⟨h1, h2⟩
      rcases howner with h | ⟨h, hget⟩
      · exact h1 h
      · simp [h, hget] at h2
    simp only [hno, if_false, challengesForDisplay_eq]
  · intro c
    refine ⟨rfl, rfl, rfl, rfl, ?_⟩
    by_cases hz : c.ValidatedAt = 0
    · simp [WebFrontEndImpl.challengeForDisplay, hz]
    · simp [WebFrontEndImpl.challengeForDisplay, hz, hformat]

theorem formatRFC3339UTC_ne_empty (t : Nat) : formatRFC3339UTC t ≠ "" := by
  intro h
  have := congrArg String.length h
  simp [formatRFC3339UTC, pad4, pad2] at this

/-- C30 at a concrete authorization: the valid sample authorization with a
valid and a pending challenge, asked for by its owner; the document lists the
valid challenge alone. -/
theorem getAuthzJSON_challenges_witness :
    (sampleWFEAuthz sampleAuthzValid).getAuthzJSON [] "authz-1" "acct-1" =
      ([Call.GetAuthorizationByID "authz-1"], .ok
        { Status := "valid", Identifier := { Typ := "dns", Value := "example.test" },
          Expires := "0001-01-01T00:00:00Z",
          Challenges :=
            [{ Typ := "http-01", URL := "http://localhost/chalZ/chal-1",
               Token := "evaGxfADs6pSRb2LAv9IZf17Dt3juxGJ-PCt92wr-oA", Status := "valid",
               Validated := "2019-05-17T10:00:00Z" }] }) ∧
    ((sampleWFEAuthz sampleAuthzValid).getAuthzJSON [] "authz-1" "acct-1" =
      ([] ++ [Call.GetAuthorizationByID "authz-1"], .ok
        { Status := sampleAuthzValid.Status, Identifier := sampleAuthzValid.Identifier,
          Expires := (sampleWFEAuthz sampleAuthzValid).lib.FormatRFC3339
            sampleAuthzValid.ExpiresDate,
          Wildcard := sampleAuthzValid.Wildcard,
          Challenges :=
            (if sampleAuthzValid.Status = "pending" then sampleAuthzValid.Challenges
             else if sampleAuthzValid.Status = "valid" then
               sampleAuthzValid.Challenges.filter (fun c => c.Status = "valid")
             else if sampleAuthzValid.Status = "invalid" then
               sampleAuthzValid.Challenges.filter (fun c => c.Status = "invalid")
             else []).map (sampleWFEAuthz sampleAuthzValid).challengeForDisplay }) ∧
    (∀ c : core.Challenge,
      ((sampleWFEAuthz sampleAuthzValid).challengeForDisplay c).Typ = c.Typ ∧
      ((sampleWFEAuthz sampleAuthzValid).challengeForDisplay c).Token = c.Token ∧
      ((sampleWFEAuthz sampleAuthzValid).challengeForDisplay c).Status = c.Status ∧
      ((sampleWFEAuthz sampleAuthzValid).challengeForDisplay c).Error = c.Error ∧
      (((sampleWFEAuthz sampleAuthzValid).challengeForDisplay c).Validated = "" ↔
        c.ValidatedAt = 0))) :=
  ⟨by decide,
   getAuthzJSON_challenges (sampleWFEAuthz sampleAuthzValid) [] "authz-1" "acct-1"
    sampleAuthzValid (by decide) (Or.inl rfl) formatRFC3339UTC_ne_empty⟩

/-! ### Error group -/

/-- C25 (the code at the failing input): one task that returns nil, as in
`TestOneNoError`. When `Go` tests the counter before the task has finished,
`Wait` returns nil. When the task finishes between `close(g.start)` and the
test `g.count == 0` of `Go`, the task has closed `done` and `Go` closes it a
second time: the process panics and `Wait` returns nothing. A group in which
a task fails is not affected: `Wait` returns the error of the task that
failed first. -/
theorem ErrGroup_Go_closes_done_twice :
    ((errgroup.New.Add none).run
        [.caller, .caller, .task 0, .task 0, .caller]).caller = .back none ∧
    ((errgroup.New.Add none).run
        [.caller, .caller, .task 0, .task 0, .caller]).crashed = false ∧
    ((errgroup.New.Add none).run [.caller, .task 0, .task 0]).doneClosed = true ∧
    ((errgroup.New.Add none).run [.caller, .task 0, .task 0]).count = 0 ∧
    ((errgroup.New.Add none).run [.caller, .task 0, .task 0, .caller]).crashed = true ∧
    (∀ rest, (((errgroup.New.Add none).run [.caller, .task 0, .task 0, .caller]).run
        rest).caller = .inGo) ∧
    ((((errgroup.New.Add none).Add (some (.plain "first"))).Add (some (.plain "second"))).run
        [.caller, .task 2, .task 0, .task 2, .caller, .task 1, .task 0, .task 1,
         .caller]).caller = .back (some (.plain "second")) := by
  refine ⟨by decide, by decide, by decide, by decide, by decide, ?_, by decide⟩
  intro rest
  have hcrash : ∀ (g : ErrGroup) (schedule : List Actor), g.crashed = true →
      g.run schedule = g := by
    intro g schedule hg
    induction schedule with
    | nil => rfl
    | cons a rest ih =>
      simp only [ErrGroup.run, List.foldl_cons] at ih ⊢
      have : g.step a = g := by simp [ErrGroup.step, hg]
      rw [this]
      exact ih
  rw [hcrash _ rest (by decide)]
  decide

end Brick
